import Mathlib

/-!
# gsky OWS front end: coverage tiling, peer distribution, response naming, dispatch

A shallow embedding of the parts of `ows.go` that the verified properties are
about, followed by the properties.

Conventions of the embedding:
* Go `int` values are modelled by `Int` and `float64` values by exact rationals
  (`ℚ`): arithmetic is exact, without wrap-around or rounding error.
* A loop whose termination depends on the configuration carries a step budget
  and returns `none` when the budget is exhausted.
* A run-time failure (index out of range, nil dereference) is an explicit
  outcome, `none` or `panic`, of the function in which it can occur.
* Functions of the `utils` and `processor` packages that `ows.go` calls are
  parameters of the definitions that use them.
-/

namespace GSky

/-! # Definitions -/

/-! ## Numeric conversions -/

/-- Go's conversion `int(f)` of a floating point value: the fractional part is
discarded (truncation toward zero). -/
def goInt (q : ℚ) : Int :=
  if 0 ≤ q then ⌊q⌋ else ⌈q⌉

/-- Go's `math.Round`: the nearest integer, halves rounded away from zero. -/
def mathRound (q : ℚ) : ℚ :=
  if 0 ≤ q then ((⌊q + 1 / 2⌋ : Int) : ℚ) else ((⌈q - 1 / 2⌉ : Int) : ℚ)

/-- The values of Go's `float64` that a quotient or a comparison of the handlers
can meet: the finite values, taken as exact rationals (rounding error
apart), the two infinities and NaN. -/
inductive Float64 where
  | nan
  | negInf
  | fin (q : ℚ)
  | posInf
  deriving DecidableEq

/-- The quotient `a / b` of two finite values whose divisor is the conversion
of an `int` (its zero is the positive zero): division by zero gives the
infinity of the sign of `a`, and NaN for a zero `a`. -/
def Float64.quot (a b : ℚ) : Float64 :=
  if b ≠ 0 then .fin (a / b)
  else if 0 < a then .posInf
  else if a < 0 then .negInf
  else .nan

/-- Go's comparison `x > y` of two `float64` values: false as soon as one of
them is NaN. -/
def Float64.gt : Float64 → Float64 → Bool
  | .nan, _ => false
  | _, .nan => false
  | .fin a, .fin b => decide (b < a)
  | .fin _, .negInf => true
  | .fin _, .posInf => false
  | .posInf, .posInf => false
  | .posInf, _ => true
  | .negInf, _ => false

/-- The product `x * k` of a `float64` value with a finite constant. -/
def Float64.mulFin (x : Float64) (k : ℚ) : Float64 :=
  match x with
  | .nan => .nan
  | .fin q => .fin (q * k)
  | .posInf => if 0 < k then .posInf else if k < 0 then .negInf else .nan
  | .negInf => if 0 < k then .negInf else if k < 0 then .posInf else .nan

/-- The smallest value of Go's 64-bit `int`. -/
def minInt64 : Int := -2 ^ 63

/-- The conversion `int(.5 + a / b)` of a `float64` quotient to an `int`
(exact arithmetic, rounding error apart).  For a zero divisor the quotient is
NaN or infinite; Go leaves the conversion of such a value to the
implementation, and on amd64 it gives the smallest `int`. -/
def roundedQuot (a b : ℚ) : Int :=
  if b = 0 then minInt64 else goInt (1 / 2 + a / b)

/-- Element `i` of a bounding box slice.  `serveWCS` and `serveWMS` check
`len(params.BBox) == 4` before any element is read. -/
def bboxAt (bbox : List ℚ) (i : Nat) : ℚ :=
  bbox.getD i 0

/-! ## Tile requests -/

/-- The fields of `proc.GeoTileRequest` that `serveWCS` computes per tile.  The
remaining payload (band expressions, mask, palette, scale parameters, times) is
copied unchanged from the layer configuration into every request. -/
structure GeoTileRequest where
  CRS : String
  BBox : List ℚ
  Height : Int
  Width : Int
  OffX : Int
  OffY : Int
  ZoomLimit : ℚ
  QueryLimit : Int
  deriving DecidableEq

/-- The closure `getGeoTileRequest` of `serveWCS` (ows.go:642). -/
def getGeoTileRequest (crs : String) (width height : Int) (bbox : List ℚ)
    (offX offY : Int) : GeoTileRequest :=
  { CRS := crs, BBox := bbox, Height := height, Width := width,
    OffX := offX, OffY := offY, ZoomLimit := 0, QueryLimit := -1 }

/-- Body of the inner tiling loop of `serveWCS` (ows.go:725-733) at grid origin
`(x, y)`: the tile's geographic window, its rounded pixel size and its placement
in the master frame.  For a bounding box of zero extent the resolution is zero
and the pixel size is the conversion of NaN. -/
def tileBody (crs : String) (W H maxXTileSize maxYTileSize : Int) (bbox : List ℚ)
    (x y : Int) : GeoTileRequest :=
  let xRes := (bboxAt bbox 2 - bboxAt bbox 0) / (W : ℚ)
  let yRes := (bboxAt bbox 3 - bboxAt bbox 1) / (H : ℚ)
  let yMin := bboxAt bbox 1 + (y : ℚ) * yRes
  let yMax := min (bboxAt bbox 1 + ((y + maxYTileSize : Int) : ℚ) * yRes) (bboxAt bbox 3)
  let xMin := bboxAt bbox 0 + (x : ℚ) * xRes
  let xMax := min (bboxAt bbox 0 + ((x + maxXTileSize : Int) : ℚ) * xRes) (bboxAt bbox 2)
  let tileXSize := roundedQuot (xMax - xMin) xRes
  let tileYSize := roundedQuot (yMax - yMin) yRes
  getGeoTileRequest crs tileXSize tileYSize [xMin, yMin, xMax, yMax] x (H - y - tileYSize)

/-- Inner loop `for x := 0; x < W; x += maxXTileSize` (ows.go:724), started at
`x` with the tiles collected so far; `none` when the step budget runs out.  The
counter is an exact integer, as the `int` counter of the code is while it does
not overflow; `tileLoopX64` is the loop with the counter that wraps around. -/
def tileLoopX (crs : String) (W H maxXTileSize maxYTileSize : Int) (bbox : List ℚ)
    (y : Int) : Nat → Int → List GeoTileRequest → Option (List GeoTileRequest)
  | 0, _, _ => none
  | fuel + 1, x, acc =>
    if x < W then
      tileLoopX crs W H maxXTileSize maxYTileSize bbox y fuel (x + maxXTileSize)
        (acc ++ [tileBody crs W H maxXTileSize maxYTileSize bbox x y])
    else some acc

/-- Outer loop `for y := 0; y < H; y += maxYTileSize` (ows.go:723); every row
runs the inner loop with the budget `fuelX`.  The counter is an exact integer;
`tileLoopY64` is the loop with the counter that wraps around. -/
def tileLoopY (crs : String) (W H maxXTileSize maxYTileSize : Int) (bbox : List ℚ)
    (fuelX : Nat) : Nat → Int → List GeoTileRequest → Option (List GeoTileRequest)
  | 0, _, _ => none
  | fuel + 1, y, acc =>
    if y < H then
      match tileLoopX crs W H maxXTileSize maxYTileSize bbox y fuelX 0 acc with
      | none => none
      | some acc1 =>
        tileLoopY crs W H maxXTileSize maxYTileSize bbox fuelX fuel (y + maxYTileSize) acc1
    else some acc

/-- The tile decomposition of `serveWCS` (ows.go:719-736): `tmpTileRequests`
after the nested loops, with `fuel` steps allowed to each loop. -/
def tmpTileRequests (fuel : Nat) (crs : String) (W H maxXTileSize maxYTileSize : Int)
    (bbox : List ℚ) : Option (List GeoTileRequest) :=
  tileLoopY crs W H maxXTileSize maxYTileSize bbox fuel fuel 0 []

/-! ## The tiling loops with the counters of type `int` -/

/-- The value of an `int` expression on a 64-bit platform: `n` wrapped around
into the range from `-2^63` to `2^63 - 1`. -/
def wrap64 (n : Int) : Int :=
  (n + 2 ^ 63) % 2 ^ 64 - 2 ^ 63

/-- The inner loop `for x := 0; x < W; x += maxXTileSize` (ows.go:724) with its
counter of type `int`, started at `x`: the values of `x` at which the body
runs, in order; `none` when the step budget runs out. -/
def tileLoopX64 (W maxXTileSize : Int) : Nat → Int → List Int → Option (List Int)
  | 0, _, _ => none
  | fuel + 1, x, acc =>
    if x < W then tileLoopX64 W maxXTileSize fuel (wrap64 (x + maxXTileSize)) (acc ++ [x])
    else some acc

/-- The outer loop `for y := 0; y < H; y += maxYTileSize` (ows.go:723) with its
counter of type `int`: the pairs `(x, y)` at which the body runs, in order;
every row runs the inner loop with the budget `fuelX`. -/
def tileLoopY64 (W H maxXTileSize maxYTileSize : Int) (fuelX : Nat) :
    Nat → Int → List (Int × Int) → Option (List (Int × Int))
  | 0, _, _ => none
  | fuel + 1, y, acc =>
    if y < H then
      match tileLoopX64 W maxXTileSize fuelX 0 [] with
      | none => none
      | some xs =>
        tileLoopY64 W H maxXTileSize maxYTileSize fuelX fuel (wrap64 (y + maxYTileSize))
          (acc ++ xs.map fun x => (x, y))
    else some acc

/-- The iterations of the nested tiling loops of `serveWCS` (ows.go:723-736)
with counters of type `int`: the grid origins `(x, y)` at which the body runs,
with `fuel` steps allowed to each loop.  The body appends one tile per
iteration and changes neither counter. -/
def tileIterations64 (fuel : Nat) (W H maxXTileSize maxYTileSize : Int) :
    Option (List (Int × Int)) :=
  tileLoopY64 W H maxXTileSize maxYTileSize fuel fuel 0 []

/-! ## Peer distribution -/

/-- Go slice expression `s[b:e]`; `none` stands for the run-time failure on
bounds that are out of range.  The high bound is checked against the length:
`serveWCS` clamps `iEnd` to `len(tmpTileRequests)` before slicing. -/
def goSlice {α : Type} (s : List α) (b e : Int) : Option (List α) :=
  if 0 ≤ b ∧ b ≤ e ∧ e ≤ (s.length : Int) then
    some ((s.drop b.toNat).take (e.toNat - b.toNat))
  else none

/-- Constant `minTilesPerWorker` of `serveWCS` (ows.go:635). -/
def minTilesPerWorker : Int := 5

/-- Batch size of `serveWCS` (ows.go:757-760):
`int(math.Round(float64(len(tmpTileRequests)) / float64(nWorkers)))`, raised to
`minTilesPerWorker` when smaller. -/
def tilesPerWorker (nTiles nWorkers : Int) : Int :=
  let t := goInt (mathRound ((nTiles : ℚ) / (nWorkers : ℚ)))
  if t < minTilesPerWorker then minTilesPerWorker else t

/-- Loop `for i := 0; i < nWorkers; i++` of `serveWCS` (ows.go:763-775).  The
first argument counts the iterations still allowed by the loop condition
(`nWorkers - i`); the loop also stops after the batch whose end was clamped. -/
def distributeLoop {α : Type} (tiles : List α) (perWorker : Int) :
    Nat → Int → List (List α) → Option (List (List α))
  | 0, _, acc => some acc
  | remaining + 1, i, acc =>
    let iBgn := i * perWorker
    let iEnd := iBgn + perWorker
    let isLastWorker := decide (iEnd > (tiles.length : Int))
    let iEnd1 := if isLastWorker then (tiles.length : Int) else iEnd
    match goSlice tiles iBgn iEnd1 with
    | none => none
    | some batch =>
      if isLastWorker then some (acc ++ [batch])
      else distributeLoop tiles perWorker remaining (i + 1) (acc ++ [batch])

/-- The batches `workerTileRequests` that `serveWCS` builds from the tile list
for `nPeers` peer front ends (`nWorkers = len(wcsWorkerNodes) + 1`); `none`
stands for a run-time failure of the slice expression. -/
def workerTileRequests {α : Type} (tiles : List α) (nPeers : Nat) : Option (List (List α)) :=
  distributeLoop tiles (tilesPerWorker (tiles.length : Int) ((nPeers : Int) + 1)) (nPeers + 1) 0 []

/-- Peer selection of `serveWCS` (ows.go:738-754): the cluster nodes whose URL
parses and whose host differs from `OWSHostname`.  `urlHost` is `url.Parse`
followed by `.Host`, `none` when parsing fails. -/
def wcsWorkerNodes (urlHost : String → Option String) (clusterNodes : List String)
    (owsHostname : String) : List String :=
  clusterNodes.filter fun worker =>
    match urlHost worker with
    | none => false
    | some host => !(host == owsHostname)

/-! ## Building the tile requests of a GetCoverage request -/

/-- How a handler stops before producing its result: an HTTP error status
written with `http.Error`, or a run-time failure (nil dereference, index out of
range). -/
inductive Halt where
  | status (code : Nat)
  | panic
  deriving DecidableEq

/-- Query parameters: `map[string][]string`, keys already normalised. -/
abbrev Query := List (String × List String)

/-- Map read `query[key]`: the `nil` slice when the key is absent. -/
def Query.values (q : Query) (key : String) : List String :=
  (q.lookup key).getD []

/-- Map write `query[key] = vals`. -/
def Query.set (q : Query) (key : String) (vals : List String) : Query :=
  (key, vals) :: q.filter fun kv => !(kv.1 == key)

/-- The following fields of `utils.Layer` are read by the tiling code. -/
structure Layer where
  WcsMaxWidth : Int
  WcsMaxHeight : Int
  WcsMaxTileWidth : Int
  WcsMaxTileHeight : Int

/-- The fields of `utils.WCSParams` used after the presence checks of
`serveWCS` (ows.go:566-600) have passed. -/
structure WCSParams where
  CRS : String
  BBox : List ℚ
  Width : Int
  Height : Int

/-- The fields of `utils.WMSParams` that the worker branch reads from the
result of `utils.WMSParamsChecker`; pointer fields are `none` when nil. -/
structure WorkerParams where
  BBox : List ℚ
  Width : Option Int
  Height : Option Int
  X : Option Int
  Y : Option Int

/-- The type of `utils.WMSParamsChecker` applied to the map `wParams` built in
the worker loop from one group `(bbox, width, height, x, y)`; the checker is not
part of the sources at hand and is a parameter of the model. -/
abbrev WorkerChecker := String → String → String → String → String → Except String WorkerParams

/-- Loop `for iw, bbox := range workerBbox` of `serveWCS` (ows.go:803-818). -/
def workerLoop (checker : WorkerChecker) (crs : String)
    (workerWidth workerHeight workerOffX workerOffY : List String) :
    List String → Nat → List GeoTileRequest → Except Halt (List GeoTileRequest)
  | [], _, acc => .ok acc
  | bbox :: rest, iw, acc =>
    match workerWidth[iw]?, workerHeight[iw]?, workerOffX[iw]?, workerOffY[iw]? with
    | some width, some height, some offX, some offY =>
      match checker bbox width height offX offY with
      | .error _ => .error (.status 400)
      | .ok wp =>
        match wp.Width, wp.Height, wp.X, wp.Y with
        | some w, some h, some x, some y =>
          workerLoop checker crs workerWidth workerHeight workerOffX workerOffY rest (iw + 1)
            (acc ++ [getGeoTileRequest crs w h wp.BBox x y])
        | _, _, _, _ => .error .panic
    | _, _, _, _ => .error .panic

/-- Arity check of the worker branch (ows.go:782-787): the first of `wwidth`,
`wheight`, `woffx`, `woffy` whose length differs from `wbbox` ends the request
with status 400. -/
def workerArityOk (query : Query) : Bool :=
  ["wwidth", "wheight", "woffx", "woffy"].all fun qParams =>
    (query.values qParams).length == (query.values "wbbox").length

/-- Extent resolution of `serveWCS` (ows.go:679-710): a request with
non-positive width or height is refused in worker mode and otherwise takes the
extent `probe = (maxWidth, maxHeight)` computed by
`proc.ComputeReprojectionExtent`, which must be positive. -/
def resolveExtent (isWorker : Bool) (probe : Int × Int) (params : WCSParams) :
    Except Halt (Int × Int) :=
  if params.Width ≤ 0 ∨ params.Height ≤ 0 then
    if isWorker then .error (.status 500)
    else if probe.1 > 0 ∧ probe.2 > 0 then .ok (probe.1, probe.2)
    else .error (.status 500)
  else .ok (params.Width, params.Height)

/-- The part of `serveWCS` GetCoverage between the CRS check and the tile
pipeline (ows.go:679-821): the batches `workerTileRequests`.  `probe` is the
result `(maxWidth, maxHeight)` of `proc.ComputeReprojectionExtent`, `peers` the
list `wcsWorkerNodes`, `checker` the parameter checker applied to each worker
group.  The outer `Option` is `none` when the tiling loops do not finish within
`fuel` steps. -/
def serveWCSTileRequests (fuel : Nat) (layer : Layer) (peers : List String)
    (probe : Int × Int) (checker : WorkerChecker) (query : Query) (params : WCSParams) :
    Option (Except Halt (List (List GeoTileRequest))) :=
  let isWorker := (query.lookup "wbbox").isSome
  match resolveExtent isWorker probe params with
  | .error e => some (.error e)
  | .ok (width, height) =>
    if height > layer.WcsMaxHeight ∨ width > layer.WcsMaxWidth then some (.error (.status 400))
    else if !isWorker then
      if width > layer.WcsMaxTileWidth ∨ height > layer.WcsMaxTileHeight then
        match tmpTileRequests fuel params.CRS width height layer.WcsMaxTileWidth
            layer.WcsMaxTileHeight params.BBox with
        | none => none
        | some tiles =>
          match workerTileRequests tiles peers.length with
          | none => some (.error .panic)
          | some batches => some (.ok batches)
      else some (.ok [[getGeoTileRequest params.CRS width height params.BBox 0 0]])
    else if !workerArityOk query then some (.error (.status 400))
    else
      match workerLoop checker params.CRS (query.values "wwidth") (query.values "wheight")
          (query.values "woffx") (query.values "woffy") (query.values "wbbox") 0 [] with
      | .error e => some (.error e)
      | .ok tiles => some (.ok [tiles])

/-- The tiles that `serveWCS` passes to `tp.Process` (ows.go:909-915): the
elements of `workerTileRequests[0]`, in order. -/
def submittedTiles (batches : List (List GeoTileRequest)) : List GeoTileRequest :=
  batches.headD []

/-- Number of grid cells along an axis of `extent` pixels cut in steps of
`step`: `ceil(extent / step)`. -/
def gridCount (extent step : Int) : Nat :=
  Int.toNat ⌈(extent : ℚ) / (step : ℚ)⌉

/-- Pixel `(i, j)` of the master frame lies in the rectangle
`[OffX, OffX+Width) x [OffY, OffY+Height)` written by the tile. -/
def GeoTileRequest.covers (t : GeoTileRequest) (i j : Int) : Bool :=
  decide (t.OffX ≤ i ∧ i < t.OffX + t.Width ∧ t.OffY ≤ j ∧ j < t.OffY + t.Height)

/-- The tile rectangle lies inside the `W x H` master frame. -/
def GeoTileRequest.inFrame (t : GeoTileRequest) (W H : Int) : Prop :=
  0 ≤ t.OffX ∧ t.OffX + t.Width ≤ W ∧ 0 ≤ t.OffY ∧ t.OffY + t.Height ≤ H

/-! ## The parameter checker applied to a worker group -/

/-- Value of a string of decimal digits. -/
def digitsValue (cs : List Char) : Nat :=
  cs.foldl (fun n c => 10 * n + (c.toNat - 48)) 0

/-- Fields separated by commas. -/
def splitOnComma : List Char → List (List Char)
  | [] => [[]]
  | c :: cs =>
    match splitOnComma cs with
    | [] => [[]]
    | w :: ws => if c = ',' then [] :: w :: ws else (c :: w) :: ws

/-- Modelled from the spec: the integer validator of the parameter parser
(`utils.WMSParamsChecker`, not part of the sources at hand) for `width`,
`height`, `x` and `y`: a regular expression for a decimal integer followed by
the conversion. -/
def parseUint (s : String) : Option Int :=
  let cs := s.toList
  if cs.isEmpty then none
  else if cs.all Char.isDigit then some (digitsValue cs : Int)
  else none

/-- Modelled from the spec: the number validator of the parameter parser
(`utils.WMSParamsChecker`, not part of the sources at hand) for one `bbox`
coordinate: optional sign, integer digits, optional fraction. -/
def parseDecimal (cs : List Char) : Option ℚ :=
  let neg := cs.head? == some '-'
  let body := match cs with
    | '-' :: r => r
    | '+' :: r => r
    | r => r
  let ip := body.takeWhile fun c => c != '.'
  let fp := (body.dropWhile fun c => c != '.').drop 1
  if ip.isEmpty || !ip.all Char.isDigit || !fp.all Char.isDigit then none
  else
    let v : ℚ := (digitsValue ip : ℚ) + (digitsValue fp : ℚ) / (10 : ℚ) ^ fp.length
    some (if neg then -v else v)

/-- Modelled from the spec: the `bbox` validator of the parameter parser
(`utils.WMSParamsChecker`, not part of the sources at hand): four numbers
separated by commas. -/
def parseBBox (s : String) : Option (List ℚ) :=
  match (splitOnComma s.toList).map parseDecimal with
  | [some a, some b, some c, some d] => some [a, b, c, d]
  | _ => none

/-- Modelled from the spec: `utils.WMSParamsChecker` (not part of the sources at
hand) on the map `wParams` of one worker group: `bbox` is validated as four
numbers, `width`, `height`, `x`, `y` as decimal integers, each converted to its
typed field; a malformed field is an error. -/
def WMSParamsChecker : WorkerChecker := fun bbox width height x y =>
  match parseBBox bbox, parseUint width, parseUint height, parseUint x, parseUint y with
  | some b, some w, some h, some ox, some oy =>
    .ok { BBox := b, Width := some w, Height := some h, X := some ox, Y := some oy }
  | _, _, _, _, _ => .error "malformed parameter"

/-! ## Response naming of a coverage -/

/-- Go's `unicode.ToLower` as far as its value can be an ASCII character.  The
characters whose lower case is an ASCII letter are the capitals `A`-`Z`,
U+0130 (capital I with dot above, lower case `i`) and U+212A (the Kelvin sign,
lower case `k`); Go maps every other character to itself or to a character
outside ASCII, and such a character is kept unchanged here.  The result
therefore agrees with Go's in every comparison with an ASCII string, which is
the only use `serveWCS` makes of it. -/
def unicode.ToLower (c : Char) : Char :=
  if c = Char.ofNat 0x130 then 'i'
  else if c = Char.ofNat 0x212A then 'k'
  else c.toLower

/-- Go's `unicode.ToUpper` as far as its value can be an ASCII character.  The
characters whose upper case is an ASCII letter are the small letters `a`-`z`,
U+0131 (dotless small i, upper case `I`) and U+017F (long s, upper case `S`);
Go maps every other character to itself or to a character outside ASCII, and
such a character is kept unchanged here.  The result therefore agrees with
Go's in every comparison with an ASCII string, which is the only use `serveWMS`
makes of it. -/
def unicode.ToUpper (c : Char) : Char :=
  if c = Char.ofNat 0x131 then 'I'
  else if c = Char.ofNat 0x17F then 'S'
  else c.toUpper

/-- Go's `strings.ToLower`: every character is mapped by `unicode.ToLower`. -/
def strings.ToLower (s : String) : String :=
  ⟨s.data.map unicode.ToLower⟩

/-- Go's `strings.ToUpper`: every character is mapped by `unicode.ToUpper`. -/
def strings.ToUpper (s : String) : String :=
  ⟨s.data.map unicode.ToUpper⟩

/-- File extension and content type chosen by `serveWCS` from the requested
format (ows.go:1020-1029): the defaults, overwritten by the two cases of the
switch on `strings.ToLower(*params.Format)`. -/
def fileExtContentType (format : String) : String × String :=
  let fileExt := "wcs"
  let contentType := "application/wcs"
  if strings.ToLower format = "geotiff" then ("tiff", "application/geotiff")
  else if strings.ToLower format = "netcdf" then ("nc", "application/netcdf")
  else (fileExt, contentType)

/-- The Perl class `\s` of Go's regular expressions: tab, line feed, form feed,
carriage return and space. -/
def reSpace (c : Char) : Bool :=
  c == '\t' || c == '\n' || c == Char.ofNat 12 || c == '\r' || c == ' '

/-- The pattern compiled at ows.go:1033, a single negated character class:
a character matches when it is none of `a-z`, `A-Z`, `0-9`, `-`, `_`, `\s`. -/
def reCoverage (c : Char) : Bool :=
  !(c.isLower || c.isUpper || c.isDigit || c == '-' || c == '_' || reSpace c)

/-- Go's `Regexp.ReplaceAllString` for a pattern that is one character class:
every character of `src` that matches is replaced by `repl`, the others are
copied. -/
def ReplaceAllString (re : Char → Bool) (src repl : String) : String :=
  ⟨src.data.flatMap fun c => if re c then repl.data else [c]⟩

/-- The sanitised coverage name `fileNameCoverages` of `serveWCS` (ows.go:1034). -/
def fileNameCoverages (coverage : String) : String :=
  ReplaceAllString reCoverage coverage "-"

/-- The two naming headers of a coverage response. -/
structure CoverageHeaders where
  ContentDisposition : String
  ContentType : String
  deriving DecidableEq

/-- Headers set by `serveWCS` before the coverage is streamed (ows.go:1020-1037).
`coverage` is `params.Coverages[0]` and `fileNameDateTime` the request time
formatted with the ISO layout. -/
def coverageHeaders (format coverage fileNameDateTime : String) : CoverageHeaders :=
  let (fileExt, contentType) := fileExtContentType format
  { ContentDisposition :=
      "attachment; filename=" ++ fileNameCoverages coverage ++ "." ++ fileNameDateTime
        ++ "." ++ fileExt,
    ContentType := contentType }

/-! ## Dispatch of a request to its protocol -/

/-- The table `reqService` of `generalHandler` (ows.go:1309-1318). -/
def reqService : List (String × String) :=
  [("GetFeatureInfo", "WMS"), ("GetMap", "WMS"), ("DescribeLayer", "WMS"),
   ("GetLegendGraphic", "WMS"), ("DescribeCoverage", "WCS"), ("GetCoverage", "WCS"),
   ("DescribeProcess", "WPS"), ("Execute", "WPS")]

/-- What a case of the protocol switch of `generalHandler` does: the parameter
checker fails (status 400, the handler is not called), a run-time failure, or
the call of the protocol handler with the checked parameters. -/
inductive Arm (P : Type) where
  | paramError
  | panic
  | serve (params : P)

/-- Outcome of `generalHandler` (ows.go:1285-1361), by the place where it
ends.  `postError`, `notOWS` and `invalidService` are the three `http.Error`
calls of the dispatcher itself; `wms`, `wcs`, `wps` are the cases of the switch
on `query["service"][0]`. -/
inductive Dispatch (PM PC PP : Type) where
  | postError
  | notOWS
  | invalidService
  | panic
  | wms (arm : Arm PM)
  | wcs (arm : Arm (PC × Query))
  | wps (arm : Arm PP)

/-- Status written by the dispatcher or by a failed parameter check. -/
def Dispatch.status {PM PC PP : Type} : Dispatch PM PC PP → Option Nat
  | .postError => some 400
  | .notOWS => some 400
  | .invalidService => some 400
  | .wms .paramError => some 400
  | .wcs .paramError => some 400
  | .wps .paramError => some 400
  | _ => none

/-- The protocol handler (`serveWMS`, `serveWCS`, `serveWPS`) that is called. -/
def Dispatch.handler {PM PC PP : Type} : Dispatch PM PC PP → Option String
  | .wms (.serve _) => some "WMS"
  | .wcs (.serve _) => some "WCS"
  | .wps (.serve _) => some "WPS"
  | _ => none

/-- The parameter checkers `utils.WMSParamsChecker`, `utils.WCSParamsChecker`
and `utils.WPSParamsChecker`, parameters of the model. -/
structure Checkers (PM PC PP : Type) where
  wms : Query → Except String PM
  wcs : Query → Except String PC
  wps : Query → Except String PP

/-- Service inference of `generalHandler` (ows.go:1306-1329): the query with
its `service` entry, inferred from `request` when absent. -/
def inferService {PM PC PP : Type} (query : Query) : Except (Dispatch PM PC PP) Query :=
  match query.lookup "service" with
  | some _ => .ok query
  | none =>
    match query.lookup "request" with
    | none => .error .notOWS
    | some request =>
      match request[0]? with
      | none => .error .panic
      | some request0 =>
        match reqService.lookup request0 with
        | some service => .ok (query.set "service" [service])
        | none => .error .notOWS

/-- Case `"WMS"` of the switch (ows.go:1332-1338). -/
def wmsArm {PM PC PP : Type} (checkers : Checkers PM PC PP) (query : Query) : Arm PM :=
  match checkers.wms query with
  | .error _ => .paramError
  | .ok params => .serve params

/-- Case `"WCS"` of the switch (ows.go:1339-1349): with the `dap` flag set the
first value of `format` is overwritten before the parameters are checked. -/
def wcsArm {PM PC PP : Type} (dap : Bool) (checkers : Checkers PM PC PP) (query : Query) :
    Arm (PC × Query) :=
  let written : Option Query :=
    if dap then
      match query.values "format" with
      | [] => none
      | _ :: rest => some (query.set "format" ("netcdf" :: rest))
    else some query
  match written with
  | none => .panic
  | some query1 =>
    match checkers.wcs query1 with
    | .error _ => .paramError
    | .ok params => .serve (params, query1)

/-- Case `"WPS"` of the switch (ows.go:1350-1356). -/
def wpsArm {PM PC PP : Type} (checkers : Checkers PM PC PP) (query : Query) : Arm PP :=
  match checkers.wps query with
  | .error _ => .paramError
  | .ok params => .serve params

/-- The part of `generalHandler` after the query has been read
(ows.go:1306-1360): service inference and the protocol switch. -/
def dispatchQuery {PM PC PP : Type} (dap : Bool) (checkers : Checkers PM PC PP)
    (query : Query) : Dispatch PM PC PP :=
  match inferService query with
  | .error d => d
  | .ok query1 =>
    match (query1.values "service")[0]? with
    | none => .panic
    | some service =>
      if service = "WMS" then .wms (wmsArm checkers query1)
      else if service = "WCS" then .wcs (wcsArm dap checkers query1)
      else if service = "WPS" then .wps (wpsArm checkers query1)
      else .invalidService

/-- The request as `generalHandler` reads it (ows.go:1295-1305): a GET with its
normalised URL query, a POST with the result of `utils.ParsePost`, or another
method, for which the query stays the nil map. -/
inductive Request where
  | get (query : Query)
  | post (parsed : Except String Query)
  | other

/-- The handler `generalHandler` (ows.go:1285-1361). -/
def generalHandler {PM PC PP : Type} (dap : Bool) (checkers : Checkers PM PC PP) :
    Request → Dispatch PM PC PP
  | .post (.error _) => .postError
  | .post (.ok query) => dispatchQuery dap checkers query
  | .get query => dispatchQuery dap checkers query
  | .other => dispatchQuery dap checkers []

/-- Checkers that accept every query, used in the examples. -/
def acceptAll : Checkers Unit Unit Unit :=
  { wms := fun _ => .ok (), wcs := fun _ => .ok (), wps := fun _ => .ok () }

/-- Checkers that refuse every query, used in the examples. -/
def refuseAll : Checkers Unit Unit Unit :=
  { wms := fun _ => .error "refused", wcs := fun _ => .error "refused",
    wps := fun _ => .error "refused" }

/-! ## Axis order of a GetMap request -/

/-- The two rewrites of `serveWMS` GetMap (ows.go:274-280) on the CRS and the
bounding box of the request, for the given version. -/
def axisNormalise (version crs : String) (bbox : List ℚ) : String × List ℚ :=
  let bbox1 :=
    if strings.ToUpper crs = "EPSG:4326" ∧ version = "1.3.0" then
      [bboxAt bbox 1, bboxAt bbox 0, bboxAt bbox 3, bboxAt bbox 2]
    else bbox
  let crs1 :=
    if strings.ToUpper crs = "CRS:84" ∧ version = "1.3.0" then "EPSG:4326" else crs
  (crs1, bbox1)

/-! ## The map handler: zoom limit -/

/-- Instants of `time.Time`, compared by `Equal`, `After` and `Before`: a
totally ordered count of time units. -/
abbrev Time := Int

/-- The request `proc.GeoTileRequest` with the payload fields that the map
handler and the indexer read besides the geometry: collection, name spaces,
mask (its identifier, `none` for a nil mask) and the time window. -/
structure GeoTileRequestFull extends GeoTileRequest where
  Collection : String
  NameSpaces : List String
  Mask : Option String
  StartTime : Time
  EndTime : Option Time
  deriving DecidableEq

/-- The following fields of the layer and of its selected style are copied by
`serveWMS` into the tile request of a GetMap. -/
structure MapLayer where
  DataSource : String
  VarList : List String
  Mask : Option String
  ZoomLimit : ℚ

/-- The request `geoReq` built by `serveWMS` GetMap (ows.go:308-328). -/
def getMapTileRequest (layer : MapLayer) (crs : String) (bbox : List ℚ)
    (width height : Int) (startTime : Time) (endTime : Option Time) : GeoTileRequestFull :=
  { CRS := crs, BBox := bbox, Height := height, Width := width, OffX := 0, OffY := 0,
    ZoomLimit := layer.ZoomLimit, QueryLimit := -1,
    Collection := layer.DataSource, NameSpaces := layer.VarList, Mask := layer.Mask,
    StartTime := startTime, EndTime := endTime }

/-- Requested resolution `reqRes` of `serveWMS` GetMap (ows.go:335-344): the
larger of the two per-pixel resolutions, scaled by 100000 for version 1.1.1.
Nothing before these lines rejects a width or height of zero, so that the
quotients can be infinite or NaN. -/
def reqRes (version : String) (bbox : List ℚ) (width height : Int) : Float64 :=
  let xRes := Float64.quot (bboxAt bbox 2 - bboxAt bbox 0) (width : ℚ)
  let yRes := Float64.quot (bboxAt bbox 3 - bboxAt bbox 1) (height : ℚ)
  let reqRes := xRes
  let reqRes := if yRes.gt reqRes then yRes else reqRes
  if version = "1.1.1" then reqRes.mulFin 100000 else reqRes

/-- Where `serveWMS` GetMap sends its request after the resolution has been
computed: to a tile indexer alone (the placeholder branch, ows.go:345-394,
which returns before the tile pipeline is initialised), or to the tile pipeline
initialised at ows.go:398. -/
inductive MapBranch where
  | indexProbe (geoReq : GeoTileRequestFull)
  | tilePipeline (geoReq : GeoTileRequestFull)
  deriving DecidableEq

/-- The zoom limit decision of `serveWMS` GetMap (ows.go:345-350, 398-400): in
the placeholder branch the request is sent to the indexer with its mask
removed and `QueryLimit = 1`. -/
def zoomLimitBranch (version : String) (zoomLimit : ℚ) (bbox : List ℚ) (width height : Int)
    (geoReq : GeoTileRequestFull) : MapBranch :=
  if zoomLimit ≠ 0 ∧ (reqRes version bbox width height).gt (.fin zoomLimit) = true then
    .indexProbe { geoReq with Mask := none, QueryLimit := 1 }
  else .tilePipeline geoReq

/-! ## The tile indexer -/

/-- The fields of `GDALDataset` (tile_indexer.go:22-31) read by `URLIndexGet`. -/
structure GDALDataset where
  DSName : String
  NameSpace : String
  ArrayType : String
  TimeStamps : List Time
  Polygon : String
  deriving DecidableEq

/-- The fields of `MetadataResponse` (tile_indexer.go:33-37) read by
`URLIndexGet`. -/
structure MetadataResponse where
  Error : String
  GDALDatasets : List GDALDataset
  deriving DecidableEq

/-- What `URLIndexGet` obtains from the index: the GET fails, reading the body
fails, the body is not valid JSON, or the decoded document. -/
inductive IndexReply where
  | getFailed
  | readFailed
  | jsonInvalid
  | metadata (m : MetadataResponse)
  deriving DecidableEq

/-- The fields of `GeoTileGranule` set by `URLIndexGet`; scale parameters,
palette and concurrency limit are copied from the request. -/
structure GeoTileGranule where
  NameSpaces : List String
  Mask : Option String
  Path : String
  NameSpace : String
  RasterType : String
  TimeStamps : List Time
  TimeStamp : Time
  Polygon : String
  BBox : List ℚ
  Height : Int
  Width : Int
  OffX : Int
  OffY : Int
  CRS : String
  deriving DecidableEq

/-- The errors that `URLIndexGet` sends on the error channel, by the place
where they are built. -/
inductive IndexError where
  | getFailed
  | readFailed
  | jsonInvalid
  | indexerReturned (msg : String)
  deriving DecidableEq

/-- A send of `URLIndexGet`: on the error channel or on the output channel. -/
inductive Event where
  | error (e : IndexError)
  | granule (g : GeoTileGranule)
  deriving DecidableEq

/-- The sends of one call of `URLIndexGet` in program order, and whether the
call ended in a run-time failure. -/
structure Trace where
  events : List Event
  panicked : Bool
  deriving DecidableEq

/-- The errors of a trace, in order. -/
def Trace.errors (tr : Trace) : List IndexError :=
  tr.events.filterMap fun ev =>
    match ev with
    | .error e => some e
    | .granule _ => none

/-- The granules of a trace, in order. -/
def Trace.granules (tr : Trace) : List GeoTileGranule :=
  tr.events.filterMap fun ev =>
    match ev with
    | .error _ => none
    | .granule g => some g

/-- The sentinel granule that `URLIndexGet` emits when it has no data
(tile_indexer.go:153, 160, 167, 177). -/
def emptyTile (geoReq : GeoTileRequestFull) : GeoTileGranule :=
  { NameSpaces := ["EmptyTile"], Mask := none, Path := "NULL", NameSpace := "EmptyTile",
    RasterType := "Byte", TimeStamps := [], TimeStamp := geoReq.StartTime, Polygon := "",
    BBox := geoReq.BBox, Height := geoReq.Height, Width := geoReq.Width,
    OffX := geoReq.OffX, OffY := geoReq.OffY, CRS := geoReq.CRS }

/-- The granule emitted for dataset `ds` and timestamp `t`
(tile_indexer.go:184). -/
def dataGranule (geoReq : GeoTileRequestFull) (ds : GDALDataset) (t : Time) : GeoTileGranule :=
  { NameSpaces := geoReq.NameSpaces, Mask := geoReq.Mask, Path := ds.DSName,
    NameSpace := ds.NameSpace, RasterType := ds.ArrayType, TimeStamps := ds.TimeStamps,
    TimeStamp := t, Polygon := ds.Polygon, BBox := geoReq.BBox, Height := geoReq.Height,
    Width := geoReq.Width, OffX := geoReq.OffX, OffY := geoReq.OffY, CRS := geoReq.CRS }

/-- Lines of a text: the pieces between line feeds. -/
def splitLines : List Char → List (List Char)
  | [] => [[]]
  | c :: cs =>
    match splitLines cs with
    | [] => [[]]
    | w :: ws => if c = '\n' then [] :: w :: ws else (c :: w) :: ws

/-- The text after the first occurrence of `pat`, when there is one. -/
def afterFirst (pat : List Char) : List Char → Option (List Char)
  | [] => if pat.isEmpty then some [] else none
  | c :: cs =>
    if pat.isPrefixOf (c :: cs) then some ((c :: cs).drop pat.length)
    else afterFirst pat cs

/-- Whether the pattern `(?P<Type>.*):"(?P<File>.*)":(?P<NameSpace>.*)` of
`add_thredds_nc` matches somewhere in `dsName` (`FindStringSubmatch` returns a
non-nil slice): some line holds `:"` and, after it, `":`. -/
def threddsMatch (dsName : String) : Bool :=
  (splitLines dsName.data).any fun line =>
    match afterFirst [':', '"'] line with
    | none => false
    | some rest => (afterFirst ['"', ':'] rest).isSome

/-- The function `add_thredds_nc` (tile_indexer.go:142-146): `m[2]` is read from
the result of `FindStringSubmatch`, which is nil when the pattern does not
match; `none` stands for that run-time failure.  The link created from `m[2]` is
a side effect on the file system. -/
def add_thredds_nc (ds : GDALDataset) : Option Unit :=
  if threddsMatch ds.DSName then some () else none

/-- The condition under which a timestamp of a dataset yields a granule
(tile_indexer.go:183). -/
def timeSelected (geoReq : GeoTileRequestFull) (t : Time) : Bool :=
  t == geoReq.StartTime ||
    (match geoReq.EndTime with
     | none => false
     | some endTime => decide (t > geoReq.StartTime) && decide (t < endTime))

/-- Loop over the datasets of a non-empty response (tile_indexer.go:180-188). -/
def datasetsLoop (geoReq : GeoTileRequestFull) : List GDALDataset → List Event → Trace
  | [], acc => { events := acc, panicked := false }
  | ds :: rest, acc =>
    match add_thredds_nc ds with
    | none => { events := acc, panicked := true }
    | some _ =>
      datasetsLoop geoReq rest
        (acc ++ (ds.TimeStamps.filter (timeSelected geoReq)).map fun t =>
          Event.granule (dataGranule geoReq ds t))

/-- The function `URLIndexGet` (tile_indexer.go:147-189) on the reply of the
index. -/
def URLIndexGet (reply : IndexReply) (geoReq : GeoTileRequestFull) : Trace :=
  match reply with
  | .getFailed =>
    { events := [.error .getFailed, .granule (emptyTile geoReq)], panicked := false }
  | .readFailed =>
    { events := [.error .readFailed, .granule (emptyTile geoReq)], panicked := false }
  | .jsonInvalid =>
    { events := [.error .jsonInvalid, .granule (emptyTile geoReq)], panicked := false }
  | .metadata m =>
    match m.GDALDatasets with
    | [] =>
      { events := (if m.Error.length > 0 then [Event.error (.indexerReturned m.Error)] else [])
          ++ [.granule (emptyTile geoReq)],
        panicked := false }
    | ds :: rest => datasetsLoop geoReq (ds :: rest) []

/-- The loop of the placeholder branch of `serveWMS` over the output of the
indexer (ows.go:356-373), on the sends of the indexer in program order.
`pending` counts the errors waiting on the error channel: while one is waiting,
the `select` takes it and the granule at hand is not examined.  The request
context is not cancelled. -/
def probeLoop : List Event → Nat → Bool
  | [], _ => false
  | .error _ :: rest, pending => probeLoop rest (pending + 1)
  | .granule g :: rest, pending =>
    if pending > 0 then probeLoop rest (pending - 1)
    else if g.NameSpace ≠ "EmptyTile" then true
    else probeLoop rest pending

/-- The file that the placeholder branch passes to `utils.GetEmptyTile`
(ows.go:375-391), relative to the data directory, for a run of the indexer:
`/zoom.png`, the too-zoomed-out image, when data was seen and the empty path,
the NoData image, otherwise.  A run-time failure in the goroutine of the
indexer is not recovered and ends the process, whatever the handler had read
from the output before: the outcome is then `none`. -/
def probePlaceholder (tr : Trace) : Option String :=
  if tr.panicked then none
  else some (if probeLoop tr.events 0 then "/zoom.png" else "")

/-- A dataset as the index describes a NetCDF variable, used in the examples. -/
def sampleDataset (timeStamps : List Time) : GDALDataset :=
  { DSName := "NETCDF:\"/g/data/a.nc\":v", NameSpace := "v", ArrayType := "Float32",
    TimeStamps := timeStamps, Polygon := "POLYGON EMPTY" }

/-- A GetMap request for a 256 x 256 tile at instant 10, used in the examples. -/
def sampleRequest (endTime : Option Time) : GeoTileRequestFull :=
  getMapTileRequest { DataSource := "/c", VarList := ["v"], Mask := none, ZoomLimit := 0 }
    "EPSG:4326" [100, -45, 155, -10] 256 256 10 endTime

/-! ## GetCoverage: parameter checks and the format that reaches the handler -/

/-- The record `utils.WCSParams` as `serveWCS` receives it; a pointer field is
`none` when nil. -/
structure utils.WCSParams where
  Request : Option String
  Version : Option String
  Coverages : List String
  Time : Option Time
  CRS : Option String
  BBox : List ℚ
  Width : Option Int
  Height : Option Int
  Format : Option String

/-- Results of the `utils` functions called by the parameter checks of
GetCoverage: `utils.CheckWCSVersion`, `utils.GetCoverageIndex(params, conf)`
and `utils.GetCurrentTimeStamp(conf.Layers[idx].Dates)`. -/
structure CoverageEnv where
  CheckWCSVersion : String → Bool
  GetCoverageIndex : Except String Nat
  GetCurrentTimeStamp : Except String Time

/-- The parameters of a GetCoverage request once the presence checks have
passed. -/
structure CheckedCoverage where
  idx : Nat
  Time : Time
  CRS : String
  BBox : List ℚ
  Width : Int
  Height : Int
  Format : String

/-- The presence checks of `serveWCS` GetCoverage (ows.go:566-600), each of
which ends the request with status 400. -/
def getCoverageChecks (env : CoverageEnv) (params : utils.WCSParams) :
    Except Halt CheckedCoverage :=
  match params.Version with
  | none => .error (.status 400)
  | some version =>
    if !env.CheckWCSVersion version then .error (.status 400)
    else
      match env.GetCoverageIndex with
      | .error _ => .error (.status 400)
      | .ok idx =>
        let time : Except Halt Time :=
          match params.Time with
          | some t => .ok t
          | none =>
            match env.GetCurrentTimeStamp with
            | .error _ => .error (.status 400)
            | .ok currentTime => .ok currentTime
        match time with
        | .error e => .error e
        | .ok t =>
          match params.CRS with
          | none => .error (.status 400)
          | some crs =>
            if params.BBox.length ≠ 4 then .error (.status 400)
            else
              match params.Height, params.Width with
              | some height, some width =>
                match params.Format with
                | none => .error (.status 400)
                | some format =>
                  .ok { idx := idx, Time := t, CRS := crs, BBox := params.BBox,
                        Width := width, Height := height, Format := format }
              | _, _ => .error (.status 400)

/-- Default value of the command line flag `dap` (ows.go:58). -/
def dapDefault : Bool := true

/-- Modelled from the spec: the `format` field of the typed record that the
coverage parameter parser (`utils.WCSParamsChecker`, not part of the sources at
hand) builds from the query: the first value of `format`, absent when the query
has none. -/
def formatField (query : Query) : Option String :=
  (query.values "format")[0]?

/-- Checkers that keep of a coverage query the `format` field only, used to
follow the format from the query to the handler. -/
def formatCheckers : Checkers Unit (Option String) Unit :=
  { wms := fun _ => .ok (), wcs := fun query => .ok (formatField query), wps := fun _ => .ok () }

/-- The GetCoverage query of the 4096 x 4096 scenario, with the given values of
`format`. -/
def coverageQuery (format : List String) : Query :=
  [("service", ["WCS"]), ("request", ["GetCoverage"]), ("version", ["1.0.0"]),
   ("coverage", ["L"]), ("crs", ["EPSG:4326"]), ("bbox", ["100,-45,155,-10"]),
   ("width", ["4096"]), ("height", ["4096"]), ("time", ["2020-01-15T00:00:00.000Z"])]
    ++ (if format.isEmpty then [] else [("format", format)])

/-! ## The namespace handler and the CORS header -/

/-- Response headers, `http.Header`. -/
abbrev Headers := List (String × String)

/-- The call `w.Header().Set(key, value)`. -/
def Headers.set (h : Headers) (key value : String) : Headers :=
  (key, value) :: h.filter fun kv => !(kv.1 == key)

/-- The call `w.Header().Get(key)`; `none` when the header is not set. -/
def Headers.get (h : Headers) (key : String) : Option String :=
  h.lookup key

/-- The headers written by `http.Error`. -/
def httpErrorHeaders (h : Headers) : Headers :=
  (h.set "Content-Type" "text/plain; charset=utf-8").set "X-Content-Type-Options" "nosniff"

/-- Namespace of a request path (ows.go:1365-1368): the part after `/ows/`, or
`.` when the path is not longer than `/ows/`. -/
def namespaceOf (path : String) : String :=
  if path.length > "/ows/".length then ⟨path.data.drop "/ows/".length⟩ else "."

/-- What `owsHandler` answers: the 404 of an unknown namespace, or the outcome
of `generalHandler`. -/
inductive OwsOutcome (PM PC PP : Type) where
  | notFound
  | general (d : Dispatch PM PC PP)

/-- The response of `owsHandler`: the headers set by `owsHandler` and
`generalHandler` themselves, and the outcome.  The headers that a protocol
handler adds afterwards are written with `Headers.set`. -/
structure OwsResponse (PM PC PP : Type) where
  headers : Headers
  outcome : OwsOutcome PM PC PP

/-- Status of the response when `owsHandler` or the dispatcher wrote it. -/
def OwsResponse.status {PM PC PP : Type} (r : OwsResponse PM PC PP) : Option Nat :=
  match r.outcome with
  | .notFound => some 404
  | .general d => d.status

/-- The handler `owsHandler` (ows.go:1363-1380) followed by the first statement
of `generalHandler` (ows.go:1287); `configMap` lists the known namespaces. -/
def owsHandler {PM PC PP : Type} (dap : Bool) (checkers : Checkers PM PC PP)
    (configMap : List String) (path : String) (req : Request) : OwsResponse PM PC PP :=
  let namespace1 := namespaceOf path
  if configMap.contains namespace1 then
    { headers := Headers.set [] "Access-Control-Allow-Origin" "*",
      outcome := .general (generalHandler dap checkers req) }
  else
    { headers := httpErrorHeaders [], outcome := .notFound }

/-! ## Worker groups -/

/-- The tile request that one worker group `(wbbox, wwidth, wheight, woffx,
woffy)` stands for: the group parses when the checker accepts it and sets the
width, height, x and y fields; the tile takes its bounding box, width, height,
`OffX` and `OffY` from them. -/
def groupTile (checker : WorkerChecker) (crs : String)
    (bbox width height offX offY : String) : Option GeoTileRequest :=
  match checker bbox width height offX offY with
  | .error _ => none
  | .ok wp =>
    match wp.Width, wp.Height, wp.X, wp.Y with
    | some w, some h, some x, some y => some (getGeoTileRequest crs w h wp.BBox x y)
    | _, _, _, _ => none

/-- The tile of the `i`-th worker group of a query. -/
def queryGroupTile (checker : WorkerChecker) (crs : String) (query : Query) (i : Nat) :
    Option GeoTileRequest :=
  groupTile checker crs ((query.values "wbbox").getD i "") ((query.values "wwidth").getD i "")
    ((query.values "wheight").getD i "") ((query.values "woffx").getD i "")
    ((query.values "woffy").getD i "")

/-! ## Execute: validation of the geometry -/

/-- Dynamic type of the geometry of a feature, as the type switch of `serveWPS`
distinguishes it (ows.go:1175-1193); `Other` is any other type. -/
inductive GeomType where
  | Point
  | Polygon
  | MultiPolygon
  | Other
  deriving DecidableEq

/-- A feature of the collection: the type of its geometry and the `float64`
value that `utils.GetArea` returns for it. -/
structure Feature where
  geomType : GeomType
  area : Float64
  deriving DecidableEq

/-- The three refusals of the geometry validation, each written with status
400: no feature, area refused ("The requested area is too large..."), geometry
not supported. -/
inductive GeometryError where
  | noFeature
  | areaTooLarge
  | notSupported
  deriving DecidableEq

/-- Status of a refusal of the geometry validation. -/
def GeometryError.status : GeometryError → Nat
  | .noFeature => 400
  | .areaTooLarge => 400
  | .notSupported => 400

/-- Geometry validation of `serveWPS` Execute (ows.go:1167-1193): the accepted
feature, which is then marshalled and given to the drill pipeline, or the
refusal after which the handler returns. -/
def executeGeometry (maxArea : ℚ) (features : List Feature) : Except GeometryError Feature :=
  match features with
  | [] => .error .noFeature
  | feat :: _ =>
    match feat.geomType with
    | .Point => .ok feat
    | .Polygon | .MultiPolygon =>
      if feat.area = .fin 0 ∨ feat.area.gt (.fin maxArea) = true then .error .areaTooLarge
      else .ok feat
    | .Other => .error .notSupported

/-! ## Rewriting the request URL after the extent probe -/

/-- A match of `(?i)&name\s*=\s*[-+]?[0-9]+` at the head of the text, `name`
being written in lower case: the text after the match. -/
def matchParamAt (name : List Char) (cs : List Char) : Option (List Char) :=
  match cs with
  | '&' :: r =>
    if (r.take name.length).map Char.toLower = name then
      match (r.drop name.length).dropWhile reSpace with
      | '=' :: r2 =>
        let r3 := r2.dropWhile reSpace
        let r4 := match r3 with
          | '-' :: r => r
          | '+' :: r => r
          | r => r
        if (r4.takeWhile Char.isDigit).isEmpty then none else some (r4.dropWhile Char.isDigit)
      | _ => none
    else none
  | _ => none

/-- The call `rex.ReplaceAllString(reqURL, "")` for the pattern of `name`: the
matches are removed from left to right; the first argument bounds the number of
steps and is at least the length of the text. -/
def removeParam (name : List Char) : Nat → List Char → List Char
  | 0, cs => cs
  | _ + 1, [] => []
  | fuel + 1, c :: cs =>
    match matchParamAt name (c :: cs) with
    | some rest => removeParam name fuel rest
    | none => c :: removeParam name fuel cs

/-- Decimal form of an integer, `%d`. -/
def formatInt (n : Int) : String :=
  toString n

/-- The URL rewrite of `serveWCS` after a successful extent probe
(ows.go:696-702). -/
def rewriteURL (reqURL : String) (maxWidth maxHeight : Int) : String :=
  let u1 := removeParam "width".data (reqURL.length + 1) reqURL.data
  let u2 := removeParam "height".data (u1.length + 1) u1
  ⟨u2⟩ ++ "&width=" ++ formatInt maxWidth ++ "&height=" ++ formatInt maxHeight

/-- Pieces of a text separated by `sep`. -/
def splitOnChar (sep : Char) : List Char → List (List Char)
  | [] => [[]]
  | c :: cs =>
    match splitOnChar sep cs with
    | [] => [[]]
    | w :: ws => if c = sep then [] :: w :: ws else (c :: w) :: ws

/-- The values of parameter `key` in the query string of a URL, in order: the
part after the first `?` is cut at `&` and each piece at its first `=`; keys
are compared in lower case, as after `utils.NormaliseKeys`. -/
def urlValues (url : String) (key : String) : List String :=
  let queryPart := (url.data.dropWhile fun c => c != '?').drop 1
  (splitOnChar '&' queryPart).filterMap fun piece =>
    let k := piece.takeWhile fun c => c != '='
    let v := (piece.dropWhile fun c => c != '=').drop 1
    if k.map Char.toLower = key.data then some ⟨v⟩ else none

/-! ## Handler entry: the absent `Request` -/

/-- How a run of a handler ends: it returns, it fails at run time, or it goes
on to the switch on the request value. -/
inductive HandlerEnd where
  | returned
  | panic
  | switch (request : String)
  deriving DecidableEq

/-- A run of the first statements of a protocol handler: the statuses written
with `http.Error`, in order, and how the run ends. -/
structure HandlerRun where
  written : List Nat
  ending : HandlerEnd
  deriving DecidableEq

/-- Entry of `serveWMS` (ows.go:177-181): an absent `Request` is answered 400
and the handler returns. -/
def serveWMSEntry (request : Option String) : HandlerRun :=
  match request with
  | none => { written := [400], ending := .returned }
  | some r => { written := [], ending := .switch r }

/-- Entry of `serveWPS` (ows.go:1128-1133): an absent `Request` is answered 400
and the handler returns. -/
def serveWPSEntry (request : Option String) : HandlerRun :=
  match request with
  | none => { written := [400], ending := .returned }
  | some r => { written := [], ending := .switch r }

/-- Entry of `serveWCS` (ows.go:527-531): an absent `Request` is answered 400,
the `if` has no `return`, and the switch then reads `*params.Request`. -/
def serveWCSEntry (request : Option String) : HandlerRun :=
  let written := if request.isNone then [400] else []
  match request with
  | none => { written := written, ending := .panic }
  | some r => { written := written, ending := .switch r }

/-! ## GetMap after the size check -/

/-- How the GetMap case of `serveWMS` ends after the presence checks: it
returns, it fails at run time, or it sends its tile request to the indexer or
the tile pipeline, whose result is then written to the response. -/
inductive GetMapEnd where
  | returned
  | panic
  | sent (branch : MapBranch)
  deriving DecidableEq

/-- A run of the GetMap case from the size check on: the statuses written with
`http.Error`, in order, and how the run ends. -/
structure GetMapRun where
  written : List Nat
  ending : GetMapEnd
  deriving DecidableEq

/-- The GetMap case of `serveWMS` from the size check to the dispatch of the
tile request (ows.go:288-398).  `stylesLen` is `len(params.Styles)` and
`styleIdx` the result of `utils.GetLayerStyleIndex`; `layer` holds the fields of
the selected style layer. -/
def serveWMSGetMapTail (version : String) (wmsMaxWidth wmsMaxHeight : Int) (stylesLen : Nat)
    (styleIdx : Except String Int) (layer : MapLayer) (crs : String) (bbox : List ℚ)
    (width height : Int) (startTime : Time) (endTime : Option Time) : GetMapRun :=
  let written : List Nat :=
    if height > wmsMaxHeight ∨ width > wmsMaxWidth then [400] else []
  if version = "1.1.1" ∧ stylesLen = 0 then { written := written, ending := .panic }
  else
    match styleIdx with
    | .error _ => { written := written ++ [400], ending := .returned }
    | .ok _ =>
      { written := written,
        ending := .sent (zoomLimitBranch version layer.ZoomLimit bbox width height
          (getMapTileRequest layer crs bbox width height startTime endTime)) }

/-! ## Peers and their forwarded groups -/

/-- The parameter names that `serveWCS` appends to the URL forwarded to a peer,
five for each tile of its batch (ows.go:835-840). -/
def forwardedKeys (batch : List GeoTileRequest) : List String :=
  batch.flatMap fun _ => ["wbbox", "wwidth", "wheight", "woffx", "woffy"]

/-- Whether the peer that receives the forwarded URL takes it for a worker
request (ows.go:640): the query has the key `wbbox`. -/
def peerIsWorker (batch : List GeoTileRequest) : Bool :=
  (forwardedKeys batch).contains "wbbox"

/-! ## GetCapabilities of the map handler -/

/-- How the GetCapabilities case of `serveWMS` ends: status 400 of the version
check, a run-time failure, or the rendering of a template. -/
inductive CapabilitiesEnd where
  | status (code : Nat)
  | panic
  | render (template : String)
  deriving DecidableEq

/-- The GetCapabilities case of `serveWMS` (ows.go:183-198) up to the template
that is rendered; `version` is `params.Version`, `none` when nil. -/
def serveWMSGetCapabilities (CheckWMSVersion : String → Bool) (version : Option String) :
    CapabilitiesEnd :=
  let refused :=
    match version with
    | none => false
    | some v => !CheckWMSVersion v
  if refused then .status 400
  else
    let template := "/templates/WMS_GetCapabilities.tpl"
    match version with
    | none => .panic
    | some v =>
      if v = "1.1.1" then .render "/templates/WMS_GetCapabilities_v1.1.1.tpl"
      else .render template

/-- A dataset as the index describes a plain GeoTIFF file, its name being the
path of the file, used in the examples. -/
def sampleTiffDataset : GDALDataset :=
  { DSName := "/g/data/a.tif", NameSpace := "v", ArrayType := "Byte",
    TimeStamps := [10], Polygon := "POLYGON EMPTY" }

/-! # Theorems -/

/-! ## Lemmas on the numeric conversions -/

theorem goInt_half_add_intCast (m : Int) (hm : 0 ≤ m) : goInt (1 / 2 + (m : ℚ)) = m := by
  have h0 : (0 : ℚ) ≤ 1 / 2 + (m : ℚ) := by
    have : (0 : ℚ) ≤ (m : ℚ) := by exact_mod_cast hm
    linarith
  unfold goInt
  rw [if_pos h0, Int.floor_eq_iff]
  constructor <;> linarith

theorem gridCount_lt (extent step : Int) (hs : 0 < step) (k : Nat)
    (hk : k < gridCount extent step) : (k : Int) * step < extent := by
  unfold gridCount at hk
  have h1 : (k : Int) < ⌈(extent : ℚ) / (step : ℚ)⌉ := by omega
  rw [Int.lt_ceil] at h1
  have hs' : (0 : ℚ) < (step : ℚ) := by exact_mod_cast hs
  rw [lt_div_iff₀ hs'] at h1
  exact_mod_cast h1

theorem gridCount_ge (extent step : Int) (hs : 0 < step) (he : 0 < extent) :
    extent ≤ (gridCount extent step : Int) * step := by
  unfold gridCount
  have hs' : (0 : ℚ) < (step : ℚ) := by exact_mod_cast hs
  have he' : (0 : ℚ) < (extent : ℚ) := by exact_mod_cast he
  have hpos : (0 : ℚ) < (extent : ℚ) / (step : ℚ) := div_pos he' hs'
  have hc : 0 < ⌈(extent : ℚ) / (step : ℚ)⌉ := Int.ceil_pos.mpr hpos
  have h1 : (extent : ℚ) / (step : ℚ) ≤ (⌈(extent : ℚ) / (step : ℚ)⌉ : ℚ) := Int.le_ceil _
  rw [div_le_iff₀ hs'] at h1
  have h2 : extent ≤ ⌈(extent : ℚ) / (step : ℚ)⌉ * step := by exact_mod_cast h1
  rw [Int.toNat_of_nonneg hc.le]
  exact h2

/-- Pixel extent computed by the loop body along one axis, in exact arithmetic:
`int(.5 + (min(lo + (p+step)*res, hi) - (lo + p*res)) / res) = min(step, extent - p)`. -/
theorem tileSize_eq (lo hi : ℚ) (extent step p : Int) (hext : 0 < extent) (hlohi : lo < hi)
    (hstep : 0 < step) (hp : p < extent) :
    goInt (1 / 2 + (min (lo + ((p + step : Int) : ℚ) * ((hi - lo) / (extent : ℚ))) hi
      - (lo + (p : ℚ) * ((hi - lo) / (extent : ℚ)))) / ((hi - lo) / (extent : ℚ)))
      = min step (extent - p) := by
  have hE : (0 : ℚ) < (extent : ℚ) := by exact_mod_cast hext
  have hres : (0 : ℚ) < (hi - lo) / (extent : ℚ) := div_pos (by linarith) hE
  set res := (hi - lo) / (extent : ℚ) with hresdef
  have hhi : hi = lo + (extent : ℚ) * res := by
    rw [hresdef]; field_simp
  have hmin : min (lo + ((p + step : Int) : ℚ) * res) hi
      = lo + ((min (p + step) extent : Int) : ℚ) * res := by
    rcases le_total (p + step) extent with h | h
    · have hq : ((p + step : Int) : ℚ) ≤ (extent : ℚ) := by exact_mod_cast h
      rw [min_eq_left h, min_eq_left]
      rw [hhi]; nlinarith
    · have hq : (extent : ℚ) ≤ ((p + step : Int) : ℚ) := by exact_mod_cast h
      rw [min_eq_right h, min_eq_right]
      · exact hhi
      · rw [hhi]; nlinarith
  rw [hmin]
  have hq : ∀ m : Int, (lo + (m : ℚ) * res - (lo + (p : ℚ) * res)) / res
      = ((m - p : Int) : ℚ) := by
    intro m
    push_cast
    field_simp
    ring
  rw [hq, goInt_half_add_intCast]
  · rcases le_total (p + step) extent with h | h
    · rw [min_eq_left h, min_eq_left (by omega)]; omega
    · rw [min_eq_right h, min_eq_right (by omega)]
  · rcases le_total (p + step) extent with h | h
    · rw [min_eq_left h]; omega
    · rw [min_eq_right h]; omega

/-! ## The tiling loops -/

theorem tileLoopX_eq (crs : String) (W H maxXTileSize maxYTileSize : Int) (bbox : List ℚ)
    (y : Int) : ∀ (n fuel : Nat) (x : Int) (acc : List GeoTileRequest), n < fuel →
    (∀ k : Nat, k < n → x + (k : Int) * maxXTileSize < W) →
    W ≤ x + (n : Int) * maxXTileSize →
    tileLoopX crs W H maxXTileSize maxYTileSize bbox y fuel x acc
      = some (acc ++ (List.range n).map fun (k : Nat) =>
          tileBody crs W H maxXTileSize maxYTileSize bbox (x + (k : Int) * maxXTileSize) y) := by
  intro n
  induction n with
  | zero =>
    intro fuel x acc hf _ hW
    obtain ⟨f, rfl⟩ : ∃ f, fuel = f + 1 := ⟨fuel - 1, by omega⟩
    have hx : ¬ x < W := by simpa using hW
    simp [tileLoopX, hx]
  | succ n ih =>
    intro fuel x acc hf hlt hW
    obtain ⟨f, rfl⟩ : ∃ f, fuel = f + 1 := ⟨fuel - 1, by omega⟩
    have hx : x < W := by simpa using hlt 0 (by omega)
    have hstep := ih f (x + maxXTileSize)
      (acc ++ [tileBody crs W H maxXTileSize maxYTileSize bbox x y]) (by omega)
      (fun k hk => by
        have := hlt (k + 1) (by omega)
        push_cast at this
        linarith)
      (by push_cast at hW; linarith)
    rw [tileLoopX, if_pos hx, hstep, List.range_succ_eq_map]
    simp only [List.map_cons, List.map_map, List.append_assoc, List.singleton_append,
      Nat.cast_zero, zero_mul, add_zero]
    congr 3
    apply List.map_congr_left
    intro k _
    simp only [Function.comp, Nat.succ_eq_add_one]
    congr 1
    push_cast
    ring

theorem tileLoopY_eq (crs : String) (W H maxXTileSize maxYTileSize : Int) (bbox : List ℚ)
    (fuelX : Nat) (row : Int → List GeoTileRequest)
    (hrow : ∀ (y : Int) (acc : List GeoTileRequest),
      tileLoopX crs W H maxXTileSize maxYTileSize bbox y fuelX 0 acc = some (acc ++ row y)) :
    ∀ (n fuel : Nat) (y : Int) (acc : List GeoTileRequest), n < fuel →
    (∀ k : Nat, k < n → y + (k : Int) * maxYTileSize < H) →
    H ≤ y + (n : Int) * maxYTileSize →
    tileLoopY crs W H maxXTileSize maxYTileSize bbox fuelX fuel y acc
      = some (acc ++ (List.range n).flatMap fun (k : Nat) => row (y + (k : Int) * maxYTileSize)) := by
  intro n
  induction n with
  | zero =>
    intro fuel y acc hf _ hH
    obtain ⟨f, rfl⟩ : ∃ f, fuel = f + 1 := ⟨fuel - 1, by omega⟩
    have hy : ¬ y < H := by simpa using hH
    simp [tileLoopY, hy]
  | succ n ih =>
    intro fuel y acc hf hlt hH
    obtain ⟨f, rfl⟩ : ∃ f, fuel = f + 1 := ⟨fuel - 1, by omega⟩
    have hy : y < H := by simpa using hlt 0 (by omega)
    have hstep := ih f (y + maxYTileSize) (acc ++ row y) (by omega)
      (fun k hk => by
        have := hlt (k + 1) (by omega)
        push_cast at this
        linarith)
      (by push_cast at hH; linarith)
    rw [tileLoopY, if_pos hy, hrow]
    simp only
    rw [hstep, List.range_succ_eq_map]
    simp only [List.flatMap_cons, List.flatMap_map, List.append_assoc,
      Nat.cast_zero, zero_mul, add_zero]
    congr 3
    apply List.flatMap_congr
    intro k _
    simp only [Function.comp, Nat.succ_eq_add_one]
    congr 1
    push_cast
    ring

/-- The tile list in closed form: rows bottom-up (`y` outer), columns left to
right (`x` inner), one loop-body tile per grid origin. -/
theorem tmpTileRequests_eq (fuel : Nat) (crs : String) (W H maxXTileSize maxYTileSize : Int)
    (bbox : List ℚ) (hW : 0 < W) (hH : 0 < H) (hmx : 0 < maxXTileSize) (hmy : 0 < maxYTileSize)
    (hfx : gridCount W maxXTileSize < fuel) (hfy : gridCount H maxYTileSize < fuel) :
    tmpTileRequests fuel crs W H maxXTileSize maxYTileSize bbox
      = some ((List.range (gridCount H maxYTileSize)).flatMap fun (r : Nat) =>
          (List.range (gridCount W maxXTileSize)).map fun (c : Nat) =>
            tileBody crs W H maxXTileSize maxYTileSize bbox
              ((c : Int) * maxXTileSize) ((r : Int) * maxYTileSize)) := by
  have hrow : ∀ (y : Int) (acc : List GeoTileRequest),
      tileLoopX crs W H maxXTileSize maxYTileSize bbox y fuel 0 acc
        = some (acc ++ (List.range (gridCount W maxXTileSize)).map fun (c : Nat) =>
            tileBody crs W H maxXTileSize maxYTileSize bbox ((c : Int) * maxXTileSize) y) := by
    intro y acc
    have := tileLoopX_eq crs W H maxXTileSize maxYTileSize bbox y (gridCount W maxXTileSize)
      fuel 0 acc hfx
      (fun k hk => by simpa using gridCount_lt W maxXTileSize hmx k hk)
      (by simpa using gridCount_ge W maxXTileSize hmx hW)
    simpa using this
  have := tileLoopY_eq crs W H maxXTileSize maxYTileSize bbox fuel _ hrow
    (gridCount H maxYTileSize) fuel 0 [] hfy
    (fun k hk => by simpa using gridCount_lt H maxYTileSize hmy k hk)
    (by simpa using gridCount_ge H maxYTileSize hmy hH)
  simpa [tmpTileRequests] using this

theorem length_grid {α : Type} (g : Nat → Nat → α) (nx : Nat) : ∀ ny : Nat,
    ((List.range ny).flatMap fun (r : Nat) => (List.range nx).map (g r)).length = ny * nx := by
  intro ny
  induction ny with
  | zero => simp
  | succ n ih =>
    rw [List.range_succ, List.flatMap_append, List.length_append, ih]
    simp [Nat.succ_mul]

theorem getElem?_grid {α : Type} (g : Nat → Nat → α) (nx : Nat) : ∀ (ny r c : Nat),
    r < ny → c < nx →
    ((List.range ny).flatMap fun (r : Nat) => (List.range nx).map (g r))[r * nx + c]?
      = some (g r c) := by
  intro ny
  induction ny with
  | zero => intro r c hr; omega
  | succ n ih =>
    intro r c hr hc
    rw [List.range_succ, List.flatMap_append]
    rcases Nat.lt_succ_iff_lt_or_eq.mp hr with h | h
    · have hlt : r * nx + c < n * nx := by
        calc r * nx + c < r * nx + nx := by omega
          _ = (r + 1) * nx := by ring
          _ ≤ n * nx := Nat.mul_le_mul_right _ h
      rw [List.getElem?_append_left (by rw [length_grid]; exact hlt)]
      exact ih r c h hc
    · subst h
      rw [List.getElem?_append_right (by rw [length_grid]; omega), length_grid]
      simp [hc]

theorem tileBody_fields (crs : String) (W H maxXTileSize maxYTileSize : Int) (bbox : List ℚ)
    (x y : Int) (hW : 0 < W) (hH : 0 < H) (hmx : 0 < maxXTileSize) (hmy : 0 < maxYTileSize)
    (hbx : bboxAt bbox 0 < bboxAt bbox 2) (hby : bboxAt bbox 1 < bboxAt bbox 3)
    (hx : x < W) (hy : y < H) :
    (tileBody crs W H maxXTileSize maxYTileSize bbox x y).Width = min maxXTileSize (W - x) ∧
    (tileBody crs W H maxXTileSize maxYTileSize bbox x y).Height = min maxYTileSize (H - y) ∧
    (tileBody crs W H maxXTileSize maxYTileSize bbox x y).OffX = x ∧
    (tileBody crs W H maxXTileSize maxYTileSize bbox x y).OffY
      = H - y - min maxYTileSize (H - y) := by
  have hw := tileSize_eq (bboxAt bbox 0) (bboxAt bbox 2) W maxXTileSize x hW hbx hmx hx
  have hh := tileSize_eq (bboxAt bbox 1) (bboxAt bbox 3) H maxYTileSize y hH hby hmy hy
  have hxr : (bboxAt bbox 2 - bboxAt bbox 0) / (W : ℚ) ≠ 0 :=
    (div_pos (by linarith) (by exact_mod_cast hW)).ne'
  have hyr : (bboxAt bbox 3 - bboxAt bbox 1) / (H : ℚ) ≠ 0 :=
    (div_pos (by linarith) (by exact_mod_cast hH)).ne'
  have hw1 : (tileBody crs W H maxXTileSize maxYTileSize bbox x y).Width
      = min maxXTileSize (W - x) := by
    show roundedQuot _ _ = _
    rw [roundedQuot, if_neg hxr]
    exact hw
  have hh1 : (tileBody crs W H maxXTileSize maxYTileSize bbox x y).Height
      = min maxYTileSize (H - y) := by
    show roundedQuot _ _ = _
    rw [roundedQuot, if_neg hyr]
    exact hh
  refine ⟨hw1, hh1, rfl, ?_⟩
  show H - y - (tileBody crs W H maxXTileSize maxYTileSize bbox x y).Height = _
  rw [hh1]

theorem gridCount_le_toNat (extent step : Int) (hs : 0 < step) (he : 0 < extent) :
    gridCount extent step ≤ extent.toNat := by
  unfold gridCount
  apply Int.toNat_le_toNat
  rw [Int.ceil_le]
  have hs' : (1 : ℚ) ≤ (step : ℚ) := by exact_mod_cast hs
  have he' : (0 : ℚ) ≤ (extent : ℚ) := by exact_mod_cast he.le
  exact div_le_self he' hs'

theorem cell_unique (s a b p : Int) (hs : 0 < s) (ha : a * s ≤ p) (ha1 : p < (a + 1) * s)
    (hb : b * s ≤ p) (hb1 : p < (b + 1) * s) : a = b := by
  rcases lt_trichotomy a b with h | h | h
  · have : (a + 1) * s ≤ b * s := Int.mul_le_mul_of_nonneg_right (by omega) hs.le
    omega
  · exact h
  · have : (b + 1) * s ≤ a * s := Int.mul_le_mul_of_nonneg_right (by omega) hs.le
    omega

theorem countP_range_unique (q : Nat → Bool) (n k0 : Nat) (hk : k0 < n)
    (hq : ∀ k : Nat, k < n → (q k = true ↔ k = k0)) : (List.range n).countP q = 1 := by
  have h1 : (List.range n).countP q = (List.range n).countP (fun k => k == k0) := by
    apply List.countP_congr
    intro k hkm
    rw [hq k (List.mem_range.mp hkm)]
    simp
  rw [h1, ← List.count_eq_countP]
  exact List.count_eq_one_of_mem (List.nodup_range n) (List.mem_range.mpr hk)

theorem countP_grid_unique {α : Type} (g : Nat → Nat → α) (p : α → Bool) (nx ny r0 c0 : Nat)
    (hr0 : r0 < ny) (hc0 : c0 < nx)
    (hp : ∀ r c : Nat, r < ny → c < nx → (p (g r c) = true ↔ r = r0 ∧ c = c0)) :
    ((List.range ny).flatMap fun (r : Nat) => (List.range nx).map (g r)).countP p = 1 := by
  rw [List.countP_flatMap, List.sum_map_eq_nsmul_single r0]
  · rw [List.count_eq_one_of_mem (List.nodup_range ny) (List.mem_range.mpr hr0), one_smul]
    simp only [Function.comp, List.countP_map]
    apply countP_range_unique _ nx c0 hc0
    intro c hc
    simpa using hp r0 c hr0 hc
  · intro r hr hmem
    simp only [Function.comp, List.countP_map]
    rw [List.countP_eq_zero]
    intro c hcm
    have := hp r c (List.mem_range.mp hmem) (List.mem_range.mp hcm)
    simp only [Function.comp]
    rw [this]
    tauto

/-- C4: for positive frame size, positive maximal tile sizes and a bounding box
of positive extent (exact arithmetic) the tiling loops finish and emit
`ceil(W/maxXTileSize) * ceil(H/maxYTileSize)` requests in row-major order (rows
outer, columns inner); the request at grid origin `(x, y) = (c*maxXTileSize,
r*maxYTileSize)` has `Width = min(maxXTileSize, W - x)`, `Height =
min(maxYTileSize, H - y)`, `OffX = x` and `OffY = H - y - Height`, so the rounded
size never exceeds the maximal tile dimension and the trailing tile is the
remainder. -/
theorem tile_decomposition_grid (fuel : Nat) (crs : String)
    (W H maxXTileSize maxYTileSize : Int) (bbox : List ℚ)
    (hW : 0 < W) (hH : 0 < H) (hmx : 0 < maxXTileSize) (hmy : 0 < maxYTileSize)
    (hbx : bboxAt bbox 0 < bboxAt bbox 2) (hby : bboxAt bbox 1 < bboxAt bbox 3)
    (hfx : W.toNat < fuel) (hfy : H.toNat < fuel) :
    ∃ tiles : List GeoTileRequest,
      tmpTileRequests fuel crs W H maxXTileSize maxYTileSize bbox = some tiles ∧
      tiles.length = gridCount W maxXTileSize * gridCount H maxYTileSize ∧
      ∀ r c : Nat, r < gridCount H maxYTileSize → c < gridCount W maxXTileSize →
        ∃ t : GeoTileRequest,
          tiles[r * gridCount W maxXTileSize + c]? = some t ∧
          t = tileBody crs W H maxXTileSize maxYTileSize bbox
            ((c : Int) * maxXTileSize) ((r : Int) * maxYTileSize) ∧
          t.Width = min maxXTileSize (W - (c : Int) * maxXTileSize) ∧
          t.Height = min maxYTileSize (H - (r : Int) * maxYTileSize) ∧
          t.OffX = (c : Int) * maxXTileSize ∧
          t.OffY = H - (r : Int) * maxYTileSize - t.Height ∧
          t.Width ≤ maxXTileSize ∧ t.Height ≤ maxYTileSize := by
  have hnx := gridCount_le_toNat W maxXTileSize hmx hW
  have hny := gridCount_le_toNat H maxYTileSize hmy hH
  refine ⟨_, tmpTileRequests_eq fuel crs W H maxXTileSize maxYTileSize bbox hW hH hmx hmy
    (by omega) (by omega), ?_, ?_⟩
  · rw [length_grid (fun r c => tileBody crs W H maxXTileSize maxYTileSize bbox
      ((c : Int) * maxXTileSize) ((r : Int) * maxYTileSize))]
    exact Nat.mul_comm _ _
  · intro r c hr hc
    have hx := gridCount_lt W maxXTileSize hmx c hc
    have hy := gridCount_lt H maxYTileSize hmy r hr
    obtain ⟨h1, h2, h3, h4⟩ := tileBody_fields crs W H maxXTileSize maxYTileSize bbox
      ((c : Int) * maxXTileSize) ((r : Int) * maxYTileSize) hW hH hmx hmy hbx hby hx hy
    refine ⟨_, getElem?_grid (fun r c => tileBody crs W H maxXTileSize maxYTileSize bbox
      ((c : Int) * maxXTileSize) ((r : Int) * maxYTileSize)) _ _ r c hr hc, rfl, h1, h2, h3, ?_,
      ?_, ?_⟩
    · rw [h4, h2]
    · rw [h1]; exact min_le_left _ _
    · rw [h2]; exact min_le_left _ _

/-- C4 at a 5 x 3 frame cut into 2 x 2 tiles. -/
theorem tile_decomposition_grid_witness :
    ∃ tiles : List GeoTileRequest,
      tmpTileRequests 6 "EPSG:4326" 5 3 2 2 [100, -45, 155, -10] = some tiles ∧
      tiles.length = gridCount 5 2 * gridCount 3 2 ∧
      ∀ r c : Nat, r < gridCount 3 2 → c < gridCount 5 2 →
        ∃ t : GeoTileRequest,
          tiles[r * gridCount 5 2 + c]? = some t ∧
          t = tileBody "EPSG:4326" 5 3 2 2 [100, -45, 155, -10] ((c : Int) * 2) ((r : Int) * 2) ∧
          t.Width = min 2 (5 - (c : Int) * 2) ∧
          t.Height = min 2 (3 - (r : Int) * 2) ∧
          t.OffX = (c : Int) * 2 ∧
          t.OffY = 3 - (r : Int) * 2 - t.Height ∧
          t.Width ≤ 2 ∧ t.Height ≤ 2 :=
  tile_decomposition_grid 6 "EPSG:4326" 5 3 2 2 [100, -45, 155, -10]
    (by decide) (by decide) (by decide) (by decide)
    (by norm_num [bboxAt]) (by norm_num [bboxAt]) (by decide) (by decide)

theorem axis_cover_iff (extent step p : Int) (k : Nat) (hs : 0 < step) (hp0 : 0 ≤ p)
    (hp : p < extent) :
    ((k : Int) * step ≤ p ∧ p < (k : Int) * step + min step (extent - (k : Int) * step))
      ↔ k = (p / step).toNat := by
  have hq0 : 0 ≤ p / step := Int.ediv_nonneg hp0 hs.le
  have hq1 : p / step * step ≤ p := Int.ediv_mul_le p hs.ne'
  have hq2 : p < (p / step + 1) * step := Int.lt_ediv_add_one_mul_self p hs
  constructor
  · rintro ⟨h1, h2⟩
    have h3 : p < ((k : Int) + 1) * step := by
      have := min_le_left step (extent - (k : Int) * step)
      linarith
    have := cell_unique step (k : Int) (p / step) p hs h1 h3 hq1 hq2
    omega
  · intro hk
    have hkq : (k : Int) = p / step := by omega
    rw [hkq]
    refine ⟨hq1, ?_⟩
    rcases le_total step (extent - p / step * step) with h | h
    · rw [min_eq_left h]; linarith
    · rw [min_eq_right h]; linarith

/-- C1: for positive frame size, positive maximal tile sizes and a bounding box
of positive extent (exact arithmetic), in particular whenever `W >
maxXTileSize` or `H > maxYTileSize`, the tiles generated by the decomposition
partition the master frame: no tile rectangle leaves the `W x H` frame and
every pixel `(i, j)` of the frame lies in the rectangle of exactly one generated
request. -/
theorem tiles_partition_frame (fuel : Nat) (crs : String)
    (W H maxXTileSize maxYTileSize : Int) (bbox : List ℚ)
    (hW : 0 < W) (hH : 0 < H) (hmx : 0 < maxXTileSize) (hmy : 0 < maxYTileSize)
    (hbx : bboxAt bbox 0 < bboxAt bbox 2) (hby : bboxAt bbox 1 < bboxAt bbox 3)
    (hfx : W.toNat < fuel) (hfy : H.toNat < fuel) :
    ∃ tiles : List GeoTileRequest,
      tmpTileRequests fuel crs W H maxXTileSize maxYTileSize bbox = some tiles ∧
      (∀ t ∈ tiles, t.inFrame W H) ∧
      ∀ i j : Int, 0 ≤ i → i < W → 0 ≤ j → j < H →
        tiles.countP (fun t => t.covers i j) = 1 := by
  have hnx := gridCount_le_toNat W maxXTileSize hmx hW
  have hny := gridCount_le_toNat H maxYTileSize hmy hH
  have hfields : ∀ r c : Nat, r < gridCount H maxYTileSize → c < gridCount W maxXTileSize → _ :=
    fun r c hr hc => tileBody_fields crs W H maxXTileSize maxYTileSize bbox
      ((c : Int) * maxXTileSize) ((r : Int) * maxYTileSize) hW hH hmx hmy hbx hby
      (gridCount_lt W maxXTileSize hmx c hc) (gridCount_lt H maxYTileSize hmy r hr)
  refine ⟨_, tmpTileRequests_eq fuel crs W H maxXTileSize maxYTileSize bbox hW hH hmx hmy
    (by omega) (by omega), ?_, ?_⟩
  · intro t ht
    simp only [List.mem_flatMap, List.mem_map, List.mem_range] at ht
    obtain ⟨r, hr, c, hc, rfl⟩ := ht
    obtain ⟨h1, h2, h3, h4⟩ := hfields r c hr hc
    have hx := gridCount_lt W maxXTileSize hmx c hc
    have hy := gridCount_lt H maxYTileSize hmy r hr
    have hc0 : 0 ≤ (c : Int) * maxXTileSize := by positivity
    have hr0 : 0 ≤ (r : Int) * maxYTileSize := by positivity
    have hwle := min_le_right maxXTileSize (W - (c : Int) * maxXTileSize)
    have hhle := min_le_right maxYTileSize (H - (r : Int) * maxYTileSize)
    unfold GeoTileRequest.inFrame
    rw [h1, h2, h3, h4]
    refine ⟨hc0, by linarith, by linarith, by linarith⟩
  · intro i j hi0 hi hj0 hj
    have hj' : 0 ≤ H - 1 - j := by omega
    have hj'' : H - 1 - j < H := by omega
    have hc0W : (((i / maxXTileSize).toNat : Nat) : Int) * maxXTileSize ≤ i :=
      ((axis_cover_iff W maxXTileSize i _ hmx hi0 hi).mpr rfl).1
    have hr0H : ((((H - 1 - j) / maxYTileSize).toNat : Nat) : Int) * maxYTileSize ≤ H - 1 - j :=
      ((axis_cover_iff H maxYTileSize (H - 1 - j) _ hmy hj' hj'').mpr rfl).1
    apply countP_grid_unique (fun r c => tileBody crs W H maxXTileSize maxYTileSize bbox
      ((c : Int) * maxXTileSize) ((r : Int) * maxYTileSize)) _ _ _
      ((H - 1 - j) / maxYTileSize).toNat (i / maxXTileSize).toNat
    · by_contra hge
      have h1 := gridCount_ge H maxYTileSize hmy hH
      have h2 : (gridCount H maxYTileSize : Int) * maxYTileSize
          ≤ ((((H - 1 - j) / maxYTileSize).toNat : Nat) : Int) * maxYTileSize :=
        Int.mul_le_mul_of_nonneg_right (by omega) hmy.le
      omega
    · by_contra hge
      have h1 := gridCount_ge W maxXTileSize hmx hW
      have h2 : (gridCount W maxXTileSize : Int) * maxXTileSize
          ≤ (((i / maxXTileSize).toNat : Nat) : Int) * maxXTileSize :=
        Int.mul_le_mul_of_nonneg_right (by omega) hmx.le
      omega
    · intro r c hr hc
      obtain ⟨h1, h2, h3, h4⟩ := hfields r c hr hc
      have hxa := axis_cover_iff W maxXTileSize i c hmx hi0 hi
      have hya := axis_cover_iff H maxYTileSize (H - 1 - j) r hmy hj' hj''
      simp only [GeoTileRequest.covers, decide_eq_true_eq]
      rw [h1, h2, h3, h4, ← hxa, ← hya]
      constructor
      · rintro ⟨a1, a2, a3, a4⟩
        exact ⟨⟨by linarith, by linarith⟩, a1, a2⟩
      · rintro ⟨⟨a1, a2⟩, a3, a4⟩
        exact ⟨a3, a4, by linarith, by linarith⟩

/-- C1 at a 5 x 3 frame cut into 2 x 2 tiles. -/
theorem tiles_partition_frame_witness :
    ∃ tiles : List GeoTileRequest,
      tmpTileRequests 6 "EPSG:4326" 5 3 2 2 [100, -45, 155, -10] = some tiles ∧
      (∀ t ∈ tiles, t.inFrame 5 3) ∧
      ∀ i j : Int, 0 ≤ i → i < 5 → 0 ≤ j → j < 3 →
        tiles.countP (fun t => t.covers i j) = 1 :=
  tiles_partition_frame 6 "EPSG:4326" 5 3 2 2 [100, -45, 155, -10]
    (by decide) (by decide) (by decide) (by decide)
    (by norm_num [bboxAt]) (by norm_num [bboxAt]) (by decide) (by decide)

/-! ## Peer distribution on the 4096 x 4096 scenario -/

theorem gridCount_4096_1024 : gridCount 4096 1024 = 4 := by
  norm_num [gridCount]
  rfl

theorem tilesPerWorker_16_4 : tilesPerWorker 16 4 = 5 := by
  norm_num [tilesPerWorker, goInt, mathRound, minTilesPerWorker]

theorem tilesPerWorker_16_3 : tilesPerWorker 16 3 = 5 := by
  norm_num [tilesPerWorker, goInt, mathRound, minTilesPerWorker]

theorem workerTileRequests_16_3 {α : Type} (tiles : List α) (h : tiles.length = 16) :
    workerTileRequests tiles 3
      = some [tiles.take 5, (tiles.drop 5).take 5, (tiles.drop 10).take 5, tiles.drop 15] := by
  have h4 : ((3 : Nat) : Int) + 1 = 4 := by norm_num
  have h16 : ((16 : Nat) : Int) = 16 := by norm_num
  unfold workerTileRequests
  rw [h, h4, h16, tilesPerWorker_16_4]
  simp [distributeLoop, goSlice, h]

theorem workerTileRequests_16_2 {α : Type} (tiles : List α) (h : tiles.length = 16) :
    workerTileRequests tiles 2
      = some [tiles.take 5, (tiles.drop 5).take 5, (tiles.drop 10).take 5] := by
  have h3 : ((2 : Nat) : Int) + 1 = 3 := by norm_num
  have h16 : ((16 : Nat) : Int) = 16 := by norm_num
  unfold workerTileRequests
  rw [h, h3, h16, tilesPerWorker_16_3]
  simp [distributeLoop, goSlice, h]

/-- The decomposition of the 4096 x 4096 frame into 1024 x 1024 tiles finishes
within any budget above four steps and yields sixteen requests. -/
theorem tmpTileRequests_4096 (fuel : Nat) (hfuel : 4 < fuel) (crs : String) (bbox : List ℚ) :
    ∃ tiles : List GeoTileRequest,
      tmpTileRequests fuel crs 4096 4096 1024 1024 bbox = some tiles ∧ tiles.length = 16 := by
  refine ⟨_, tmpTileRequests_eq fuel crs 4096 4096 1024 1024 bbox (by decide) (by decide)
    (by decide) (by decide) (by rw [gridCount_4096_1024]; exact hfuel)
    (by rw [gridCount_4096_1024]; exact hfuel), ?_⟩
  rw [length_grid (fun r c => tileBody crs 4096 4096 1024 1024 bbox
    ((c : Int) * 1024) ((r : Int) * 1024)), gridCount_4096_1024]

/-- C2, evaluated where the code fails: a 4096 x 4096 coverage cut into sixteen
1024 x 1024 tiles and distributed over the local front end and two peers
(`tilesPerWorker = round(16/3) = 5`) gives three batches that together hold
only the first fifteen tiles; the sixteenth tile is in no batch. -/
theorem peer_distribution_drops_tile :
    ∃ (tiles : List GeoTileRequest) (batches : List (List GeoTileRequest)),
      tmpTileRequests 5 "EPSG:4326" 4096 4096 1024 1024 [100, -45, 155, -10] = some tiles ∧
      tiles.length = 16 ∧
      workerTileRequests tiles 2 = some batches ∧
      batches.map List.length = [5, 5, 5] ∧
      batches.flatten = tiles.take 15 ∧
      batches.flatten ≠ tiles := by
  obtain ⟨tiles, h1, h2⟩ := tmpTileRequests_4096 5 (by decide) "EPSG:4326" [100, -45, 155, -10]
  have hflat : [tiles.take 5, (tiles.drop 5).take 5, (tiles.drop 10).take 5].flatten
      = tiles.take 15 := by
    have e1 : tiles.take 15 = tiles.take 5 ++ (tiles.drop 5).take 10 := List.take_add tiles 5 10
    have e2 : (tiles.drop 5).take 10 = (tiles.drop 5).take 5 ++ ((tiles.drop 5).drop 5).take 5 :=
      List.take_add (tiles.drop 5) 5 5
    rw [e1, e2, List.drop_drop]
    simp
  refine ⟨tiles, _, h1, h2, workerTileRequests_16_2 tiles h2, ?_, hflat, ?_⟩
  · simp [h2]
  · rw [hflat]
    intro h
    have := congrArg List.length h
    rw [List.length_take, h2] at this
    omega

/-- C3 as stated fails: with sixteen tiles and three peers the batches are not
four tiles each. -/
theorem scenario_four_per_worker_fails :
    ∃ (tiles : List GeoTileRequest) (batches : List (List GeoTileRequest)),
      tmpTileRequests 5 "EPSG:4326" 4096 4096 1024 1024 [100, -45, 155, -10] = some tiles ∧
      workerTileRequests tiles 3 = some batches ∧
      ¬ (tiles.length = 16 ∧ batches.map List.length = [4, 4, 4, 4]) := by
  obtain ⟨tiles, h1, h2⟩ := tmpTileRequests_4096 5 (by decide) "EPSG:4326" [100, -45, 155, -10]
  refine ⟨tiles, _, h1, workerTileRequests_16_3 tiles h2, ?_⟩
  simp [h2]

/-- C3, amended: for a 4096 x 4096 GetCoverage request with `WcsMaxTileWidth =
WcsMaxTileHeight = 1024` and three peer front ends the decomposition yields
sixteen tiles and, `tilesPerWorker` being `round(16/4) = 4` raised to
`minTilesPerWorker = 5`, the distribution gives five tiles to the local batch,
five to each of the first two peers and one to the third. -/
theorem scenario_batches_of_five (fuel : Nat) (hfuel : 4 < fuel) (crs : String) (bbox : List ℚ) :
    tilesPerWorker 16 (3 + 1) = 5 ∧
    ∃ (tiles : List GeoTileRequest) (batches : List (List GeoTileRequest)),
      tmpTileRequests fuel crs 4096 4096 1024 1024 bbox = some tiles ∧
      tiles.length = 16 ∧
      workerTileRequests tiles 3 = some batches ∧
      batches.map List.length = [5, 5, 5, 1] ∧
      batches.flatten = tiles := by
  obtain ⟨tiles, h1, h2⟩ := tmpTileRequests_4096 fuel hfuel crs bbox
  refine ⟨tilesPerWorker_16_4, tiles, _, h1, h2, workerTileRequests_16_3 tiles h2, ?_, ?_⟩
  · simp [h2]
  · have e1 : tiles = tiles.take 5 ++ tiles.drop 5 := (List.take_append_drop 5 tiles).symm
    have e2 : tiles.drop 5 = (tiles.drop 5).take 5 ++ tiles.drop 10 := by
      have := (List.take_append_drop 5 (tiles.drop 5)).symm
      rwa [List.drop_drop] at this
    have e3 : tiles.drop 10 = (tiles.drop 10).take 5 ++ tiles.drop 15 := by
      have := (List.take_append_drop 5 (tiles.drop 10)).symm
      rwa [List.drop_drop] at this
    conv_rhs => rw [e1, e2, e3]
    simp

/-- C3, amended, on the request of the scenario. -/
theorem scenario_batches_of_five_witness :
    tilesPerWorker 16 (3 + 1) = 5 ∧
    ∃ (tiles : List GeoTileRequest) (batches : List (List GeoTileRequest)),
      tmpTileRequests 5 "EPSG:4326" 4096 4096 1024 1024 [100, -45, 155, -10] = some tiles ∧
      tiles.length = 16 ∧
      workerTileRequests tiles 3 = some batches ∧
      batches.map List.length = [5, 5, 5, 1] ∧
      batches.flatten = tiles :=
  scenario_batches_of_five 5 (by decide) "EPSG:4326" [100, -45, 155, -10]

/-! ## Tiles produced by the loops, for any step budget -/

theorem tileLoopX_diverges (crs : String) (W H maxXTileSize maxYTileSize : Int) (bbox : List ℚ)
    (y : Int) (hmx : maxXTileSize ≤ 0) : ∀ (fuel : Nat) (x : Int) (acc : List GeoTileRequest),
    x < W → tileLoopX crs W H maxXTileSize maxYTileSize bbox y fuel x acc = none := by
  intro fuel
  induction fuel with
  | zero => intro x acc _; rfl
  | succ f ih =>
    intro x acc hx
    rw [tileLoopX, if_pos hx]
    exact ih _ _ (by omega)

theorem tileLoopY_diverges (crs : String) (W H maxXTileSize maxYTileSize : Int) (bbox : List ℚ)
    (fuelX : Nat) (hW : 0 < W) (hm : maxXTileSize ≤ 0 ∨ maxYTileSize ≤ 0) :
    ∀ (fuel : Nat) (y : Int) (acc : List GeoTileRequest),
    y < H → tileLoopY crs W H maxXTileSize maxYTileSize bbox fuelX fuel y acc = none := by
  intro fuel
  induction fuel with
  | zero => intro y acc _; rfl
  | succ f ih =>
    intro y acc hy
    rw [tileLoopY, if_pos hy]
    rcases hm with hmx | hmy
    · rw [tileLoopX_diverges crs W H maxXTileSize maxYTileSize bbox y hmx fuelX 0 acc hW]
    · cases hrow : tileLoopX crs W H maxXTileSize maxYTileSize bbox y fuelX 0 acc with
      | none => rfl
      | some acc1 => exact ih _ _ (by omega)

theorem tileLoopX_mem (crs : String) (W H maxXTileSize maxYTileSize : Int) (bbox : List ℚ)
    (y : Int) : ∀ (fuel : Nat) (x : Int) (acc res : List GeoTileRequest),
    tileLoopX crs W H maxXTileSize maxYTileSize bbox y fuel x acc = some res →
    ∀ t ∈ res, t ∈ acc ∨ ∃ x1 : Int, x1 < W ∧
      t = tileBody crs W H maxXTileSize maxYTileSize bbox x1 y := by
  intro fuel
  induction fuel with
  | zero => intro x acc res h; simp [tileLoopX] at h
  | succ f ih =>
    intro x acc res h t ht
    rw [tileLoopX] at h
    by_cases hx : x < W
    · rw [if_pos hx] at h
      rcases ih _ _ _ h t ht with h1 | h1
      · rcases List.mem_append.mp h1 with h2 | h2
        · exact Or.inl h2
        · exact Or.inr ⟨x, hx, by simpa using h2⟩
      · exact Or.inr h1
    · rw [if_neg hx] at h
      cases h
      exact Or.inl ht

theorem tileLoopY_mem (crs : String) (W H maxXTileSize maxYTileSize : Int) (bbox : List ℚ)
    (fuelX : Nat) : ∀ (fuel : Nat) (y : Int) (acc res : List GeoTileRequest),
    tileLoopY crs W H maxXTileSize maxYTileSize bbox fuelX fuel y acc = some res →
    ∀ t ∈ res, t ∈ acc ∨ ∃ x1 y1 : Int, x1 < W ∧ y1 < H ∧
      t = tileBody crs W H maxXTileSize maxYTileSize bbox x1 y1 := by
  intro fuel
  induction fuel with
  | zero => intro y acc res h; simp [tileLoopY] at h
  | succ f ih =>
    intro y acc res h t ht
    rw [tileLoopY] at h
    by_cases hy : y < H
    · rw [if_pos hy] at h
      cases hrow : tileLoopX crs W H maxXTileSize maxYTileSize bbox y fuelX 0 acc with
      | none => rw [hrow] at h; simp at h
      | some acc1 =>
        rw [hrow] at h
        rcases ih _ _ _ h t ht with h1 | h1
        · rcases tileLoopX_mem crs W H maxXTileSize maxYTileSize bbox y _ _ _ _ hrow t h1
            with h2 | ⟨x1, hx1, rfl⟩
          · exact Or.inl h2
          · exact Or.inr ⟨x1, y, hx1, hy, rfl⟩
        · exact Or.inr h1
    · rw [if_neg hy] at h
      cases h
      exact Or.inl ht

/-- Whatever the step budget and the maximal tile sizes, a tile list returned by
the decomposition of a frame with a bounding box of positive extent holds only
tiles of positive width and height. -/
theorem tmpTileRequests_pos (fuel : Nat) (crs : String) (W H maxXTileSize maxYTileSize : Int)
    (bbox : List ℚ) (tiles : List GeoTileRequest) (hW : 0 < W) (hH : 0 < H)
    (hbx : bboxAt bbox 0 < bboxAt bbox 2) (hby : bboxAt bbox 1 < bboxAt bbox 3)
    (h : tmpTileRequests fuel crs W H maxXTileSize maxYTileSize bbox = some tiles) :
    ∀ t ∈ tiles, 0 < t.Width ∧ 0 < t.Height := by
  have hm : 0 < maxXTileSize ∧ 0 < maxYTileSize := by
    by_contra hneg
    have hle : maxXTileSize ≤ 0 ∨ maxYTileSize ≤ 0 := by omega
    have := tileLoopY_diverges crs W H maxXTileSize maxYTileSize bbox fuel hW hle fuel 0 [] hH
    rw [tmpTileRequests, this] at h
    cases h
  intro t ht
  rcases tileLoopY_mem crs W H maxXTileSize maxYTileSize bbox fuel fuel 0 [] tiles h t ht
    with h1 | ⟨x1, y1, hx1, hy1, rfl⟩
  · simp at h1
  · obtain ⟨h1, h2, -, -⟩ := tileBody_fields crs W H maxXTileSize maxYTileSize bbox x1 y1
      hW hH hm.1 hm.2 hbx hby hx1 hy1
    rw [h1, h2]
    exact ⟨lt_min hm.1 (by omega), lt_min hm.2 (by omega)⟩

/-! ## Batches are slices of the tile list -/

theorem goSlice_mem {α : Type} (s : List α) (b e : Int) (batch : List α)
    (h : goSlice s b e = some batch) : ∀ t ∈ batch, t ∈ s := by
  unfold goSlice at h
  split at h
  · cases h
    intro t ht
    exact List.mem_of_mem_drop (List.mem_of_mem_take ht)
  · cases h

theorem distributeLoop_mem {α : Type} (tiles : List α) (perWorker : Int) :
    ∀ (remaining : Nat) (i : Int) (acc res : List (List α)),
    distributeLoop tiles perWorker remaining i acc = some res →
    ∀ b ∈ res, b ∈ acc ∨ ∀ t ∈ b, t ∈ tiles := by
  intro remaining
  induction remaining with
  | zero =>
    intro i acc res h b hb
    simp only [distributeLoop, Option.some.injEq] at h
    subst h
    exact Or.inl hb
  | succ n ih =>
    intro i acc res h b hb
    simp only [distributeLoop] at h
    split at h
    · cases h
    · rename_i batch hslice
      have hbatch := goSlice_mem _ _ _ _ hslice
      split at h
      · cases h
        rcases List.mem_append.mp hb with h1 | h1
        · exact Or.inl h1
        · right
          have : b = batch := by simpa using h1
          subst this
          exact hbatch
      · rcases ih _ _ _ h b hb with h1 | h1
        · rcases List.mem_append.mp h1 with h2 | h2
          · exact Or.inl h2
          · right
            have : b = batch := by simpa using h2
            subst this
            exact hbatch
        · exact Or.inr h1

theorem workerTileRequests_mem {α : Type} (tiles : List α) (nPeers : Nat)
    (batches : List (List α)) (h : workerTileRequests tiles nPeers = some batches) :
    ∀ b ∈ batches, ∀ t ∈ b, t ∈ tiles := by
  intro b hb
  rcases distributeLoop_mem tiles _ _ _ _ _ h b hb with h1 | h1
  · simp at h1
  · exact h1

/-! ## Sizes of the tiles handed to the tile pipeline -/

theorem resolveExtent_pos (isWorker : Bool) (probe : Int × Int) (params : WCSParams)
    (width height : Int) (h : resolveExtent isWorker probe params = .ok (width, height)) :
    0 < width ∧ 0 < height := by
  unfold resolveExtent at h
  split at h
  · split at h
    · cases h
    · split at h
      · rename_i hp
        cases h
        exact hp
      · cases h
  · rename_i hp
    cases h
    omega

theorem workerLoop_mem (checker : WorkerChecker) (crs : String)
    (workerWidth workerHeight workerOffX workerOffY : List String) :
    ∀ (workerBbox : List String) (iw : Nat) (acc res : List GeoTileRequest),
    workerLoop checker crs workerWidth workerHeight workerOffX workerOffY workerBbox iw acc
      = .ok res →
    ∀ t ∈ res, t ∈ acc ∨ ∃ bbox ∈ workerBbox, ∃ width ∈ workerWidth, ∃ height ∈ workerHeight,
      ∃ (offX offY : String) (wp : WorkerParams),
        checker bbox width height offX offY = .ok wp ∧
        wp.Width = some t.Width ∧ wp.Height = some t.Height := by
  intro workerBbox
  induction workerBbox with
  | nil =>
    intro iw acc res h t ht
    simp only [workerLoop, Except.ok.injEq] at h
    subst h
    exact Or.inl ht
  | cons bbox rest ih =>
    intro iw acc res h t ht
    rw [workerLoop] at h
    split at h
    · rename_i width height offX offY hw hh hx hy
      split at h
      · cases h
      · rename_i wp hchk
        split at h
        · rename_i w hgt x y hW hH hX hY
          rcases ih _ _ _ h t ht with h1 | ⟨b, hb, rest1⟩
          · rcases List.mem_append.mp h1 with h2 | h2
            · exact Or.inl h2
            · right
              have ht : t = getGeoTileRequest crs w hgt wp.BBox x y := by simpa using h2
              refine ⟨bbox, List.mem_cons_self _ _, width, List.getElem?_mem hw, height,
                List.getElem?_mem hh, offX, offY, wp, hchk, ?_, ?_⟩
              · rw [ht]; exact hW
              · rw [ht]; exact hH
          · exact Or.inr ⟨b, List.mem_cons_of_mem _ hb, rest1⟩
        · cases h
    · cases h

/-- C5, evaluated where the code fails.  A worker request whose group carries
`wwidth=0` and `wheight=0` passes every check of `serveWCS`, which tests the
sign of the master width and height only, and its tile of width and height
zero is handed to the tile pipeline.  A request of 2048 x 1024 pixels over a
bounding box of zero width (`bbox[0] = bbox[2]`) passes the checks as well and
is cut into two tiles whose width is the conversion of NaN to `int`, the
smallest `int`. -/
theorem submitted_tiles_not_positive :
    serveWCSTileRequests 0
        { WcsMaxWidth := 50000, WcsMaxHeight := 30000,
          WcsMaxTileWidth := 1024, WcsMaxTileHeight := 1024 }
        [] (0, 0) WMSParamsChecker
        [("wbbox", ["100,-45,155,-10"]), ("wwidth", ["0"]), ("wheight", ["0"]),
          ("woffx", ["0"]), ("woffy", ["0"])]
        { CRS := "EPSG:4326", BBox := [100, -45, 155, -10], Width := 256, Height := 256 }
      = some (.ok [[
          { CRS := "EPSG:4326", BBox := [100, -45, 155, -10], Height := 0, Width := 0,
            OffX := 0, OffY := 0, ZoomLimit := 0, QueryLimit := -1 }]]) ∧
    submittedTiles [[
          ({ CRS := "EPSG:4326", BBox := [100, -45, 155, -10], Height := 0, Width := 0,
             OffX := 0, OffY := 0, ZoomLimit := 0, QueryLimit := -1 } : GeoTileRequest)]]
      = [{ CRS := "EPSG:4326", BBox := [100, -45, 155, -10], Height := 0, Width := 0,
            OffX := 0, OffY := 0, ZoomLimit := 0, QueryLimit := -1 }] ∧
    serveWCSTileRequests 3
        { WcsMaxWidth := 50000, WcsMaxHeight := 30000,
          WcsMaxTileWidth := 1024, WcsMaxTileHeight := 1024 }
        [] (0, 0) WMSParamsChecker []
        { CRS := "EPSG:4326", BBox := [100, -45, 100, -10], Width := 2048, Height := 1024 }
      = some (.ok [[
          { CRS := "EPSG:4326", BBox := [100, -45, 100, -10], Height := 1024,
            Width := -9223372036854775808, OffX := 0, OffY := 0, ZoomLimit := 0,
            QueryLimit := -1 },
          { CRS := "EPSG:4326", BBox := [100, -45, 100, -10], Height := 1024,
            Width := -9223372036854775808, OffX := 1024, OffY := 0, ZoomLimit := 0,
            QueryLimit := -1 }]]) := by
  refine ⟨?_, rfl, ?_⟩
  · simp [serveWCSTileRequests, resolveExtent, workerArityOk, Query.values, List.lookup,
      workerLoop, WMSParamsChecker, parseBBox, splitOnComma, parseDecimal, parseUint,
      digitsValue, getGeoTileRequest]
  · have ht : tilesPerWorker 2 1 = 5 := by
      norm_num [tilesPerWorker, goInt, mathRound, minTilesPerWorker]
    have h1 : tmpTileRequests 3 "EPSG:4326" 2048 1024 1024 1024 [100, -45, 100, -10]
        = some [
            { CRS := "EPSG:4326", BBox := [100, -45, 100, -10], Height := 1024,
              Width := -9223372036854775808, OffX := 0, OffY := 0, ZoomLimit := 0,
              QueryLimit := -1 },
            { CRS := "EPSG:4326", BBox := [100, -45, 100, -10], Height := 1024,
              Width := -9223372036854775808, OffX := 1024, OffY := 0, ZoomLimit := 0,
              QueryLimit := -1 }] := by
      norm_num [tmpTileRequests, tileLoopY, tileLoopX, tileBody, roundedQuot, bboxAt, goInt,
        getGeoTileRequest, minInt64]
    simp [serveWCSTileRequests, resolveExtent, h1, workerTileRequests, ht, distributeLoop,
      goSlice]

/-- Where the sizes are positive: for a bounding box of positive extent and in
exact arithmetic, every tile that `serveWCS` hands to the tile pipeline on the
single-tile path and on the tile-decomposition path has `Width > 0` and
`Height > 0`; on the worker-mode path the width and height of a tile are
values that the parameter checker returned for `wwidth` and `wheight`. -/
theorem submitted_tiles_sizes_of_extent (fuel : Nat) (layer : Layer) (peers : List String)
    (probe : Int × Int) (checker : WorkerChecker) (query : Query) (params : WCSParams)
    (batches : List (List GeoTileRequest))
    (hbx : bboxAt params.BBox 0 < bboxAt params.BBox 2)
    (hby : bboxAt params.BBox 1 < bboxAt params.BBox 3)
    (hrun : serveWCSTileRequests fuel layer peers probe checker query params
      = some (.ok batches)) :
    (query.lookup "wbbox" = none →
      ∀ t ∈ submittedTiles batches, 0 < t.Width ∧ 0 < t.Height) ∧
    (query.lookup "wbbox" ≠ none →
      ∀ t ∈ submittedTiles batches,
        ∃ bbox ∈ query.values "wbbox", ∃ width ∈ query.values "wwidth",
        ∃ height ∈ query.values "wheight", ∃ (offX offY : String) (wp : WorkerParams),
          checker bbox width height offX offY = .ok wp ∧
          wp.Width = some t.Width ∧ wp.Height = some t.Height) := by
  unfold serveWCSTileRequests at hrun
  simp only at hrun
  split at hrun
  · cases hrun
  · rename_i width height hres
    have hpos := resolveExtent_pos _ _ _ _ _ hres
    split at hrun
    · cases hrun
    · constructor
      · intro hq
        rw [hq] at hrun
        simp only [Option.isSome_none, Bool.not_false, if_true] at hrun
        split at hrun
        · split at hrun
          · cases hrun
          · rename_i tiles htiles
            split at hrun
            · cases hrun
            · rename_i bs hbs
              simp only [Option.some.injEq, Except.ok.injEq] at hrun
              subst hrun
              intro t ht
              have hall := tmpTileRequests_pos fuel _ _ _ _ _ _ tiles hpos.1 hpos.2 hbx hby htiles
              have hmem := workerTileRequests_mem tiles _ _ hbs
              unfold submittedTiles at ht
              cases bs with
              | nil => simp at ht
              | cons b rest =>
                simp only [List.headD_cons] at ht
                exact hall t (hmem b (List.mem_cons_self _ _) t ht)
        · simp only [Option.some.injEq, Except.ok.injEq] at hrun
          subst hrun
          intro t ht
          simp only [submittedTiles, List.headD_cons, List.mem_singleton] at ht
          subst ht
          exact hpos
      · intro hq
        obtain ⟨v, hv⟩ := Option.ne_none_iff_exists'.mp hq
        rw [hv] at hrun
        simp only [Option.isSome_some, Bool.not_true] at hrun
        simp only [Bool.false_eq_true, if_false] at hrun
        split at hrun
        · cases hrun
        · split at hrun
          · cases hrun
          · rename_i tiles hloop
            simp only [Option.some.injEq, Except.ok.injEq] at hrun
            subst hrun
            intro t ht
            simp only [submittedTiles, List.headD_cons] at ht
            rcases workerLoop_mem _ _ _ _ _ _ _ _ _ _ hloop t ht with h1 | h1
            · simp at h1
            · exact h1

/-- On the 4096 x 4096 request with three peers the request runs the
decomposition and the tiles of its local batch have positive sizes. -/
theorem submitted_tiles_sizes_4096 :
    ∃ batches : List (List GeoTileRequest),
      serveWCSTileRequests 5
        { WcsMaxWidth := 50000, WcsMaxHeight := 30000,
          WcsMaxTileWidth := 1024, WcsMaxTileHeight := 1024 }
        ["http://a", "http://b", "http://c"] (0, 0) WMSParamsChecker []
        { CRS := "EPSG:4326", BBox := [100, -45, 155, -10], Width := 4096, Height := 4096 }
        = some (.ok batches) ∧
      (batches.map List.length = [5, 5, 5, 1]) ∧
      ∀ t ∈ submittedTiles batches, 0 < t.Width ∧ 0 < t.Height := by
  obtain ⟨tiles, h1, h2⟩ := tmpTileRequests_4096 5 (by decide) "EPSG:4326" [100, -45, 155, -10]
  have hrun : serveWCSTileRequests 5
        { WcsMaxWidth := 50000, WcsMaxHeight := 30000,
          WcsMaxTileWidth := 1024, WcsMaxTileHeight := 1024 }
        ["http://a", "http://b", "http://c"] (0, 0) WMSParamsChecker []
        { CRS := "EPSG:4326", BBox := [100, -45, 155, -10], Width := 4096, Height := 4096 }
        = some (.ok [tiles.take 5, (tiles.drop 5).take 5, (tiles.drop 10).take 5,
            tiles.drop 15]) := by
    simp [serveWCSTileRequests, resolveExtent, h1, workerTileRequests_16_3 tiles h2]
  refine ⟨_, hrun, by simp [h2], ?_⟩
  exact (submitted_tiles_sizes_of_extent _ _ _ _ _ _ _ _ (by norm_num [bboxAt]) (by norm_num [bboxAt])
    hrun).1 rfl

/-! ## Response naming -/

/-! ### Letter case -/

theorem toNat_ofNat_small (n : Nat) (h : n < 55296) : (Char.ofNat n).toNat = n := by
  have hv : n.isValidChar := Or.inl h
  unfold Char.ofNat
  rw [dif_pos hv]
  rfl

theorem toLower_eq_iff (c t : Char) (ht1 : 97 ≤ t.toNat) (ht2 : t.toNat ≤ 122) :
    c.toLower = t ↔ c = t ∨ c = Char.ofNat (t.toNat - 32) := by
  unfold Char.toLower
  by_cases h : c.toNat ≥ 65 ∧ c.toNat ≤ 90
  · simp only [h, and_self, if_true]
    constructor
    · intro e
      right
      have := congrArg Char.toNat e
      rw [toNat_ofNat_small _ (by omega)] at this
      rw [← this, Nat.add_sub_cancel, Char.ofNat_toNat]
    · rintro (e | e)
      · subst e; omega
      · have := congrArg Char.toNat e
        rw [toNat_ofNat_small _ (by omega)] at this
        rw [this, Nat.sub_add_cancel (by omega), Char.ofNat_toNat]
  · simp only [h, if_false]
    constructor
    · exact Or.inl
    · rintro (e | e)
      · exact e
      · exfalso
        have := congrArg Char.toNat e
        rw [toNat_ofNat_small _ (by omega)] at this
        omega

theorem toUpper_eq_iff (c t : Char) (ht1 : 65 ≤ t.toNat) (ht2 : t.toNat ≤ 90) :
    c.toUpper = t ↔ c = t ∨ c = Char.ofNat (t.toNat + 32) := by
  unfold Char.toUpper
  by_cases h : c.toNat ≥ 97 ∧ c.toNat ≤ 122
  · simp only [h, and_self, if_true]
    constructor
    · intro e
      right
      have := congrArg Char.toNat e
      rw [toNat_ofNat_small _ (by omega)] at this
      rw [← this, Nat.sub_add_cancel (by omega), Char.ofNat_toNat]
    · rintro (e | e)
      · subst e; omega
      · have := congrArg Char.toNat e
        rw [toNat_ofNat_small _ (by omega)] at this
        rw [this, Nat.add_sub_cancel, Char.ofNat_toNat]
  · simp only [h, if_false]
    constructor
    · exact Or.inl
    · rintro (e | e)
      · exact e
      · exfalso
        have := congrArg Char.toNat e
        rw [toNat_ofNat_small _ (by omega)] at this
        omega

theorem toUpper_eq_other (c t : Char) (ht : t.toNat < 65) :
    c.toUpper = t ↔ c = t := by
  unfold Char.toUpper
  by_cases h : c.toNat ≥ 97 ∧ c.toNat ≤ 122
  · simp only [h, and_self, if_true]
    constructor
    · intro e
      exfalso
      have := congrArg Char.toNat e
      rw [toNat_ofNat_small _ (by omega)] at this
      omega
    · intro e
      subst e; omega
  · simp only [h, if_false]

theorem unicode.ToLower_eq_iff (c t : Char) (ht1 : 97 ≤ t.toNat) (ht2 : t.toNat ≤ 122) :
    unicode.ToLower c = t ↔
      c = t ∨ c = Char.ofNat (t.toNat - 32) ∨ (t = 'i' ∧ c = Char.ofNat 0x130) ∨
        (t = 'k' ∧ c = Char.ofNat 0x212A) := by
  unfold unicode.ToLower
  by_cases h1 : c = Char.ofNat 0x130
  · subst h1
    rw [if_pos rfl]
    constructor
    · intro e; exact Or.inr (Or.inr (Or.inl ⟨e.symm, rfl⟩))
    · rintro (e | e | e | e)
      · exfalso; rw [← e] at ht2; revert ht2; decide
      · exfalso
        have := congrArg Char.toNat e
        rw [toNat_ofNat_small (t.toNat - 32) (by omega)] at this
        have h3 : (Char.ofNat 0x130).toNat = 0x130 := by decide
        omega
      · exact e.1.symm
      · exact absurd e.2 (by decide)
  · rw [if_neg h1]
    by_cases h2 : c = Char.ofNat 0x212A
    · subst h2
      rw [if_pos rfl]
      constructor
      · intro e; exact Or.inr (Or.inr (Or.inr ⟨e.symm, rfl⟩))
      · rintro (e | e | e | e)
        · exfalso; rw [← e] at ht2; revert ht2; decide
        · exfalso
          have := congrArg Char.toNat e
          rw [toNat_ofNat_small (t.toNat - 32) (by omega)] at this
          have h3 : (Char.ofNat 0x212A).toNat = 0x212A := by decide
          omega
        · exact absurd e.2 h1
        · exact e.1.symm
    · rw [if_neg h2, toLower_eq_iff c t ht1 ht2]
      constructor
      · rintro (e | e)
        · exact Or.inl e
        · exact Or.inr (Or.inl e)
      · rintro (e | e | e | e)
        · exact Or.inl e
        · exact Or.inr e
        · exact absurd e.2 h1
        · exact absurd e.2 h2

theorem unicode.ToUpper_eq_iff (c t : Char) (ht1 : 65 ≤ t.toNat) (ht2 : t.toNat ≤ 90) :
    unicode.ToUpper c = t ↔
      c = t ∨ c = Char.ofNat (t.toNat + 32) ∨ (t = 'I' ∧ c = Char.ofNat 0x131) ∨
        (t = 'S' ∧ c = Char.ofNat 0x17F) := by
  unfold unicode.ToUpper
  by_cases h1 : c = Char.ofNat 0x131
  · subst h1
    rw [if_pos rfl]
    constructor
    · intro e; exact Or.inr (Or.inr (Or.inl ⟨e.symm, rfl⟩))
    · rintro (e | e | e | e)
      · exfalso; rw [← e] at ht2; revert ht2; decide
      · exfalso
        have := congrArg Char.toNat e
        rw [toNat_ofNat_small (t.toNat + 32) (by omega)] at this
        have h3 : (Char.ofNat 0x131).toNat = 0x131 := by decide
        omega
      · exact e.1.symm
      · exact absurd e.2 (by decide)
  · rw [if_neg h1]
    by_cases h2 : c = Char.ofNat 0x17F
    · subst h2
      rw [if_pos rfl]
      constructor
      · intro e; exact Or.inr (Or.inr (Or.inr ⟨e.symm, rfl⟩))
      · rintro (e | e | e | e)
        · exfalso; rw [← e] at ht2; revert ht2; decide
        · exfalso
          have := congrArg Char.toNat e
          rw [toNat_ofNat_small (t.toNat + 32) (by omega)] at this
          have h3 : (Char.ofNat 0x17F).toNat = 0x17F := by decide
          omega
        · exact absurd e.2 h1
        · exact e.1.symm
    · rw [if_neg h2, toUpper_eq_iff c t ht1 ht2]
      constructor
      · rintro (e | e)
        · exact Or.inl e
        · exact Or.inr (Or.inl e)
      · rintro (e | e | e | e)
        · exact Or.inl e
        · exact Or.inr e
        · exact absurd e.2 h1
        · exact absurd e.2 h2

theorem unicode.ToUpper_eq_other (c t : Char) (ht : t.toNat < 65) :
    unicode.ToUpper c = t ↔ c = t := by
  unfold unicode.ToUpper
  by_cases h1 : c = Char.ofNat 0x131
  · subst h1
    rw [if_pos rfl]
    constructor
    · intro e; exfalso; rw [← e] at ht; revert ht; decide
    · intro e; exfalso; rw [← e] at ht; revert ht; decide
  · rw [if_neg h1]
    by_cases h2 : c = Char.ofNat 0x17F
    · subst h2
      rw [if_pos rfl]
      constructor
      · intro e; exfalso; rw [← e] at ht; revert ht; decide
      · intro e; exfalso; rw [← e] at ht; revert ht; decide
    · rw [if_neg h2, toUpper_eq_other c t ht]

theorem upper_letter (c t u : Char) (ht1 : 65 ≤ t.toNat) (ht2 : t.toNat ≤ 90)
    (hu : Char.ofNat (t.toNat + 32) = u) (hI : t ≠ 'I') (hS : t ≠ 'S') :
    unicode.ToUpper c = t ↔ c = t ∨ c = u := by
  rw [unicode.ToUpper_eq_iff c t ht1 ht2, hu]
  constructor
  · rintro (e | e | e | e)
    · exact Or.inl e
    · exact Or.inr e
    · exact absurd e.1 hI
    · exact absurd e.1 hS
  · rintro (e | e)
    · exact Or.inl e
    · exact Or.inr (Or.inl e)

theorem upper_S (c : Char) :
    unicode.ToUpper c = 'S' ↔ c = 'S' ∨ c = 's' ∨ c = Char.ofNat 0x17F := by
  rw [unicode.ToUpper_eq_iff c 'S' (by decide) (by decide)]
  have hu : Char.ofNat ('S'.toNat + 32) = 's' := by decide
  rw [hu]
  constructor
  · rintro (e | e | e | e)
    · exact Or.inl e
    · exact Or.inr (Or.inl e)
    · exact absurd e.1 (by decide)
    · exact Or.inr (Or.inr e.2)
  · rintro (e | e | e)
    · exact Or.inl e
    · exact Or.inr (Or.inl e)
    · exact Or.inr (Or.inr (Or.inr ⟨rfl, e⟩))

theorem toUpper_crs84_iff (crs : String) :
    strings.ToUpper crs = "CRS:84" ↔
      ∃ c r s : Char, crs = String.mk [c, r, s, ':', '8', '4'] ∧ (c = 'C' ∨ c = 'c') ∧
        (r = 'R' ∨ r = 'r') ∧ (s = 'S' ∨ s = 's' ∨ s = Char.ofNat 0x17F) := by
  have hC := fun c => upper_letter c 'C' 'c' (by decide) (by decide) (by decide) (by decide)
    (by decide)
  have hR := fun c => upper_letter c 'R' 'r' (by decide) (by decide) (by decide) (by decide)
    (by decide)
  have h1 := fun c => unicode.ToUpper_eq_other c ':' (by decide)
  have h2 := fun c => unicode.ToUpper_eq_other c '8' (by decide)
  have h3 := fun c => unicode.ToUpper_eq_other c '4' (by decide)
  rw [String.ext_iff]
  show crs.data.map unicode.ToUpper = ['C', 'R', 'S', ':', '8', '4'] ↔ _
  constructor
  · intro h
    rcases crs with ⟨l⟩
    change l.map unicode.ToUpper = _ at h
    obtain ⟨c1, l1, rfl, e1, g1⟩ := List.map_eq_cons_iff.mp h
    obtain ⟨c2, l2, rfl, e2, g2⟩ := List.map_eq_cons_iff.mp g1
    obtain ⟨c3, l3, rfl, e3, g3⟩ := List.map_eq_cons_iff.mp g2
    obtain ⟨c4, l4, rfl, e4, g4⟩ := List.map_eq_cons_iff.mp g3
    obtain ⟨c5, l5, rfl, e5, g5⟩ := List.map_eq_cons_iff.mp g4
    obtain ⟨c6, l6, rfl, e6, g6⟩ := List.map_eq_cons_iff.mp g5
    rw [List.map_eq_nil_iff] at g6
    rw [h1] at e4; rw [h2] at e5; rw [h3] at e6
    subst e4 e5 e6 g6
    exact ⟨c1, c2, c3, rfl, (hC c1).mp e1, (hR c2).mp e2, (upper_S c3).mp e3⟩
  · rintro ⟨c, r, s, rfl, hc, hr, hs⟩
    show [unicode.ToUpper c, unicode.ToUpper r, unicode.ToUpper s, unicode.ToUpper ':',
      unicode.ToUpper '8', unicode.ToUpper '4'] = _
    rw [(hC c).mpr hc, (hR r).mpr hr, (upper_S s).mpr hs]
    rfl

theorem lower_letter (c t u : Char) (ht1 : 97 ≤ t.toNat) (ht2 : t.toNat ≤ 122)
    (hu : Char.ofNat (t.toNat - 32) = u) (hi : t ≠ 'i') (hk : t ≠ 'k') :
    unicode.ToLower c = t ↔ c = t ∨ c = u := by
  rw [unicode.ToLower_eq_iff c t ht1 ht2, hu]
  constructor
  · rintro (e | e | e | e)
    · exact Or.inl e
    · exact Or.inr e
    · exact absurd e.1 hi
    · exact absurd e.1 hk
  · rintro (e | e)
    · exact Or.inl e
    · exact Or.inr (Or.inl e)

theorem lower_i (c : Char) :
    unicode.ToLower c = 'i' ↔ c = 'i' ∨ c = 'I' ∨ c = Char.ofNat 0x130 := by
  rw [unicode.ToLower_eq_iff c 'i' (by decide) (by decide)]
  have hu : Char.ofNat ('i'.toNat - 32) = 'I' := by decide
  rw [hu]
  constructor
  · rintro (e | e | e | e)
    · exact Or.inl e
    · exact Or.inr (Or.inl e)
    · exact Or.inr (Or.inr e.2)
    · exact absurd e.1 (by decide)
  · rintro (e | e | e)
    · exact Or.inl e
    · exact Or.inr (Or.inl e)
    · exact Or.inr (Or.inr (Or.inl ⟨rfl, e⟩))

theorem toUpper_epsg4326_iff (crs : String) :
    strings.ToUpper crs = "EPSG:4326" ↔
      ∃ e p s g : Char, crs = String.mk [e, p, s, g, ':', '4', '3', '2', '6'] ∧
        (e = 'E' ∨ e = 'e') ∧ (p = 'P' ∨ p = 'p') ∧
        (s = 'S' ∨ s = 's' ∨ s = Char.ofNat 0x17F) ∧ (g = 'G' ∨ g = 'g') := by
  have hE := fun c => upper_letter c 'E' 'e' (by decide) (by decide) (by decide) (by decide)
    (by decide)
  have hP := fun c => upper_letter c 'P' 'p' (by decide) (by decide) (by decide) (by decide)
    (by decide)
  have hG := fun c => upper_letter c 'G' 'g' (by decide) (by decide) (by decide) (by decide)
    (by decide)
  have h1 := fun c => unicode.ToUpper_eq_other c ':' (by decide)
  have h2 := fun c => unicode.ToUpper_eq_other c '4' (by decide)
  have h3 := fun c => unicode.ToUpper_eq_other c '3' (by decide)
  have h4 := fun c => unicode.ToUpper_eq_other c '2' (by decide)
  have h5 := fun c => unicode.ToUpper_eq_other c '6' (by decide)
  rw [String.ext_iff]
  show crs.data.map unicode.ToUpper = ['E', 'P', 'S', 'G', ':', '4', '3', '2', '6'] ↔ _
  constructor
  · intro h
    rcases crs with ⟨l⟩
    change l.map unicode.ToUpper = _ at h
    obtain ⟨c1, l1, rfl, e1, g1⟩ := List.map_eq_cons_iff.mp h
    obtain ⟨c2, l2, rfl, e2, g2⟩ := List.map_eq_cons_iff.mp g1
    obtain ⟨c3, l3, rfl, e3, g3⟩ := List.map_eq_cons_iff.mp g2
    obtain ⟨c4, l4, rfl, e4, g4⟩ := List.map_eq_cons_iff.mp g3
    obtain ⟨c5, l5, rfl, e5, g5⟩ := List.map_eq_cons_iff.mp g4
    obtain ⟨c6, l6, rfl, e6, g6⟩ := List.map_eq_cons_iff.mp g5
    obtain ⟨c7, l7, rfl, e7, g7⟩ := List.map_eq_cons_iff.mp g6
    obtain ⟨c8, l8, rfl, e8, g8⟩ := List.map_eq_cons_iff.mp g7
    obtain ⟨c9, l9, rfl, e9, g9⟩ := List.map_eq_cons_iff.mp g8
    rw [List.map_eq_nil_iff] at g9
    rw [h1] at e5; rw [h2] at e6; rw [h3] at e7; rw [h4] at e8; rw [h5] at e9
    subst e5 e6 e7 e8 e9 g9
    exact ⟨c1, c2, c3, c4, rfl, (hE c1).mp e1, (hP c2).mp e2, (upper_S c3).mp e3,
      (hG c4).mp e4⟩
  · rintro ⟨e, p, s, g, rfl, he, hp, hs, hg⟩
    show [unicode.ToUpper e, unicode.ToUpper p, unicode.ToUpper s, unicode.ToUpper g,
      unicode.ToUpper ':', unicode.ToUpper '4', unicode.ToUpper '3', unicode.ToUpper '2',
      unicode.ToUpper '6'] = _
    rw [(hE e).mpr he, (hP p).mpr hp, (upper_S s).mpr hs, (hG g).mpr hg]
    rfl

theorem toLower_geotiff_iff (format : String) :
    strings.ToLower format = "geotiff" ↔
      ∃ g e o t i f f2 : Char, format = String.mk [g, e, o, t, i, f, f2] ∧
        (g = 'g' ∨ g = 'G') ∧ (e = 'e' ∨ e = 'E') ∧ (o = 'o' ∨ o = 'O') ∧
        (t = 't' ∨ t = 'T') ∧ (i = 'i' ∨ i = 'I' ∨ i = Char.ofNat 0x130) ∧
        (f = 'f' ∨ f = 'F') ∧ (f2 = 'f' ∨ f2 = 'F') := by
  have hg := fun c => lower_letter c 'g' 'G' (by decide) (by decide) (by decide) (by decide)
    (by decide)
  have he := fun c => lower_letter c 'e' 'E' (by decide) (by decide) (by decide) (by decide)
    (by decide)
  have ho := fun c => lower_letter c 'o' 'O' (by decide) (by decide) (by decide) (by decide)
    (by decide)
  have ht := fun c => lower_letter c 't' 'T' (by decide) (by decide) (by decide) (by decide)
    (by decide)
  have hf := fun c => lower_letter c 'f' 'F' (by decide) (by decide) (by decide) (by decide)
    (by decide)
  rw [String.ext_iff]
  show format.data.map unicode.ToLower = ['g', 'e', 'o', 't', 'i', 'f', 'f'] ↔ _
  constructor
  · intro h
    rcases format with ⟨l⟩
    change l.map unicode.ToLower = _ at h
    obtain ⟨c1, l1, rfl, e1, g1⟩ := List.map_eq_cons_iff.mp h
    obtain ⟨c2, l2, rfl, e2, g2⟩ := List.map_eq_cons_iff.mp g1
    obtain ⟨c3, l3, rfl, e3, g3⟩ := List.map_eq_cons_iff.mp g2
    obtain ⟨c4, l4, rfl, e4, g4⟩ := List.map_eq_cons_iff.mp g3
    obtain ⟨c5, l5, rfl, e5, g5⟩ := List.map_eq_cons_iff.mp g4
    obtain ⟨c6, l6, rfl, e6, g6⟩ := List.map_eq_cons_iff.mp g5
    obtain ⟨c7, l7, rfl, e7, g7⟩ := List.map_eq_cons_iff.mp g6
    rw [List.map_eq_nil_iff] at g7
    subst g7
    exact ⟨c1, c2, c3, c4, c5, c6, c7, rfl, (hg c1).mp e1, (he c2).mp e2, (ho c3).mp e3,
      (ht c4).mp e4, (lower_i c5).mp e5, (hf c6).mp e6, (hf c7).mp e7⟩
  · rintro ⟨g, e, o, t, i, f, f2, rfl, h1, h2, h3, h4, h5, h6, h7⟩
    show [unicode.ToLower g, unicode.ToLower e, unicode.ToLower o, unicode.ToLower t,
      unicode.ToLower i, unicode.ToLower f, unicode.ToLower f2] = _
    rw [(hg g).mpr h1, (he e).mpr h2, (ho o).mpr h3, (ht t).mpr h4, (lower_i i).mpr h5,
      (hf f).mpr h6, (hf f2).mpr h7]

theorem toLower_netcdf_iff (format : String) :
    strings.ToLower format = "netcdf" ↔
      ∃ n e t c d f : Char, format = String.mk [n, e, t, c, d, f] ∧
        (n = 'n' ∨ n = 'N') ∧ (e = 'e' ∨ e = 'E') ∧ (t = 't' ∨ t = 'T') ∧
        (c = 'c' ∨ c = 'C') ∧ (d = 'd' ∨ d = 'D') ∧ (f = 'f' ∨ f = 'F') := by
  have hn := fun c => lower_letter c 'n' 'N' (by decide) (by decide) (by decide) (by decide)
    (by decide)
  have he := fun c => lower_letter c 'e' 'E' (by decide) (by decide) (by decide) (by decide)
    (by decide)
  have ht := fun c => lower_letter c 't' 'T' (by decide) (by decide) (by decide) (by decide)
    (by decide)
  have hc := fun c => lower_letter c 'c' 'C' (by decide) (by decide) (by decide) (by decide)
    (by decide)
  have hd := fun c => lower_letter c 'd' 'D' (by decide) (by decide) (by decide) (by decide)
    (by decide)
  have hf := fun c => lower_letter c 'f' 'F' (by decide) (by decide) (by decide) (by decide)
    (by decide)
  rw [String.ext_iff]
  show format.data.map unicode.ToLower = ['n', 'e', 't', 'c', 'd', 'f'] ↔ _
  constructor
  · intro h
    rcases format with ⟨l⟩
    change l.map unicode.ToLower = _ at h
    obtain ⟨c1, l1, rfl, e1, g1⟩ := List.map_eq_cons_iff.mp h
    obtain ⟨c2, l2, rfl, e2, g2⟩ := List.map_eq_cons_iff.mp g1
    obtain ⟨c3, l3, rfl, e3, g3⟩ := List.map_eq_cons_iff.mp g2
    obtain ⟨c4, l4, rfl, e4, g4⟩ := List.map_eq_cons_iff.mp g3
    obtain ⟨c5, l5, rfl, e5, g5⟩ := List.map_eq_cons_iff.mp g4
    obtain ⟨c6, l6, rfl, e6, g6⟩ := List.map_eq_cons_iff.mp g5
    rw [List.map_eq_nil_iff] at g6
    subst g6
    exact ⟨c1, c2, c3, c4, c5, c6, rfl, (hn c1).mp e1, (he c2).mp e2, (ht c3).mp e3,
      (hc c4).mp e4, (hd c5).mp e5, (hf c6).mp e6⟩
  · rintro ⟨n, e, t, c, d, f, rfl, h1, h2, h3, h4, h5, h6⟩
    show [unicode.ToLower n, unicode.ToLower e, unicode.ToLower t, unicode.ToLower c,
      unicode.ToLower d, unicode.ToLower f] = _
    rw [(hn n).mpr h1, (he e).mpr h2, (ht t).mpr h3, (hc c).mpr h4, (hd d).mpr h5,
      (hf f).mpr h6]

/-! ### Coverage names -/

/-- The character that the sanitiser writes for `c`. -/
theorem fileNameCoverages_data (s : String) :
    (fileNameCoverages s).data = s.data.map fun c => if reCoverage c then '-' else c := by
  unfold fileNameCoverages ReplaceAllString
  show (s.data.flatMap fun c => if reCoverage c then ['-'] else [c]) = _
  induction s.data with
  | nil => rfl
  | cons c cs ih =>
    rw [List.flatMap_cons, ih, List.map_cons]
    by_cases h : reCoverage c = true <;> simp [h]

theorem reCoverage_iff (c : Char) :
    reCoverage c = false ↔
      (('a' ≤ c ∧ c ≤ 'z') ∨ ('A' ≤ c ∧ c ≤ 'Z') ∨ ('0' ≤ c ∧ c ≤ '9') ∨ c = '-' ∨ c = '_' ∨
        c = ' ' ∨ c = '\t' ∨ c = '\n' ∨ c = '\x0c' ∨ c = '\r') := by
  simp only [reCoverage, reSpace, Char.isLower, Char.isUpper, Char.isDigit, Bool.not_eq_false',
    Bool.or_eq_true, Bool.and_eq_true, decide_eq_true_eq, beq_iff_eq, Char.le_def]
  have h12 : Char.ofNat 12 = '\x0c' := by decide
  rw [h12]
  tauto

theorem reCoverage_replaced (c : Char) :
    reCoverage (if reCoverage c then '-' else c) = false := by
  by_cases h : reCoverage c = true
  · rw [if_pos h]; decide
  · rw [if_neg h]; simpa using h

/-- C6: the naming of a coverage response.  The requested format is compared
through `strings.ToLower`: a format that is `geotiff` up to letter case gives
extension `tiff` and content type `application/geotiff`, one that is `netcdf`
up to letter case gives `nc` and `application/netcdf`, every other format gives
`wcs` and `application/wcs`; the Content-Disposition header is
`attachment; filename=<sanitised coverage>.<ISO time>.<extension>`.  The
formats that count as `geotiff` are the seven-character strings whose
characters are `g`, `e`, `o`, `t`, `i`, `f`, `f` in either case, where Go also
lowers U+0130 to `i`; those that count as `netcdf` are the six-character
strings `n`, `e`, `t`, `c`, `d`, `f` in either case. -/
theorem coverage_response_naming (format coverage fileNameDateTime : String) :
    coverageHeaders format coverage fileNameDateTime =
      (if strings.ToLower format = "geotiff" then
        { ContentDisposition := "attachment; filename=" ++ fileNameCoverages coverage ++ "."
            ++ fileNameDateTime ++ "." ++ "tiff",
          ContentType := "application/geotiff" }
      else if strings.ToLower format = "netcdf" then
        { ContentDisposition := "attachment; filename=" ++ fileNameCoverages coverage ++ "."
            ++ fileNameDateTime ++ "." ++ "nc",
          ContentType := "application/netcdf" }
      else
        { ContentDisposition := "attachment; filename=" ++ fileNameCoverages coverage ++ "."
            ++ fileNameDateTime ++ "." ++ "wcs",
          ContentType := "application/wcs" }) ∧
    (strings.ToLower format = "geotiff" ↔
      ∃ g e o t i f f2 : Char, format = String.mk [g, e, o, t, i, f, f2] ∧
        (g = 'g' ∨ g = 'G') ∧ (e = 'e' ∨ e = 'E') ∧ (o = 'o' ∨ o = 'O') ∧
        (t = 't' ∨ t = 'T') ∧ (i = 'i' ∨ i = 'I' ∨ i = Char.ofNat 0x130) ∧
        (f = 'f' ∨ f = 'F') ∧ (f2 = 'f' ∨ f2 = 'F')) ∧
    (strings.ToLower format = "netcdf" ↔
      ∃ n e t c d f : Char, format = String.mk [n, e, t, c, d, f] ∧
        (n = 'n' ∨ n = 'N') ∧ (e = 'e' ∨ e = 'E') ∧ (t = 't' ∨ t = 'T') ∧
        (c = 'c' ∨ c = 'C') ∧ (d = 'd' ∨ d = 'D') ∧ (f = 'f' ∨ f = 'F')) ∧
    fileExtContentType "geotiff" = ("tiff", "application/geotiff") ∧
    fileExtContentType "GeoTIFF" = ("tiff", "application/geotiff") ∧
    fileExtContentType "GEOT\u0130FF" = ("tiff", "application/geotiff") ∧
    fileExtContentType "netcdf" = ("nc", "application/netcdf") ∧
    fileExtContentType "NetCDF" = ("nc", "application/netcdf") ∧
    fileExtContentType "png" = ("wcs", "application/wcs") ∧
    fileExtContentType "geotiff " = ("wcs", "application/wcs") ∧
    fileExtContentType "" = ("wcs", "application/wcs") := by
  refine ⟨?_, toLower_geotiff_iff format, toLower_netcdf_iff format, by decide, by decide,
    by decide, by decide, by decide, by decide, by decide, by decide⟩
  unfold coverageHeaders fileExtContentType
  by_cases h1 : strings.ToLower format = "geotiff"
  · simp [h1]
  · by_cases h2 : strings.ToLower format = "netcdf"
    · simp [h1, h2]
    · simp [h1, h2]

/-- C7: the sanitisation of the coverage name is a character-wise map.  The
result has as many characters as the name; a character in `a-z`, `A-Z`, `0-9`,
`-`, `_` or the white space class `\s` of the pattern (space, tab, line feed,
form feed, carriage return) is kept and every other character becomes `-`;
sanitising twice is the same as sanitising once. -/
theorem sanitise_charwise (s : String) :
    (fileNameCoverages s).length = s.length ∧
    (∀ (i : Nat) (c : Char), s.data[i]? = some c →
      (fileNameCoverages s).data[i]? = some
        (if (('a' ≤ c ∧ c ≤ 'z') ∨ ('A' ≤ c ∧ c ≤ 'Z') ∨ ('0' ≤ c ∧ c ≤ '9') ∨ c = '-' ∨
            c = '_' ∨ c = ' ' ∨ c = '\t' ∨ c = '\n' ∨ c = '\x0c' ∨ c = '\r') then c else '-')) ∧
    fileNameCoverages (fileNameCoverages s) = fileNameCoverages s := by
  refine ⟨?_, ?_, ?_⟩
  · show (fileNameCoverages s).data.length = s.data.length
    rw [fileNameCoverages_data, List.length_map]
  · intro i c hc
    rw [fileNameCoverages_data, List.getElem?_map, hc, Option.map_some']
    congr 1
    by_cases h : reCoverage c = true
    · have hn : ¬ _ := fun hk => by
        have := (reCoverage_iff c).mpr hk
        rw [h] at this
        cases this
      rw [if_pos h, if_neg hn]
    · have hf : reCoverage c = false := by simpa using h
      rw [if_neg h, if_pos ((reCoverage_iff c).mp hf)]
  · apply String.ext
    rw [fileNameCoverages_data (fileNameCoverages s), fileNameCoverages_data s, List.map_map]
    apply List.map_congr_left
    intro c _
    simp only [Function.comp]
    rw [reCoverage_replaced c]
    simp

/-- C8 as stated fails: the sanitised form of `My Layer/X!` is not
`My-Layer-X-`. -/
theorem sanitise_example_not_all_dashes :
    fileNameCoverages "My Layer/X!" ≠ "My-Layer-X-" := by
  decide

/-- C8, amended: for a GetCoverage request whose coverage parameter is
`My Layer/X!` the coverage portion of the Content-Disposition file name is
`My Layer-X-`: the space belongs to the class `\s` that the pattern keeps, the
slash and the exclamation mark are replaced. -/
theorem sanitise_example :
    fileNameCoverages "My Layer/X!" = "My Layer-X-" ∧
    (coverageHeaders "geotiff" "My Layer/X!" "2020-01-15T00:00:00.000Z").ContentDisposition
      = "attachment; filename=My Layer-X-.2020-01-15T00:00:00.000Z.tiff" := by
  constructor <;> decide

/-! ## Dispatch -/

theorem reqService_lookup (r : String) :
    reqService.lookup r =
      (if r ∈ ["GetFeatureInfo", "GetMap", "DescribeLayer", "GetLegendGraphic"] then some "WMS"
       else if r ∈ ["DescribeCoverage", "GetCoverage"] then some "WCS"
       else if r ∈ ["DescribeProcess", "Execute"] then some "WPS"
       else none) := by
  simp only [reqService, List.lookup, List.mem_cons, List.mem_singleton, List.not_mem_nil,
    or_false]
  by_cases h1 : r = "GetFeatureInfo"
  · subst h1; rfl
  by_cases h2 : r = "GetMap"
  · subst h2; rfl
  by_cases h3 : r = "DescribeLayer"
  · subst h3; rfl
  by_cases h4 : r = "GetLegendGraphic"
  · subst h4; rfl
  by_cases h5 : r = "DescribeCoverage"
  · subst h5; rfl
  by_cases h6 : r = "GetCoverage"
  · subst h6; rfl
  by_cases h7 : r = "DescribeProcess"
  · subst h7; rfl
  by_cases h8 : r = "Execute"
  · subst h8; rfl
  have e1 : (r == "GetFeatureInfo") = false := by simpa using h1
  have e2 : (r == "GetMap") = false := by simpa using h2
  have e3 : (r == "DescribeLayer") = false := by simpa using h3
  have e4 : (r == "GetLegendGraphic") = false := by simpa using h4
  have e5 : (r == "DescribeCoverage") = false := by simpa using h5
  have e6 : (r == "GetCoverage") = false := by simpa using h6
  have e7 : (r == "DescribeProcess") = false := by simpa using h7
  have e8 : (r == "Execute") = false := by simpa using h8
  simp [e1, e2, e3, e4, e5, e6, e7, e8, h1, h2, h3, h4, h5, h6, h7, h8]

theorem set_service_values (query : Query) (service : String) :
    (query.set "service" [service]).values "service" = [service] := by
  simp [Query.set, Query.values, List.lookup]

theorem dispatchQuery_of_service {PM PC PP : Type} (dap : Bool)
    (checkers : Checkers PM PC PP) (query : Query) (v : String) (vs : List String)
    (h : query.lookup "service" = some (v :: vs)) :
    dispatchQuery dap checkers query =
      (if v = "WMS" then .wms (wmsArm checkers query)
       else if v = "WCS" then .wcs (wcsArm dap checkers query)
       else if v = "WPS" then .wps (wpsArm checkers query)
       else .invalidService) := by
  simp [dispatchQuery, inferService, h, Query.values]

theorem dispatchQuery_of_request {PM PC PP : Type} (dap : Bool)
    (checkers : Checkers PM PC PP) (query : Query) (r : String) (rs : List String)
    (hs : query.lookup "service" = none) (h : query.lookup "request" = some (r :: rs)) :
    dispatchQuery dap checkers query =
      (if r ∈ ["GetFeatureInfo", "GetMap", "DescribeLayer", "GetLegendGraphic"] then
        .wms (wmsArm checkers (query.set "service" ["WMS"]))
       else if r ∈ ["DescribeCoverage", "GetCoverage"] then
        .wcs (wcsArm dap checkers (query.set "service" ["WCS"]))
       else if r ∈ ["DescribeProcess", "Execute"] then
        .wps (wpsArm checkers (query.set "service" ["WPS"]))
       else .notOWS) := by
  unfold dispatchQuery inferService
  simp only [hs, h, List.getElem?_cons_zero]
  rw [reqService_lookup]
  by_cases h1 : r ∈ ["GetFeatureInfo", "GetMap", "DescribeLayer", "GetLegendGraphic"]
  · simp only [if_pos h1, set_service_values]
    simp
  · by_cases h2 : r ∈ ["DescribeCoverage", "GetCoverage"]
    · simp only [if_neg h1, if_pos h2, set_service_values]
      simp
    · by_cases h3 : r ∈ ["DescribeProcess", "Execute"]
      · simp only [if_neg h1, if_neg h2, if_pos h3, set_service_values]
        simp
      · simp only [if_neg h1, if_neg h2, if_neg h3]

theorem wmsArm_ok {PM PC PP : Type} (checkers : Checkers PM PC PP) (query : Query) (p : PM)
    (h : checkers.wms query = .ok p) : wmsArm checkers query = .serve p := by
  simp only [wmsArm, h]

theorem wmsArm_error {PM PC PP : Type} (checkers : Checkers PM PC PP) (query : Query)
    (e : String) (h : checkers.wms query = .error e) : wmsArm checkers query = .paramError := by
  simp only [wmsArm, h]

theorem wpsArm_ok {PM PC PP : Type} (checkers : Checkers PM PC PP) (query : Query) (p : PP)
    (h : checkers.wps query = .ok p) : wpsArm checkers query = .serve p := by
  simp only [wpsArm, h]

theorem wpsArm_error {PM PC PP : Type} (checkers : Checkers PM PC PP) (query : Query)
    (e : String) (h : checkers.wps query = .error e) : wpsArm checkers query = .paramError := by
  simp only [wpsArm, h]

theorem wcsArm_plain_ok {PM PC PP : Type} (checkers : Checkers PM PC PP) (query : Query)
    (p : PC) (h : checkers.wcs query = .ok p) :
    wcsArm false checkers query = .serve (p, query) := by
  simp [wcsArm, h]

theorem wcsArm_plain_error {PM PC PP : Type} (checkers : Checkers PM PC PP) (query : Query)
    (e : String) (h : checkers.wcs query = .error e) :
    wcsArm false checkers query = .paramError := by
  simp [wcsArm, h]

theorem wcsArm_dap_ok {PM PC PP : Type} (checkers : Checkers PM PC PP) (query : Query)
    (f : String) (rest : List String) (hf : query.values "format" = f :: rest)
    (p : PC) (h : checkers.wcs (query.set "format" ("netcdf" :: rest)) = .ok p) :
    wcsArm true checkers query = .serve (p, query.set "format" ("netcdf" :: rest)) := by
  simp [wcsArm, hf, h]

theorem wcsArm_dap_error {PM PC PP : Type} (checkers : Checkers PM PC PP) (query : Query)
    (f : String) (rest : List String) (hf : query.values "format" = f :: rest)
    (e : String) (h : checkers.wcs (query.set "format" ("netcdf" :: rest)) = .error e) :
    wcsArm true checkers query = .paramError := by
  simp [wcsArm, hf, h]

/-- C9: protocol classification in `generalHandler`.  When the normalised query
has a `service` entry, its first value `v` is used verbatim.  For `v = WMS` the
parameter checker of WMS runs on the query and, when it accepts, `serveWMS` is
called with the checked parameters, while a refusal ends with status 400;
likewise for `WPS`; for `v = WCS` the same holds with `serveWCS`, the checker
running on the query itself without the `dap` flag and, with the flag, on the
query whose first `format` value has been overwritten by `netcdf`.  The request
goes to the WMS, WCS or WPS case exactly when `v` is `WMS`, `WCS` or `WPS`, a
handler is called only for its own value, and every other value ends with
status 400 without a handler.  When `service` is absent the service is taken
from the first `request` value by the table `GetFeatureInfo|GetMap|
DescribeLayer|GetLegendGraphic -> WMS`, `DescribeCoverage|GetCoverage -> WCS`,
`DescribeProcess|Execute -> WPS`, written into the query, and the request is
served in the same way; a missing or unlisted `request` ends with status 400
and no protocol handler is called. -/
theorem protocol_classification {PM PC PP : Type} (dap : Bool)
    (checkers : Checkers PM PC PP) (query : Query) :
    generalHandler dap checkers (.get query) = dispatchQuery dap checkers query ∧
    generalHandler dap checkers (.post (.ok query)) = dispatchQuery dap checkers query ∧
    (∀ (v : String) (vs : List String), query.lookup "service" = some (v :: vs) →
      (v = "WMS" →
        (∀ p, checkers.wms query = .ok p →
          dispatchQuery dap checkers query = .wms (.serve p)) ∧
        (∀ e, checkers.wms query = .error e →
          dispatchQuery dap checkers query = .wms .paramError)) ∧
      (v = "WCS" → dap = false →
        (∀ p, checkers.wcs query = .ok p →
          dispatchQuery dap checkers query = .wcs (.serve (p, query))) ∧
        (∀ e, checkers.wcs query = .error e →
          dispatchQuery dap checkers query = .wcs .paramError)) ∧
      (v = "WCS" → dap = true →
        ∀ (f : String) (rest : List String), query.values "format" = f :: rest →
        (∀ p, checkers.wcs (query.set "format" ("netcdf" :: rest)) = .ok p →
          dispatchQuery dap checkers query
            = .wcs (.serve (p, query.set "format" ("netcdf" :: rest)))) ∧
        (∀ e, checkers.wcs (query.set "format" ("netcdf" :: rest)) = .error e →
          dispatchQuery dap checkers query = .wcs .paramError)) ∧
      (v = "WPS" →
        (∀ p, checkers.wps query = .ok p →
          dispatchQuery dap checkers query = .wps (.serve p)) ∧
        (∀ e, checkers.wps query = .error e →
          dispatchQuery dap checkers query = .wps .paramError)) ∧
      (v ≠ "WMS" → v ≠ "WCS" → v ≠ "WPS" →
        dispatchQuery dap checkers query = .invalidService) ∧
      ((∃ arm, dispatchQuery dap checkers query = .wms arm) ↔ v = "WMS") ∧
      ((∃ arm, dispatchQuery dap checkers query = .wcs arm) ↔ v = "WCS") ∧
      ((∃ arm, dispatchQuery dap checkers query = .wps arm) ↔ v = "WPS") ∧
      (∀ p : String, (dispatchQuery dap checkers query).handler = some p → v = p)) ∧
    (query.lookup "service" = none →
      (∀ (r : String) (rs : List String), query.lookup "request" = some (r :: rs) →
        (r ∈ ["GetFeatureInfo", "GetMap", "DescribeLayer", "GetLegendGraphic"] →
          (∀ p, checkers.wms (query.set "service" ["WMS"]) = .ok p →
            dispatchQuery dap checkers query = .wms (.serve p)) ∧
          (∀ e, checkers.wms (query.set "service" ["WMS"]) = .error e →
            dispatchQuery dap checkers query = .wms .paramError)) ∧
        (r ∈ ["DescribeCoverage", "GetCoverage"] → dap = false →
          (∀ p, checkers.wcs (query.set "service" ["WCS"]) = .ok p →
            dispatchQuery dap checkers query
              = .wcs (.serve (p, query.set "service" ["WCS"]))) ∧
          (∀ e, checkers.wcs (query.set "service" ["WCS"]) = .error e →
            dispatchQuery dap checkers query = .wcs .paramError)) ∧
        (r ∈ ["DescribeCoverage", "GetCoverage"] → dap = true →
          ∀ (f : String) (rest : List String),
            (query.set "service" ["WCS"]).values "format" = f :: rest →
          (∀ p, checkers.wcs ((query.set "service" ["WCS"]).set "format" ("netcdf" :: rest))
              = .ok p →
            dispatchQuery dap checkers query
              = .wcs (.serve
                  (p, (query.set "service" ["WCS"]).set "format" ("netcdf" :: rest)))) ∧
          (∀ e, checkers.wcs ((query.set "service" ["WCS"]).set "format" ("netcdf" :: rest))
              = .error e →
            dispatchQuery dap checkers query = .wcs .paramError)) ∧
        (r ∈ ["DescribeProcess", "Execute"] →
          (∀ p, checkers.wps (query.set "service" ["WPS"]) = .ok p →
            dispatchQuery dap checkers query = .wps (.serve p)) ∧
          (∀ e, checkers.wps (query.set "service" ["WPS"]) = .error e →
            dispatchQuery dap checkers query = .wps .paramError)) ∧
        (r ∉ ["GetFeatureInfo", "GetMap", "DescribeLayer", "GetLegendGraphic",
              "DescribeCoverage", "GetCoverage", "DescribeProcess", "Execute"] →
          dispatchQuery dap checkers query = .notOWS)) ∧
      (query.lookup "request" = none → dispatchQuery dap checkers query = .notOWS)) ∧
    (∀ p : PM, (Dispatch.wms (.serve p) : Dispatch PM PC PP).handler = some "WMS") ∧
    (∀ p : PC × Query, (Dispatch.wcs (.serve p) : Dispatch PM PC PP).handler = some "WCS") ∧
    (∀ p : PP, (Dispatch.wps (.serve p) : Dispatch PM PC PP).handler = some "WPS") ∧
    (∀ d : Dispatch PM PC PP,
      d = .wms .paramError ∨ d = .wcs .paramError ∨ d = .wps .paramError ∨
        d = .invalidService ∨ d = .notOWS →
      d.status = some 400 ∧ d.handler = none) ∧
    generalHandler false acceptAll
        (.get [("service", ["WMS"]), ("request", ["GetCoverage"])]) = .wms (.serve ()) ∧
    generalHandler false acceptAll
        (.get [("service", ["WCS"]), ("request", ["GetMap"]), ("format", ["GeoTIFF"])])
      = .wcs (.serve ((),
          [("service", ["WCS"]), ("request", ["GetMap"]), ("format", ["GeoTIFF"])])) ∧
    generalHandler false acceptAll (.get [("request", ["Execute"])]) = .wps (.serve ()) ∧
    generalHandler false refuseAll
        (.get [("service", ["WMS"]), ("request", ["GetMap"])]) = .wms .paramError ∧
    generalHandler false acceptAll
        (.get [("service", ["WFS"]), ("request", ["GetMap"])]) = .invalidService ∧
    generalHandler false acceptAll (.get [("service", ["wms"])]) = .invalidService ∧
    generalHandler false acceptAll (.get [("request", ["GetCapabilities"])]) = .notOWS ∧
    generalHandler false acceptAll (.get [("version", ["1.3.0"])]) = .notOWS := by
  refine ⟨rfl, rfl, ?_, ?_, fun _ => rfl, fun _ => rfl, fun _ => rfl, ?_, rfl, rfl, rfl, rfl,
    rfl, rfl, rfl, rfl⟩
  · intro v vs h
    have hd := dispatchQuery_of_service dap checkers query v vs h
    have hms : ("WMS" : String) ≠ "WCS" := by decide
    have hmp : ("WMS" : String) ≠ "WPS" := by decide
    have hcp : ("WCS" : String) ≠ "WPS" := by decide
    refine ⟨?_, ?_, ?_, ?_, ?_, ?_, ?_, ?_, ?_⟩
    · intro hv
      rw [hd, if_pos hv]
      exact ⟨fun p hp => by rw [wmsArm_ok checkers query p hp],
        fun e he => by rw [wmsArm_error checkers query e he]⟩
    · intro hv hdap
      subst hdap
      rw [hd, hv, if_neg hms.symm, if_pos rfl]
      exact ⟨fun p hp => by rw [wcsArm_plain_ok checkers query p hp],
        fun e he => by rw [wcsArm_plain_error checkers query e he]⟩
    · intro hv hdap f rest hf
      subst hdap
      rw [hd, hv, if_neg hms.symm, if_pos rfl]
      exact ⟨fun p hp => by rw [wcsArm_dap_ok checkers query f rest hf p hp],
        fun e he => by rw [wcsArm_dap_error checkers query f rest hf e he]⟩
    · intro hv
      rw [hd, hv, if_neg hmp.symm, if_neg hcp.symm, if_pos rfl]
      exact ⟨fun p hp => by rw [wpsArm_ok checkers query p hp],
        fun e he => by rw [wpsArm_error checkers query e he]⟩
    · intro h1 h2 h3
      rw [hd, if_neg h1, if_neg h2, if_neg h3]
    · rw [hd]
      constructor
      · rintro ⟨arm, ha⟩
        by_contra hv
        rw [if_neg hv] at ha
        split at ha <;> try split at ha
        all_goals cases ha
      · intro hv
        exact ⟨_, by rw [if_pos hv]⟩
    · rw [hd]
      constructor
      · rintro ⟨arm, ha⟩
        by_contra hv
        rw [if_neg hv] at ha
        split at ha <;> try split at ha
        all_goals cases ha
      · intro hv
        subst hv
        exact ⟨wcsArm dap checkers query, by simp⟩
    · rw [hd]
      constructor
      · rintro ⟨arm, ha⟩
        by_contra hv
        rw [if_neg hv] at ha
        split at ha <;> try split at ha
        all_goals cases ha
      · intro hv
        subst hv
        exact ⟨wpsArm checkers query, by simp⟩
    · intro p hp
      rw [hd] at hp
      split at hp
      · rename_i hv
        cases harm : wmsArm checkers query <;> rw [harm] at hp <;>
          simp [Dispatch.handler] at hp
        rw [hv]; exact hp
      · split at hp
        · rename_i hv
          cases harm : wcsArm dap checkers query <;> rw [harm] at hp <;>
            simp [Dispatch.handler] at hp
          rw [hv]; exact hp
        · split at hp
          · rename_i hv
            cases harm : wpsArm checkers query <;> rw [harm] at hp <;>
              simp [Dispatch.handler] at hp
            rw [hv]; exact hp
          · simp [Dispatch.handler] at hp
  · intro hs
    constructor
    · intro r rs hr
      have hd := dispatchQuery_of_request dap checkers query r rs hs hr
      have h12 : r ∈ ["DescribeCoverage", "GetCoverage"] →
          r ∉ ["GetFeatureInfo", "GetMap", "DescribeLayer", "GetLegendGraphic"] := by
        intro hm hm1
        simp only [List.mem_cons, List.mem_singleton, List.not_mem_nil, or_false] at hm hm1
        rcases hm with hm | hm <;> subst hm <;> revert hm1 <;> decide
      have h13 : r ∈ ["DescribeProcess", "Execute"] →
          r ∉ ["GetFeatureInfo", "GetMap", "DescribeLayer", "GetLegendGraphic"] ∧
          r ∉ ["DescribeCoverage", "GetCoverage"] := by
        intro hm
        simp only [List.mem_cons, List.mem_singleton, List.not_mem_nil, or_false] at hm
        rcases hm with hm | hm <;> subst hm <;> decide
      refine ⟨?_, ?_, ?_, ?_, ?_⟩
      · intro hm
        rw [hd, if_pos hm]
        exact ⟨fun p hp => by rw [wmsArm_ok checkers _ p hp],
          fun e he => by rw [wmsArm_error checkers _ e he]⟩
      · intro hm hdap
        subst hdap
        rw [hd, if_neg (h12 hm), if_pos hm]
        exact ⟨fun p hp => by rw [wcsArm_plain_ok checkers _ p hp],
          fun e he => by rw [wcsArm_plain_error checkers _ e he]⟩
      · intro hm hdap f rest hf
        subst hdap
        rw [hd, if_neg (h12 hm), if_pos hm]
        exact ⟨fun p hp => by rw [wcsArm_dap_ok checkers _ f rest hf p hp],
          fun e he => by rw [wcsArm_dap_error checkers _ f rest hf e he]⟩
      · intro hm
        rw [hd, if_neg (h13 hm).1, if_neg (h13 hm).2, if_pos hm]
        exact ⟨fun p hp => by rw [wpsArm_ok checkers _ p hp],
          fun e he => by rw [wpsArm_error checkers _ e he]⟩
      · intro hnot
        have h1 : r ∉ ["GetFeatureInfo", "GetMap", "DescribeLayer", "GetLegendGraphic"] := by
          intro hm; apply hnot; simp only [List.mem_cons, List.mem_singleton] at hm ⊢; tauto
        have h2 : r ∉ ["DescribeCoverage", "GetCoverage"] := by
          intro hm; apply hnot; simp only [List.mem_cons, List.mem_singleton] at hm ⊢; tauto
        have h3 : r ∉ ["DescribeProcess", "Execute"] := by
          intro hm; apply hnot; simp only [List.mem_cons, List.mem_singleton] at hm ⊢; tauto
        rw [hd, if_neg h1, if_neg h2, if_neg h3]
    · intro hr
      simp [dispatchQuery, inferService, hs, hr]
  · intro d hd
    rcases hd with hd | hd | hd | hd | hd <;> subst hd <;> exact ⟨rfl, rfl⟩

/-! ## Axis order -/

/-- C10 as stated fails: version 1.3.0 with the CRS written `crs:84` is neither
the pair (1.3.0, CRS equal case-insensitively to EPSG:4326) nor the pair
(1.3.0, CRS equal to `CRS:84`), yet the CRS that reaches the pipeline is
rewritten. -/
theorem axis_lowercase_crs84_rewritten :
    strings.ToUpper "crs:84" ≠ "EPSG:4326" ∧ "crs:84" ≠ "CRS:84" ∧
    axisNormalise "1.3.0" "crs:84" [100, -45, 155, -10]
      = ("EPSG:4326", [100, -45, 155, -10]) ∧
    axisNormalise "1.3.0" "crs:84" [100, -45, 155, -10]
      ≠ ("crs:84", [100, -45, 155, -10]) := by
  have h1 : strings.ToUpper "crs:84" = "CRS:84" := by decide
  have hne : ("CRS:84" : String) ≠ "EPSG:4326" := by decide
  refine ⟨by decide, by decide, ?_, ?_⟩
  · simp [axisNormalise, h1, hne]
  · simp [axisNormalise, h1, hne]

/-- C10, amended: GetMap axis normalisation in `serveWMS`.  For version 1.3.0
and a CRS whose upper-case form under `strings.ToUpper` is `EPSG:4326` the
bounding box `[a,b,c,d]` passed on is `[b,a,d,c]` and the CRS is unchanged; for
version 1.3.0 and a CRS whose upper-case form is `CRS:84` the CRS becomes
`EPSG:4326` and the bounding box is unchanged; for every other pair both are
unchanged.  The CRS values with upper-case form `EPSG:4326` are the strings
`e p s g :4326` with each letter in either case, those with upper-case form
`CRS:84` the strings `c r s :84` with each letter in either case, where Go
also raises U+017F (long s) to `S`. -/
theorem axis_normalisation (version crs : String) (a b c d : ℚ) :
    axisNormalise version crs [a, b, c, d] =
      (if version = "1.3.0" ∧ strings.ToUpper crs = "EPSG:4326" then (crs, [b, a, d, c])
       else if version = "1.3.0" ∧ strings.ToUpper crs = "CRS:84" then
        ("EPSG:4326", [a, b, c, d])
       else (crs, [a, b, c, d])) ∧
    (strings.ToUpper crs = "EPSG:4326" ↔
      ∃ e p s g : Char, crs = String.mk [e, p, s, g, ':', '4', '3', '2', '6'] ∧
        (e = 'E' ∨ e = 'e') ∧ (p = 'P' ∨ p = 'p') ∧
        (s = 'S' ∨ s = 's' ∨ s = Char.ofNat 0x17F) ∧ (g = 'G' ∨ g = 'g')) ∧
    (strings.ToUpper crs = "CRS:84" ↔
      ∃ c r s : Char, crs = String.mk [c, r, s, ':', '8', '4'] ∧ (c = 'C' ∨ c = 'c') ∧
        (r = 'R' ∨ r = 'r') ∧ (s = 'S' ∨ s = 's' ∨ s = Char.ofNat 0x17F)) ∧
    axisNormalise "1.3.0" "EPSG:4326" [-45, 100, -10, 155]
      = ("EPSG:4326", [100, -45, 155, -10]) ∧
    axisNormalise "1.3.0" "ep\u017Fg:4326" [-45, 100, -10, 155]
      = ("ep\u017Fg:4326", [100, -45, 155, -10]) ∧
    axisNormalise "1.3.0" "CRS:84" [100, -45, 155, -10]
      = ("EPSG:4326", [100, -45, 155, -10]) ∧
    axisNormalise "1.3.0" "cr\u017F:84" [100, -45, 155, -10]
      = ("EPSG:4326", [100, -45, 155, -10]) ∧
    axisNormalise "1.1.1" "EPSG:4326" [-45, 100, -10, 155]
      = ("EPSG:4326", [-45, 100, -10, 155]) ∧
    axisNormalise "1.3.0" "EPSG:3857" [-45, 100, -10, 155]
      = ("EPSG:3857", [-45, 100, -10, 155]) := by
  have hne : ("EPSG:4326" : String) ≠ "CRS:84" := by decide
  refine ⟨?_, toUpper_epsg4326_iff crs, toUpper_crs84_iff crs, ?_, ?_, ?_, ?_, ?_, ?_⟩
  · unfold axisNormalise
    by_cases hv : version = "1.3.0"
    · by_cases h1 : strings.ToUpper crs = "EPSG:4326"
      · have h2 : strings.ToUpper crs ≠ "CRS:84" := by rw [h1]; exact hne
        simp [hv, h1, hne, bboxAt]
      · by_cases h2 : strings.ToUpper crs = "CRS:84"
        · simp [hv, h1, h2]
        · simp [hv, h1, h2]
    · simp [hv]
  · have h1 : strings.ToUpper "EPSG:4326" = "EPSG:4326" := by decide
    simp [axisNormalise, h1, hne, bboxAt]
  · have h1 : strings.ToUpper "ep\u017Fg:4326" = "EPSG:4326" := by decide
    simp [axisNormalise, h1, hne, bboxAt]
  · have h1 : strings.ToUpper "CRS:84" = "CRS:84" := by decide
    simp [axisNormalise, h1, hne.symm]
  · have h1 : strings.ToUpper "cr\u017F:84" = "CRS:84" := by decide
    simp [axisNormalise, h1, hne.symm]
  · simp [axisNormalise]
  · have h1 : strings.ToUpper "EPSG:3857" = "EPSG:3857" := by decide
    have h2 : ("EPSG:3857" : String) ≠ "EPSG:4326" := by decide
    have h3 : ("EPSG:3857" : String) ≠ "CRS:84" := by decide
    simp [axisNormalise, h1, h2, h3]

/-! ## Zoom limit -/

theorem Float64.gt_irrefl (x : Float64) : x.gt x = false := by
  cases x <;> simp [Float64.gt]

theorem Float64.gt_asymm (x y : Float64) (h : x.gt y = true) : y.gt x = false := by
  cases x <;> cases y <;> simp_all [Float64.gt]
  exact le_of_lt h

theorem Float64.quot_of_ne (a b : ℚ) (h : b ≠ 0) : Float64.quot a b = .fin (a / b) := by
  simp [Float64.quot, h]

/-- C11: the zoom limit decision of `serveWMS` GetMap.  With `xRes =
(bbox[2]-bbox[0])/width` and `yRes = (bbox[3]-bbox[1])/height` as `float64`
quotients (infinite or NaN when the divisor is zero, rounding error apart),
`reqRes` is the larger of the two, that is one of them that neither exceeds,
multiplied by 100000 exactly when the version is `1.1.1`; for a width and
height other than zero it is the finite `max(xRes, yRes)`, times 100000 for
`1.1.1`.  The handler takes the placeholder branch if and only if the layer's
zoom limit is not zero and `reqRes` exceeds it, and the tile pipeline otherwise;
in the placeholder branch the request sent to the indexer is the map request
with `QueryLimit = 1` and no mask, and the tile pipeline is not initialised.
A request of width zero over a bounding box of positive extent has an infinite
resolution and takes the placeholder branch of every layer with a zoom
limit. -/
theorem zoom_limit_decision (version : String) (layer : MapLayer) (crs : String)
    (bbox : List ℚ) (width height : Int) (startTime : Time) (endTime : Option Time) :
    (∃ m : Float64,
      (m = Float64.quot (bboxAt bbox 2 - bboxAt bbox 0) (width : ℚ) ∨
        m = Float64.quot (bboxAt bbox 3 - bboxAt bbox 1) (height : ℚ)) ∧
      (Float64.quot (bboxAt bbox 2 - bboxAt bbox 0) (width : ℚ)).gt m = false ∧
      (Float64.quot (bboxAt bbox 3 - bboxAt bbox 1) (height : ℚ)).gt m = false ∧
      reqRes version bbox width height = (if version = "1.1.1" then m.mulFin 100000 else m)) ∧
    (width ≠ 0 → height ≠ 0 →
      reqRes version bbox width height =
        .fin (max ((bboxAt bbox 2 - bboxAt bbox 0) / (width : ℚ))
            ((bboxAt bbox 3 - bboxAt bbox 1) / (height : ℚ))
          * (if version = "1.1.1" then 100000 else 1))) ∧
    (zoomLimitBranch version layer.ZoomLimit bbox width height
        (getMapTileRequest layer crs bbox width height startTime endTime)
      = (if layer.ZoomLimit ≠ 0 ∧
            (reqRes version bbox width height).gt (.fin layer.ZoomLimit) = true then
          .indexProbe
            { getMapTileRequest layer crs bbox width height startTime endTime with
              Mask := none, QueryLimit := 1 }
        else .tilePipeline (getMapTileRequest layer crs bbox width height startTime endTime))) ∧
    ((∃ probe, zoomLimitBranch version layer.ZoomLimit bbox width height
        (getMapTileRequest layer crs bbox width height startTime endTime) = .indexProbe probe)
      ↔ (layer.ZoomLimit ≠ 0 ∧
          (reqRes version bbox width height).gt (.fin layer.ZoomLimit) = true)) ∧
    (∀ probe, zoomLimitBranch version layer.ZoomLimit bbox width height
        (getMapTileRequest layer crs bbox width height startTime endTime) = .indexProbe probe →
      probe.QueryLimit = 1 ∧ probe.Mask = none ∧
      probe.BBox = bbox ∧ probe.Width = width ∧ probe.Height = height ∧ probe.CRS = crs ∧
      probe.Collection = layer.DataSource ∧ probe.NameSpaces = layer.VarList ∧
      probe.StartTime = startTime ∧ probe.EndTime = endTime ∧
      ∀ geoReq, zoomLimitBranch version layer.ZoomLimit bbox width height
        (getMapTileRequest layer crs bbox width height startTime endTime)
          ≠ .tilePipeline geoReq) ∧
    reqRes "1.3.0" [100, -45, 155, -10] 256 256 = .fin (55 / 256) ∧
    reqRes "1.1.1" [100, -45, 155, -10] 256 256 = .fin (55 / 256 * 100000) ∧
    reqRes "1.3.0" [100, -45, 155, -10] 0 256 = .posInf ∧
    reqRes "1.3.0" [100, -45, 100, -10] 0 256 = .nan ∧
    (layer.ZoomLimit ≠ 0 →
      zoomLimitBranch "1.3.0" layer.ZoomLimit [100, -45, 155, -10] 0 256
          (getMapTileRequest layer crs [100, -45, 155, -10] 0 256 startTime endTime)
        = .indexProbe
            { getMapTileRequest layer crs [100, -45, 155, -10] 0 256 startTime endTime with
              Mask := none, QueryLimit := 1 }) := by
  have hv : ("1.3.0" : String) ≠ "1.1.1" := by decide
  refine ⟨?_, ?_, ?_, ?_, ?_, ?_, ?_, ?_, ?_, ?_⟩
  · unfold reqRes
    simp only
    by_cases h : (Float64.quot (bboxAt bbox 3 - bboxAt bbox 1) (height : ℚ)).gt
        (Float64.quot (bboxAt bbox 2 - bboxAt bbox 0) (width : ℚ)) = true
    · refine ⟨_, Or.inr rfl, Float64.gt_asymm _ _ h, Float64.gt_irrefl _, ?_⟩
      rw [if_pos h]
    · refine ⟨_, Or.inl rfl, Float64.gt_irrefl _, by simpa using h, ?_⟩
      rw [if_neg h]
  · intro hw hh
    have hw1 : (width : ℚ) ≠ 0 := by exact_mod_cast hw
    have hh1 : (height : ℚ) ≠ 0 := by exact_mod_cast hh
    unfold reqRes
    simp only
    rw [Float64.quot_of_ne _ _ hw1, Float64.quot_of_ne _ _ hh1]
    by_cases h : (bboxAt bbox 2 - bboxAt bbox 0) / (width : ℚ)
        < (bboxAt bbox 3 - bboxAt bbox 1) / (height : ℚ)
    · have hg : (Float64.fin ((bboxAt bbox 3 - bboxAt bbox 1) / (height : ℚ))).gt
          (.fin ((bboxAt bbox 2 - bboxAt bbox 0) / (width : ℚ))) = true := by
        simp [Float64.gt, h]
      rw [if_pos hg, max_eq_right (le_of_lt h)]
      split <;> simp [Float64.mulFin]
    · have hg : ¬ (Float64.fin ((bboxAt bbox 3 - bboxAt bbox 1) / (height : ℚ))).gt
          (.fin ((bboxAt bbox 2 - bboxAt bbox 0) / (width : ℚ))) = true := by
        simp [Float64.gt, h]
      rw [if_neg hg, max_eq_left (not_lt.mp h)]
      split <;> simp [Float64.mulFin]
  · rfl
  · unfold zoomLimitBranch
    constructor
    · rintro ⟨probe, h⟩
      by_contra hc
      rw [if_neg hc] at h
      cases h
    · intro hc
      exact ⟨_, if_pos hc⟩
  · intro probe h
    unfold zoomLimitBranch at h ⊢
    split at h
    · rename_i hc
      cases h
      refine ⟨rfl, rfl, rfl, rfl, rfl, rfl, rfl, rfl, rfl, rfl, ?_⟩
      intro geoReq
      rw [if_pos hc]
      intro hcontra
      cases hcontra
    · cases h
  · norm_num [reqRes, Float64.quot, Float64.gt, bboxAt, hv]
  · norm_num [reqRes, Float64.quot, Float64.gt, Float64.mulFin, bboxAt]
  · norm_num [reqRes, Float64.quot, Float64.gt, bboxAt, hv]
  · norm_num [reqRes, Float64.quot, Float64.gt, bboxAt, hv]
  · intro hz
    have hr : reqRes "1.3.0" [100, -45, 155, -10] 0 256 = .posInf := by
      norm_num [reqRes, Float64.quot, Float64.gt, bboxAt, hv]
    unfold zoomLimitBranch
    rw [hr, if_pos ⟨hz, rfl⟩]

/-! ## The tile indexer -/

theorem granules_map_granule (gs : List GeoTileGranule) :
    (gs.map Event.granule).filterMap (fun ev =>
      match ev with
      | .error _ => none
      | .granule g => some g) = gs := by
  induction gs with
  | nil => rfl
  | cons g rest ih => simp [List.filterMap_cons, ih]

theorem errors_map_granule (gs : List GeoTileGranule) :
    (gs.map Event.granule).filterMap (fun ev =>
      match ev with
      | .error e => some e
      | .granule _ => none) = [] := by
  induction gs with
  | nil => rfl
  | cons g rest ih => simp [List.filterMap_cons, ih]

/-- Whatever the datasets, the loop only adds granules to the sends made so
far. -/
theorem datasetsLoop_events (geoReq : GeoTileRequestFull) :
    ∀ (dss : List GDALDataset) (acc : List Event),
    ∃ gs : List GeoTileGranule,
      (datasetsLoop geoReq dss acc).events = acc ++ gs.map Event.granule := by
  intro dss
  induction dss with
  | nil => intro acc; exact ⟨[], by simp [datasetsLoop]⟩
  | cons ds rest ih =>
    intro acc
    unfold datasetsLoop
    cases h : add_thredds_nc ds with
    | none => exact ⟨[], by simp⟩
    | some u =>
      obtain ⟨gs, hgs⟩ := ih (acc ++ (ds.TimeStamps.filter (timeSelected geoReq)).map fun t =>
          Event.granule (dataGranule geoReq ds t))
      refine ⟨(ds.TimeStamps.filter (timeSelected geoReq)).map (dataGranule geoReq ds) ++ gs, ?_⟩
      simp only [hgs, List.map_append, List.map_map, List.append_assoc]
      rfl

/-- With every dataset name matching the pattern of `add_thredds_nc`, the loop
emits the selected granules of every dataset, in order, and does not fail. -/
theorem datasetsLoop_eq (geoReq : GeoTileRequestFull) :
    ∀ (dss : List GDALDataset) (acc : List Event),
    (∀ ds ∈ dss, threddsMatch ds.DSName = true) →
    datasetsLoop geoReq dss acc =
      { events := acc ++ (dss.flatMap fun ds =>
          (ds.TimeStamps.filter (timeSelected geoReq)).map (dataGranule geoReq ds)).map
            Event.granule,
        panicked := false } := by
  intro dss
  induction dss with
  | nil => intro acc _; simp [datasetsLoop]
  | cons ds rest ih =>
    intro acc hm
    have hds : threddsMatch ds.DSName = true := hm ds (List.mem_cons_self _ _)
    rw [datasetsLoop]
    simp only [add_thredds_nc, hds, if_true]
    rw [ih _ (fun d hd => hm d (List.mem_cons_of_mem _ hd))]
    simp only [List.flatMap_cons, List.map_append, List.map_map, List.append_assoc]
    rfl

theorem probeLoop_granules (gs : List GeoTileGranule) :
    probeLoop (gs.map Event.granule) 0 = true ↔ ∃ g ∈ gs, g.NameSpace ≠ "EmptyTile" := by
  induction gs with
  | nil => simp [probeLoop]
  | cons g rest ih =>
    simp only [List.map_cons, probeLoop, List.mem_cons]
    by_cases hg : g.NameSpace = "EmptyTile"
    · simp only [lt_self_iff_false, if_false, hg, ne_eq, not_true_eq_false, ih]
      constructor
      · rintro ⟨g1, h1, h2⟩; exact ⟨g1, Or.inr h1, h2⟩
      · rintro ⟨g1, h1 | h1, h2⟩
        · subst h1; exact absurd hg h2
        · exact ⟨g1, h1, h2⟩
    · simp only [lt_self_iff_false, if_false, ne_eq, hg, not_false_eq_true, if_true, true_iff]
      exact ⟨g, Or.inl rfl, hg⟩

theorem URLIndexGet_nil (geoReq : GeoTileRequestFull) (m : MetadataResponse)
    (h : m.GDALDatasets = []) :
    URLIndexGet (.metadata m) geoReq =
      { events := (if m.Error.length > 0 then [Event.error (.indexerReturned m.Error)] else [])
          ++ [.granule (emptyTile geoReq)],
        panicked := false } := by
  simp only [URLIndexGet, h]

theorem URLIndexGet_cons (geoReq : GeoTileRequestFull) (m : MetadataResponse)
    (ds : GDALDataset) (rest : List GDALDataset) (h : m.GDALDatasets = ds :: rest) :
    URLIndexGet (.metadata m) geoReq = datasetsLoop geoReq (ds :: rest) [] := by
  simp only [URLIndexGet, h]

/-- C12 as stated fails: a reply of the index that carries a non-empty error
field together with a dataset makes `URLIndexGet` send no error and emit the
granule of the dataset, not the EmptyTile sentinel. -/
theorem index_error_with_datasets_not_reported :
    (URLIndexGet
      (.metadata { Error := "index failure", GDALDatasets := [sampleDataset [10]] })
      (sampleRequest none)).errors = [] ∧
    (URLIndexGet
      (.metadata { Error := "index failure", GDALDatasets := [sampleDataset [10]] })
      (sampleRequest none)).granules.map (fun g => g.NameSpace)
      = ["v"] := by
  constructor <;> decide

/-- C12, amended: the emission contract of `URLIndexGet`.  When the reply has
zero datasets exactly one granule is emitted and it is the EmptyTile sentinel
(name space `EmptyTile`, path `NULL`, the request's bounding box, width,
height, offsets and CRS), preceded by exactly one error when the reply carries a
non-empty error field and by none otherwise; when the GET fails, the body
cannot be read or the JSON is invalid, exactly one error is sent and exactly one
EmptyTile granule is emitted. -/
theorem index_emission_contract (geoReq : GeoTileRequestFull) :
    (∀ reply : IndexReply, reply = .getFailed ∨ reply = .readFailed ∨ reply = .jsonInvalid →
      (URLIndexGet reply geoReq).errors.length = 1 ∧
      (URLIndexGet reply geoReq).granules = [emptyTile geoReq] ∧
      (URLIndexGet reply geoReq).panicked = false) ∧
    (∀ m : MetadataResponse, m.GDALDatasets = [] →
      (URLIndexGet (.metadata m) geoReq).granules = [emptyTile geoReq] ∧
      (URLIndexGet (.metadata m) geoReq).errors
        = (if m.Error.length > 0 then [IndexError.indexerReturned m.Error] else []) ∧
      (URLIndexGet (.metadata m) geoReq).panicked = false) ∧
    ((emptyTile geoReq).NameSpace = "EmptyTile" ∧ (emptyTile geoReq).Path = "NULL" ∧
      (emptyTile geoReq).BBox = geoReq.BBox ∧ (emptyTile geoReq).Width = geoReq.Width ∧
      (emptyTile geoReq).Height = geoReq.Height ∧ (emptyTile geoReq).OffX = geoReq.OffX ∧
      (emptyTile geoReq).OffY = geoReq.OffY ∧ (emptyTile geoReq).CRS = geoReq.CRS) := by
  refine ⟨?_, ?_, ⟨rfl, rfl, rfl, rfl, rfl, rfl, rfl, rfl⟩⟩
  · rintro reply (h | h | h) <;> subst h <;> exact ⟨rfl, rfl, rfl⟩
  · intro m hm
    rw [URLIndexGet_nil geoReq m hm]
    by_cases he : m.Error.length > 0
    · simp [Trace.granules, Trace.errors, he]
    · simp [Trace.granules, Trace.errors, he]

theorem timeSelected_iff (geoReq : GeoTileRequestFull) (t : Time) :
    timeSelected geoReq t = true ↔
      (t = geoReq.StartTime ∨
        ∃ endTime, geoReq.EndTime = some endTime ∧ geoReq.StartTime < t ∧ t < endTime) := by
  unfold timeSelected
  cases h : geoReq.EndTime with
  | none => simp
  | some e => simp

/-- C13 as stated fails: in range mode with `EndTime = StartTime` the interval
`StartTime <= t < EndTime` is empty, yet the timestamp equal to `StartTime`
yields a granule. -/
theorem range_mode_emits_start_outside_interval :
    (sampleRequest (some 10)).StartTime = 10 ∧ (sampleRequest (some 10)).EndTime = some 10 ∧
    (URLIndexGet (.metadata { Error := "", GDALDatasets := [sampleDataset [10]] })
      (sampleRequest (some 10))).granules.map (fun g => g.TimeStamp) = [10] ∧
    (URLIndexGet (.metadata { Error := "", GDALDatasets := [sampleDataset [10]] })
      (sampleRequest (some 10))).granules ≠
      ([sampleDataset [10]].flatMap fun ds =>
        (ds.TimeStamps.filter fun t : Time => decide ((10 : Time) ≤ t ∧ t < (10 : Time))).map
          (dataGranule (sampleRequest (some 10)) ds)) := by
  refine ⟨rfl, rfl, by decide, by decide⟩

/-- C13, amended: granule selection in `URLIndexGet`.  For a non-empty dataset
list whose dataset names all match the pattern of `add_thredds_nc`, the emitted
granules are exactly, in dataset order then timestamp order, one granule per
dataset and timestamp `t` such that `t` equals the request's `StartTime` or,
`EndTime` being set, `StartTime < t < EndTime`: in instant mode the timestamps
equal to `StartTime`, in range mode with `StartTime < EndTime` those with
`StartTime <= t < EndTime`.  Each granule carries the dataset's name, name
space and array type, the timestamp, and the request's bounding box, width,
height, offsets and CRS. -/
theorem granule_selection (geoReq : GeoTileRequestFull) (m : MetadataResponse)
    (hne : m.GDALDatasets ≠ [])
    (hmatch : ∀ ds ∈ m.GDALDatasets, threddsMatch ds.DSName = true) :
    (URLIndexGet (.metadata m) geoReq).granules =
      (m.GDALDatasets.flatMap fun ds =>
        (ds.TimeStamps.filter (timeSelected geoReq)).map (dataGranule geoReq ds)) ∧
    (URLIndexGet (.metadata m) geoReq).errors = [] ∧
    (URLIndexGet (.metadata m) geoReq).panicked = false ∧
    (∀ t : Time, timeSelected geoReq t = true ↔
      (t = geoReq.StartTime ∨
        ∃ endTime, geoReq.EndTime = some endTime ∧ geoReq.StartTime < t ∧ t < endTime)) ∧
    (geoReq.EndTime = none → ∀ t : Time, timeSelected geoReq t = true ↔ t = geoReq.StartTime) ∧
    (∀ endTime, geoReq.EndTime = some endTime → geoReq.StartTime < endTime →
      ∀ t : Time, timeSelected geoReq t = true ↔ (geoReq.StartTime ≤ t ∧ t < endTime)) ∧
    (∀ (ds : GDALDataset) (t : Time),
      (dataGranule geoReq ds t).Path = ds.DSName ∧
      (dataGranule geoReq ds t).NameSpace = ds.NameSpace ∧
      (dataGranule geoReq ds t).RasterType = ds.ArrayType ∧
      (dataGranule geoReq ds t).TimeStamp = t ∧
      (dataGranule geoReq ds t).BBox = geoReq.BBox ∧
      (dataGranule geoReq ds t).Width = geoReq.Width ∧
      (dataGranule geoReq ds t).Height = geoReq.Height ∧
      (dataGranule geoReq ds t).OffX = geoReq.OffX ∧
      (dataGranule geoReq ds t).OffY = geoReq.OffY ∧
      (dataGranule geoReq ds t).CRS = geoReq.CRS) := by
  have hrun : URLIndexGet (.metadata m) geoReq =
      { events := (m.GDALDatasets.flatMap fun ds =>
          (ds.TimeStamps.filter (timeSelected geoReq)).map (dataGranule geoReq ds)).map
            Event.granule,
        panicked := false } := by
    cases hds : m.GDALDatasets with
    | nil => exact absurd hds hne
    | cons ds rest =>
      rw [URLIndexGet_cons geoReq m ds rest hds,
        datasetsLoop_eq geoReq (ds :: rest) [] (by rw [← hds]; exact hmatch)]
      simp
  refine ⟨?_, ?_, ?_, timeSelected_iff geoReq, ?_, ?_, ?_⟩
  · rw [hrun]; exact granules_map_granule _
  · rw [hrun]; exact errors_map_granule _
  · rw [hrun]
  · intro hnone t
    rw [timeSelected_iff, hnone]
    simp
  · intro e he hlt t
    rw [timeSelected_iff, he]
    constructor
    · rintro (h | ⟨e1, h1, h2, h3⟩)
      · subst h; exact ⟨le_refl _, hlt⟩
      · cases h1; exact ⟨le_of_lt h2, h3⟩
    · rintro ⟨h1, h2⟩
      rcases eq_or_lt_of_le h1 with h | h
      · exact Or.inl h.symm
      · exact Or.inr ⟨e, rfl, h, h2⟩
  · intro ds t
    exact ⟨rfl, rfl, rfl, rfl, rfl, rfl, rfl, rfl, rfl, rfl⟩

/-- C13, amended, on a reply with one dataset in range mode. -/
theorem granule_selection_witness :
    (URLIndexGet
      (.metadata { Error := "", GDALDatasets := [sampleDataset [9, 10, 11, 12]] })
      (sampleRequest (some 12))).granules.map
        (fun g => g.TimeStamp) = [10, 11] := by
  rw [(granule_selection
    (sampleRequest (some 12))
    { Error := "", GDALDatasets := [sampleDataset [9, 10, 11, 12]] }
    (by decide) (by decide)).1]
  decide

/-- C19: the outcome of the zoom limit probe of `serveWMS` GetMap.  With the
request context not cancelled and an indexer that runs to its end, the file
passed to `utils.GetEmptyTile` is the too-zoomed-out image `zoom.png` if and
only if the output of the indexer holds a granule whose name space is not
`EmptyTile`; otherwise it is the empty path, which yields the NoData image.
When the indexer ends in a run-time failure no placeholder is decided. -/
theorem zoom_probe_outcome (reply : IndexReply) (geoReq : GeoTileRequestFull)
    (hrun : (URLIndexGet reply geoReq).panicked = false) :
    (probePlaceholder (URLIndexGet reply geoReq) = some "/zoom.png" ↔
      ∃ g ∈ (URLIndexGet reply geoReq).granules, g.NameSpace ≠ "EmptyTile") ∧
    ((¬ ∃ g ∈ (URLIndexGet reply geoReq).granules, g.NameSpace ≠ "EmptyTile") →
      probePlaceholder (URLIndexGet reply geoReq) = some "") ∧
    (probePlaceholder (URLIndexGet reply geoReq) = some "/zoom.png" ∨
      probePlaceholder (URLIndexGet reply geoReq) = some "") ∧
    (∀ tr : Trace, tr.panicked = true → probePlaceholder tr = none) := by
  have hkey : probeLoop (URLIndexGet reply geoReq).events 0 = true ↔
      ∃ g ∈ (URLIndexGet reply geoReq).granules, g.NameSpace ≠ "EmptyTile" := by
    cases reply with
    | getFailed => simp [URLIndexGet, probeLoop, Trace.granules, emptyTile]
    | readFailed => simp [URLIndexGet, probeLoop, Trace.granules, emptyTile]
    | jsonInvalid => simp [URLIndexGet, probeLoop, Trace.granules, emptyTile]
    | metadata m =>
      cases hds : m.GDALDatasets with
      | nil =>
        rw [URLIndexGet_nil geoReq m hds]
        by_cases he : m.Error.length > 0
        · simp [probeLoop, Trace.granules, emptyTile, he]
        · simp [probeLoop, Trace.granules, emptyTile, he]
      | cons ds rest =>
        rw [URLIndexGet_cons geoReq m ds rest hds]
        obtain ⟨gs, hgs⟩ := datasetsLoop_events geoReq (ds :: rest) []
        rw [List.nil_append] at hgs
        rw [Trace.granules, hgs, granules_map_granule]
        exact probeLoop_granules gs
  have hne : ("/zoom.png" : String) ≠ "" := by decide
  have hdef : probePlaceholder (URLIndexGet reply geoReq) =
      some (if probeLoop (URLIndexGet reply geoReq).events 0 then "/zoom.png" else "") := by
    simp [probePlaceholder, hrun]
  refine ⟨?_, ?_, ?_, ?_⟩
  · rw [← hkey, hdef]
    by_cases hp : probeLoop (URLIndexGet reply geoReq).events 0 = true
    · simp [hp]
    · simp [hp, hne.symm]
  · intro hno
    rw [← hkey] at hno
    rw [hdef]
    simp [hno]
  · rw [hdef]
    by_cases hp : probeLoop (URLIndexGet reply geoReq).events 0 = true
    · simp [hp]
    · simp [hp]
  · intro tr h
    simp [probePlaceholder, h]

/-- C19 on two replies of the index: one dataset with a time stamp in the
window of the request, and no dataset at all. -/
theorem zoom_probe_outcome_witness :
    (URLIndexGet (.metadata { Error := "", GDALDatasets := [sampleDataset [9, 10, 11, 12]] })
      (sampleRequest (some 12))).panicked = false ∧
    probePlaceholder
      (URLIndexGet (.metadata { Error := "", GDALDatasets := [sampleDataset [9, 10, 11, 12]] })
        (sampleRequest (some 12))) = some "/zoom.png" ∧
    probePlaceholder
      (URLIndexGet (.metadata { Error := "", GDALDatasets := [] }) (sampleRequest (some 12)))
        = some "" :=
  ⟨by decide,
    (zoom_probe_outcome
      (.metadata { Error := "", GDALDatasets := [sampleDataset [9, 10, 11, 12]] })
      (sampleRequest (some 12)) (by decide)).1.mpr (by decide),
    (zoom_probe_outcome (.metadata { Error := "", GDALDatasets := [] })
      (sampleRequest (some 12)) (by decide)).2.1 (by decide)⟩

/-! ## The format of a coverage request on its way to the handler -/

theorem getCoverageChecks_no_format (env : CoverageEnv) (params : utils.WCSParams)
    (h : params.Format = none) : getCoverageChecks env params = .error (.status 400) := by
  unfold getCoverageChecks
  rw [h]
  repeat' split
  all_goals first | rfl | (simp_all)

/-- C14, evaluated where the code fails: with the default value of the `dap`
flag a GetCoverage request without a `format` parameter ends in a run-time
failure of `generalHandler` (the write to `query["format"][0]`), before the
parameters are checked and without a status; called directly with
`params.Format` absent, the checks of `serveWCS` answer 400. -/
theorem missing_format_fails_in_dispatch {PM PC PP : Type} (checkers : Checkers PM PC PP) :
    dapDefault = true ∧
    (coverageQuery []).lookup "format" = none ∧
    generalHandler dapDefault checkers (.get (coverageQuery [])) = .wcs .panic ∧
    (generalHandler dapDefault checkers (.get (coverageQuery []))).status = none ∧
    (∀ (env : CoverageEnv) (params : utils.WCSParams), params.Format = none →
      getCoverageChecks env params = .error (.status 400)) := by
  have hrun : generalHandler dapDefault checkers (.get (coverageQuery [])) = .wcs .panic := by
    simp [generalHandler, dispatchQuery, inferService, coverageQuery, Query.values, wcsArm,
      dapDefault, List.lookup]
  refine ⟨rfl, by decide, hrun, ?_, getCoverageChecks_no_format⟩
  rw [hrun]
  rfl

/-- C15 as stated fails: with the default flags the format `geotiff` of the
request reaches `serveWCS` as `netcdf`, and the headers built for it are not
those of a GeoTIFF. -/
theorem requested_geotiff_served_as_netcdf :
    generalHandler dapDefault formatCheckers (.get (coverageQuery ["geotiff"]))
      = .wcs (.serve (some "netcdf", (coverageQuery ["geotiff"]).set "format" ["netcdf"])) ∧
    coverageHeaders "netcdf" "L" "2020-01-15T00:00:00.000Z"
      ≠ { ContentDisposition := "attachment; filename=L.2020-01-15T00:00:00.000Z.tiff",
          ContentType := "application/geotiff" } := by
  constructor
  · simp [generalHandler, dispatchQuery, inferService, coverageQuery, Query.values, wcsArm,
      dapDefault, List.lookup, formatCheckers, formatField, Query.set]
  · decide

/-- C15, amended: with the default flag values (`dap` set) `generalHandler`
overwrites the first `format` value of a WCS request with `netcdf` before the
parameters are checked, so the request with `format=geotiff`, `coverage=L` and
`time=2020-01-15T00:00:00.000Z` is answered with content type
`application/netcdf` and file name `L.2020-01-15T00:00:00.000Z.nc`; the format
requested by the client reaches `serveWCS`, and gives `application/geotiff` and
`L.2020-01-15T00:00:00.000Z.tiff`, only when `dap` is not set. -/
theorem dap_overrides_format {PM PC PP : Type} (checkers : Checkers PM PC PP)
    (format : String) (rest : List String) :
    wcsArm true checkers (coverageQuery (format :: rest)) =
      (match checkers.wcs ((coverageQuery (format :: rest)).set "format" ("netcdf" :: rest)) with
       | .error _ => .paramError
       | .ok params =>
         .serve (params, (coverageQuery (format :: rest)).set "format" ("netcdf" :: rest))) ∧
    formatField ((coverageQuery (format :: rest)).set "format" ("netcdf" :: rest))
      = some "netcdf" ∧
    generalHandler dapDefault formatCheckers (.get (coverageQuery ["geotiff"]))
      = .wcs (.serve (some "netcdf", (coverageQuery ["geotiff"]).set "format" ["netcdf"])) ∧
    coverageHeaders "netcdf" "L" "2020-01-15T00:00:00.000Z"
      = { ContentDisposition := "attachment; filename=L.2020-01-15T00:00:00.000Z.nc",
          ContentType := "application/netcdf" } ∧
    generalHandler false formatCheckers (.get (coverageQuery ["geotiff"]))
      = .wcs (.serve (some "geotiff", coverageQuery ["geotiff"])) ∧
    coverageHeaders "geotiff" "L" "2020-01-15T00:00:00.000Z"
      = { ContentDisposition := "attachment; filename=L.2020-01-15T00:00:00.000Z.tiff",
          ContentType := "application/geotiff" } := by
  refine ⟨?_, ?_, ?_, by decide, ?_, by decide⟩
  · simp [wcsArm, coverageQuery, Query.values, List.lookup]
  · simp [formatField, Query.set, Query.values, List.lookup]
  · simp [generalHandler, dispatchQuery, inferService, coverageQuery, Query.values, wcsArm,
      dapDefault, List.lookup, formatCheckers, formatField, Query.set]
  · simp [generalHandler, dispatchQuery, inferService, coverageQuery, Query.values, wcsArm,
      List.lookup, formatCheckers, formatField]

/-! ## The CORS header -/

theorem lookup_filter_ne (h : Headers) (key other : String) (hne : key ≠ other) :
    List.lookup other (h.filter fun kv => !(kv.1 == key)) = List.lookup other h := by
  induction h with
  | nil => rfl
  | cons kv rest ih =>
    obtain ⟨k, v⟩ := kv
    by_cases hk : k = key
    · subst hk
      have hb : (other == k) = false := by simpa using fun e => hne e.symm
      simp [List.filter_cons, List.lookup_cons, hb, ih]
    · have hkb : (k == key) = false := by simpa using hk
      by_cases ho : other = k
      · subst ho
        simp [List.filter_cons, List.lookup_cons, hkb]
      · have hob : (other == k) = false := by simpa using ho
        simp [List.filter_cons, List.lookup_cons, hkb, hob, ih]

theorem Headers.get_set_ne (h : Headers) (key value other : String) (hne : key ≠ other) :
    (h.set key value).get other = h.get other := by
  have hb : (other == key) = false := by simpa using fun e => hne e.symm
  unfold Headers.set Headers.get
  rw [List.lookup_cons, hb]
  exact lookup_filter_ne h key other hne

theorem Dispatch.status_ne_404 {PM PC PP : Type} (d : Dispatch PM PC PP) :
    d.status ≠ some 404 := by
  cases d with
  | wms arm => cases arm <;> simp [Dispatch.status]
  | wcs arm => cases arm <;> simp [Dispatch.status]
  | wps arm => cases arm <;> simp [Dispatch.status]
  | _ => simp [Dispatch.status]

/-- C16 as stated fails: the 404 that `owsHandler` answers for an unknown
namespace does not carry the header `Access-Control-Allow-Origin`. -/
theorem unknown_namespace_without_cors :
    (owsHandler dapDefault formatCheckers ["."] "/ows/unknown"
      (.get (coverageQuery ["geotiff"]))).status = some 404 ∧
    (owsHandler dapDefault formatCheckers ["."] "/ows/unknown"
      (.get (coverageQuery ["geotiff"]))).headers.get "Access-Control-Allow-Origin" = none := by
  constructor <;> decide

/-- C16, amended: every response produced by `generalHandler` and the protocol
handlers it calls, that is every response to a request whose namespace is
known, carries the header `Access-Control-Allow-Origin: *`: it is set before
anything else and stays through the later header writes, those of `http.Error`
included; the 404 of `owsHandler` for an unknown namespace is written without
it. -/
theorem cors_header_of_known_namespace {PM PC PP : Type} (dap : Bool)
    (checkers : Checkers PM PC PP) (configMap : List String) (path : String) (req : Request) :
    (owsHandler dap checkers configMap path req).headers.get "Access-Control-Allow-Origin"
      = (if namespaceOf path ∈ configMap then some "*" else none) ∧
    (httpErrorHeaders (owsHandler dap checkers configMap path req).headers).get
        "Access-Control-Allow-Origin"
      = (if namespaceOf path ∈ configMap then some "*" else none) ∧
    (∀ (h : Headers) (key value : String), key ≠ "Access-Control-Allow-Origin" →
      (h.set key value).get "Access-Control-Allow-Origin"
        = h.get "Access-Control-Allow-Origin") ∧
    ((owsHandler dap checkers configMap path req).status = some 404 ↔
      namespaceOf path ∉ configMap) := by
  have hget : (owsHandler dap checkers configMap path req).headers.get
      "Access-Control-Allow-Origin" = (if namespaceOf path ∈ configMap then some "*" else none) := by
    unfold owsHandler
    by_cases hm : namespaceOf path ∈ configMap
    · simp [hm, Headers.set, Headers.get, List.lookup]
    · have hc : configMap.contains (namespaceOf path) = false := by simpa using hm
      simp only [hc, hm, if_false, Bool.false_eq_true]
      decide
  refine ⟨hget, ?_, fun h key value hne => Headers.get_set_ne h key value _ hne, ?_⟩
  · unfold httpErrorHeaders
    rw [Headers.get_set_ne _ _ _ _ (by decide), Headers.get_set_ne _ _ _ _ (by decide), hget]
  · unfold owsHandler OwsResponse.status
    by_cases hm : namespaceOf path ∈ configMap
    · have hc : configMap.contains (namespaceOf path) = true := by simpa using hm
      simp only [hc, if_true, hm, not_true_eq_false, iff_false]
      exact Dispatch.status_ne_404 _
    · have hc : configMap.contains (namespaceOf path) = false := by simpa using hm
      simp [hc, hm]

/-! ## Worker groups -/

theorem workerLoop_eq (checker : WorkerChecker) (crs : String)
    (workerBbox workerWidth workerHeight workerOffX workerOffY : List String)
    (hw : workerBbox.length ≤ workerWidth.length) (hh : workerBbox.length ≤ workerHeight.length)
    (hx : workerBbox.length ≤ workerOffX.length) (hy : workerBbox.length ≤ workerOffY.length)
    (hparse : ∀ i : Nat, i < workerBbox.length →
      (groupTile checker crs (workerBbox.getD i "") (workerWidth.getD i "")
        (workerHeight.getD i "") (workerOffX.getD i "") (workerOffY.getD i "")).isSome) :
    ∀ (n iw : Nat) (acc : List GeoTileRequest), iw + n = workerBbox.length →
    workerLoop checker crs workerWidth workerHeight workerOffX workerOffY
        (workerBbox.drop iw) iw acc
      = .ok (acc ++ (List.range' iw n).filterMap fun i =>
          groupTile checker crs (workerBbox.getD i "") (workerWidth.getD i "")
            (workerHeight.getD i "") (workerOffX.getD i "") (workerOffY.getD i "")) := by
  intro n
  induction n with
  | zero =>
    intro iw acc hlen
    have : workerBbox.drop iw = [] := List.drop_eq_nil_of_le (by omega)
    rw [this]
    simp [workerLoop]
  | succ n ih =>
    intro iw acc hlen
    have hiw : iw < workerBbox.length := by omega
    have hdrop : workerBbox.drop iw = workerBbox.getD iw "" :: workerBbox.drop (iw + 1) := by
      rw [List.drop_eq_getElem_cons hiw]
      congr 1
      simp [List.getD, List.getElem?_eq_getElem hiw]
    have hgw : workerWidth[iw]? = some (workerWidth.getD iw "") := by
      simp [List.getD, List.getElem?_eq_getElem (show iw < workerWidth.length by omega)]
    have hgh : workerHeight[iw]? = some (workerHeight.getD iw "") := by
      simp [List.getD, List.getElem?_eq_getElem (show iw < workerHeight.length by omega)]
    have hgx : workerOffX[iw]? = some (workerOffX.getD iw "") := by
      simp [List.getD, List.getElem?_eq_getElem (show iw < workerOffX.length by omega)]
    have hgy : workerOffY[iw]? = some (workerOffY.getD iw "") := by
      simp [List.getD, List.getElem?_eq_getElem (show iw < workerOffY.length by omega)]
    have hp := hparse iw hiw
    rw [hdrop, workerLoop, hgw, hgh, hgx, hgy]
    simp only
    rw [List.range'_succ, List.filterMap_cons]
    unfold groupTile at hp ⊢
    cases hc : checker (workerBbox.getD iw "") (workerWidth.getD iw "")
        (workerHeight.getD iw "") (workerOffX.getD iw "") (workerOffY.getD iw "") with
    | error e => rw [hc] at hp; simp at hp
    | ok wp =>
      rw [hc] at hp
      simp only at hp ⊢
      cases hW : wp.Width <;> cases hH : wp.Height <;> cases hX : wp.X <;> cases hY : wp.Y <;>
        simp only [hW, hH, hX, hY] at hp ⊢ <;> try (simp at hp)
      rw [ih (iw + 1) _ (by omega)]
      simp [groupTile]

theorem filterMap_range_getElem? {α : Type} (f : Nat → Option α) (k : Nat)
    (hsome : ∀ i : Nat, i < k → (f i).isSome) :
    ((List.range k).filterMap f).length = k ∧
    ∀ i : Nat, i < k → ((List.range k).filterMap f)[i]? = f i := by
  induction k with
  | zero => simp
  | succ n ih =>
    obtain ⟨h1, h2⟩ := ih (fun i hi => hsome i (by omega))
    obtain ⟨a, ha⟩ := Option.isSome_iff_exists.mp (hsome n (by omega))
    rw [List.range_succ, List.filterMap_append]
    have hlast : List.filterMap f [n] = [a] := by simp [List.filterMap_cons, ha]
    rw [hlast]
    constructor
    · simp [h1]
    · intro i hi
      rcases Nat.lt_succ_iff_lt_or_eq.mp hi with hlt | heq
      · rw [List.getElem?_append_left (by omega), h2 i hlt]
      · subst heq
        rw [List.getElem?_append_right (by omega), h1]
        simp [ha]

theorem serveWCSTileRequests_worker (fuel : Nat) (layer : Layer) (peers : List String)
    (probe : Int × Int) (checker : WorkerChecker) (query : Query) (params : WCSParams)
    (width height : Int)
    (hworker : (query.lookup "wbbox").isSome = true)
    (hres : resolveExtent true probe params = .ok (width, height))
    (hclamp : ¬ (height > layer.WcsMaxHeight ∨ width > layer.WcsMaxWidth)) :
    serveWCSTileRequests fuel layer peers probe checker query params =
      (if !workerArityOk query then some (.error (.status 400))
       else
        match workerLoop checker params.CRS (query.values "wwidth") (query.values "wheight")
            (query.values "woffx") (query.values "woffy") (query.values "wbbox") 0 [] with
        | .error e => some (.error e)
        | .ok tiles => some (.ok [tiles])) := by
  unfold serveWCSTileRequests
  simp only [hworker, hres, hclamp, if_false, Bool.not_true, Bool.false_eq_true]

theorem groupTile_of_parse (checker : WorkerChecker) (crs : String)
    (bbox width height offX offY : String) (wp : WorkerParams) (w h x y : Int)
    (hc : checker bbox width height offX offY = .ok wp)
    (hw : wp.Width = some w) (hh : wp.Height = some h) (hx : wp.X = some x)
    (hy : wp.Y = some y) :
    groupTile checker crs bbox width height offX offY
      = some (getGeoTileRequest crs w h wp.BBox x y) := by
  simp only [groupTile, hc, hw, hh, hx, hy]

/-- C17 as stated fails on two requests that carry `wbbox`.  The first has
one `wwidth` value for two `wbbox` values and a master width of zero: the
answer is 500, not 400.  The second has two values for each of the five
parameters, both groups parse, and its master width exceeds the largest width
of the layer: the answer is 400 and no tile request is built. -/
theorem worker_request_refused_before_arity_check :
    serveWCSTileRequests 0
        { WcsMaxWidth := 50000, WcsMaxHeight := 30000,
          WcsMaxTileWidth := 1024, WcsMaxTileHeight := 1024 }
        [] (0, 0) WMSParamsChecker
        [("wbbox", ["100,-45,110,-40", "110,-45,120,-40"]), ("wwidth", ["1024"]),
          ("wheight", ["1024", "1024"]), ("woffx", ["0", "1024"]), ("woffy", ["3072", "3072"])]
        { CRS := "EPSG:4326", BBox := [100, -45, 155, -10], Width := 0, Height := 4096 }
      = some (.error (.status 500)) ∧
    (∃ wp, WMSParamsChecker "100,-45,110,-40" "1024" "1024" "0" "3072" = .ok wp) ∧
    (∃ wp, WMSParamsChecker "110,-45,120,-40" "512" "1024" "1024" "3072" = .ok wp) ∧
    serveWCSTileRequests 0
        { WcsMaxWidth := 50000, WcsMaxHeight := 30000,
          WcsMaxTileWidth := 1024, WcsMaxTileHeight := 1024 }
        [] (0, 0) WMSParamsChecker
        [("wbbox", ["100,-45,110,-40", "110,-45,120,-40"]), ("wwidth", ["1024", "512"]),
          ("wheight", ["1024", "1024"]), ("woffx", ["0", "1024"]), ("woffy", ["3072", "3072"])]
        { CRS := "EPSG:4326", BBox := [100, -45, 155, -10], Width := 60000, Height := 4096 }
      = some (.error (.status 400)) := by
  refine ⟨?_, ?_, ?_, ?_⟩
  · simp [serveWCSTileRequests, resolveExtent]
  · simp [WMSParamsChecker, parseBBox, splitOnComma, parseDecimal, parseUint, digitsValue]
  · simp [WMSParamsChecker, parseBBox, splitOnComma, parseDecimal, parseUint, digitsValue]
  · simp [serveWCSTileRequests, resolveExtent]

/-- C17, amended: the arity check of the worker branch of `serveWCS`.  For a
request that carries `wbbox` and whose master width and height are positive:
if the number of values of one of `wwidth`, `wheight`, `woffx`, `woffy` differs
from the number of `wbbox` values the answer is 400 and no tile request is
built; a master size above the largest size of the layer is answered 400 as
well; if the master size is within the largest size of the layer, all five
counts are `k` and every group parses, exactly `k` tile requests are built, in
parameter order, the `i`-th with the bounding box, width, height, `OffX` and
`OffY` that the checker returns for the `i`-th values of `wbbox`, `wwidth`,
`wheight`, `woffx` and `woffy`, and with the CRS of the request.  A request
that carries `wbbox` and whose master width or height is not positive is
answered 500, whatever its worker parameters. -/
theorem worker_arity_check (fuel : Nat) (layer : Layer) (peers : List String)
    (probe : Int × Int) (checker : WorkerChecker) (query : Query) (params : WCSParams)
    (hworker : (query.lookup "wbbox").isSome = true)
    (hpos : 0 < params.Width ∧ 0 < params.Height) :
    ((∃ p ∈ ["wwidth", "wheight", "woffx", "woffy"],
        (query.values p).length ≠ (query.values "wbbox").length) →
      serveWCSTileRequests fuel layer peers probe checker query params
        = some (.error (.status 400))) ∧
    ((params.Height > layer.WcsMaxHeight ∨ params.Width > layer.WcsMaxWidth) →
      serveWCSTileRequests fuel layer peers probe checker query params
        = some (.error (.status 400))) ∧
    (∀ k : Nat, (query.values "wbbox").length = k → (query.values "wwidth").length = k →
      (query.values "wheight").length = k → (query.values "woffx").length = k →
      (query.values "woffy").length = k →
      (∀ i : Nat, i < k → ∃ (wp : WorkerParams) (w h x y : Int),
        checker ((query.values "wbbox").getD i "") ((query.values "wwidth").getD i "")
          ((query.values "wheight").getD i "") ((query.values "woffx").getD i "")
          ((query.values "woffy").getD i "") = .ok wp ∧
        wp.Width = some w ∧ wp.Height = some h ∧ wp.X = some x ∧ wp.Y = some y) →
      ¬ (params.Height > layer.WcsMaxHeight ∨ params.Width > layer.WcsMaxWidth) →
      ∃ tiles : List GeoTileRequest,
        serveWCSTileRequests fuel layer peers probe checker query params
          = some (.ok [tiles]) ∧
        tiles.length = k ∧
        ∀ i : Nat, i < k → ∃ (t : GeoTileRequest) (wp : WorkerParams),
          tiles[i]? = some t ∧
          checker ((query.values "wbbox").getD i "") ((query.values "wwidth").getD i "")
            ((query.values "wheight").getD i "") ((query.values "woffx").getD i "")
            ((query.values "woffy").getD i "") = .ok wp ∧
          t.BBox = wp.BBox ∧ wp.Width = some t.Width ∧ wp.Height = some t.Height ∧
          wp.X = some t.OffX ∧ wp.Y = some t.OffY ∧ t.CRS = params.CRS) ∧
    (∀ params0 : WCSParams, params0.Width ≤ 0 ∨ params0.Height ≤ 0 →
      serveWCSTileRequests fuel layer peers probe checker query params0
        = some (.error (.status 500))) := by
  have hres : resolveExtent true probe params = .ok (params.Width, params.Height) := by
    have h1 : ¬ (params.Width ≤ 0 ∨ params.Height ≤ 0) := by
      rintro (h | h)
      · exact absurd hpos.1 (not_lt.mpr h)
      · exact absurd hpos.2 (not_lt.mpr h)
    simp only [resolveExtent, if_neg h1]
  refine ⟨?_, ?_, ?_, ?_⟩
  · rintro ⟨p, hp, hne⟩
    have hbad : workerArityOk query = false := by
      unfold workerArityOk
      rw [List.all_eq_false]
      exact ⟨p, hp, by simpa using hne⟩
    by_cases hclamp : params.Height > layer.WcsMaxHeight ∨ params.Width > layer.WcsMaxWidth
    · unfold serveWCSTileRequests
      simp only [hworker, hres, if_pos hclamp]
    · rw [serveWCSTileRequests_worker fuel layer peers probe checker query params
        params.Width params.Height hworker hres hclamp, hbad]
      rfl
  · intro hclamp
    unfold serveWCSTileRequests
    simp only [hworker, hres, if_pos hclamp]
  · intro k hb hw hh hx hy hparse hclamp
    have hrun := serveWCSTileRequests_worker fuel layer peers probe checker query params
      params.Width params.Height hworker hres hclamp
    have hok : workerArityOk query = true := by
      simp [workerArityOk, hb, hw, hh, hx, hy]
    have hval : ∀ i : Nat, i < k → ∃ (wp : WorkerParams) (w h x y : Int),
        checker ((query.values "wbbox").getD i "") ((query.values "wwidth").getD i "")
          ((query.values "wheight").getD i "") ((query.values "woffx").getD i "")
          ((query.values "woffy").getD i "") = .ok wp ∧
        wp.Width = some w ∧ wp.Height = some h ∧ wp.X = some x ∧ wp.Y = some y ∧
        queryGroupTile checker params.CRS query i
          = some (getGeoTileRequest params.CRS w h wp.BBox x y) := by
      intro i hi
      obtain ⟨wp, w, h, x, y, hc, e1, e2, e3, e4⟩ := hparse i hi
      exact ⟨wp, w, h, x, y, hc, e1, e2, e3, e4,
        groupTile_of_parse checker params.CRS _ _ _ _ _ wp w h x y hc e1 e2 e3 e4⟩
    have hsome : ∀ i : Nat, i < k → (queryGroupTile checker params.CRS query i).isSome := by
      intro i hi
      obtain ⟨wp, w, h, x, y, _, _, _, _, _, e⟩ := hval i hi
      rw [e]
      rfl
    have hloop := workerLoop_eq checker params.CRS (query.values "wbbox") (query.values "wwidth")
      (query.values "wheight") (query.values "woffx") (query.values "woffy")
      (by omega) (by omega) (by omega) (by omega)
      (fun i hi => hsome i (by omega)) k 0 [] (by omega)
    rw [List.drop_zero, List.nil_append, List.range'_eq_map_range] at hloop
    simp only [Nat.zero_add, List.map_id'] at hloop
    obtain ⟨h1, h2⟩ := filterMap_range_getElem? (queryGroupTile checker params.CRS query) k hsome
    refine ⟨_, ?_, h1, ?_⟩
    · rw [hrun, hok]
      simp only [Bool.not_true, Bool.false_eq_true, if_false]
      rw [hloop]
      rfl
    · intro i hi
      obtain ⟨wp, w, h, x, y, hc, e1, e2, e3, e4, e⟩ := hval i hi
      refine ⟨getGeoTileRequest params.CRS w h wp.BBox x y, wp, ?_, hc, rfl, e1, e2, e3, e4, rfl⟩
      rw [h2 i hi, e]
  · intro params0 h0
    unfold serveWCSTileRequests
    simp only [hworker, resolveExtent, if_pos h0, if_true]

/-- C17, amended, on a worker request with two groups: with one `wwidth` value
the answer is 400, with two the two tiles are built from the two groups. -/
theorem worker_arity_check_witness :
    serveWCSTileRequests 0
        { WcsMaxWidth := 50000, WcsMaxHeight := 30000,
          WcsMaxTileWidth := 1024, WcsMaxTileHeight := 1024 }
        [] (0, 0) WMSParamsChecker
        [("wbbox", ["100,-45,110,-40", "110,-45,120,-40"]), ("wwidth", ["1024"]),
          ("wheight", ["1024", "1024"]), ("woffx", ["0", "1024"]), ("woffy", ["3072", "3072"])]
        { CRS := "EPSG:4326", BBox := [100, -45, 155, -10], Width := 4096, Height := 4096 }
      = some (.error (.status 400)) ∧
    serveWCSTileRequests 0
        { WcsMaxWidth := 50000, WcsMaxHeight := 30000,
          WcsMaxTileWidth := 1024, WcsMaxTileHeight := 1024 }
        [] (0, 0) WMSParamsChecker
        [("wbbox", ["100,-45,110,-40", "110,-45,120,-40"]), ("wwidth", ["1024", "512"]),
          ("wheight", ["1024", "1024"]), ("woffx", ["0", "1024"]), ("woffy", ["3072", "3072"])]
        { CRS := "EPSG:4326", BBox := [100, -45, 155, -10], Width := 4096, Height := 4096 }
      = some (.ok [[
          { CRS := "EPSG:4326", BBox := [100, -45, 110, -40], Height := 1024, Width := 1024,
            OffX := 0, OffY := 3072, ZoomLimit := 0, QueryLimit := -1 },
          { CRS := "EPSG:4326", BBox := [110, -45, 120, -40], Height := 1024, Width := 512,
            OffX := 1024, OffY := 3072, ZoomLimit := 0, QueryLimit := -1 }]]) :=
  ⟨(worker_arity_check 0
      { WcsMaxWidth := 50000, WcsMaxHeight := 30000,
        WcsMaxTileWidth := 1024, WcsMaxTileHeight := 1024 }
      [] (0, 0) WMSParamsChecker
      [("wbbox", ["100,-45,110,-40", "110,-45,120,-40"]), ("wwidth", ["1024"]),
        ("wheight", ["1024", "1024"]), ("woffx", ["0", "1024"]), ("woffy", ["3072", "3072"])]
      { CRS := "EPSG:4326", BBox := [100, -45, 155, -10], Width := 4096, Height := 4096 }
      (by decide) (by decide)).1 ⟨"wwidth", by simp, by decide⟩,
    by
      simp [serveWCSTileRequests, resolveExtent, workerArityOk, workerLoop, Query.values,
        List.lookup, WMSParamsChecker, parseBBox, splitOnComma, parseDecimal, parseUint,
        digitsValue, getGeoTileRequest]⟩

/-! ## Execute: validation of the geometry -/

theorem executeGeometry_polygon (maxArea : ℚ) (feat : Feature) (rest : List Feature)
    (h : feat.geomType = .Polygon ∨ feat.geomType = .MultiPolygon) :
    executeGeometry maxArea (feat :: rest) =
      (if feat.area = .fin 0 ∨ feat.area.gt (.fin maxArea) = true then .error .areaTooLarge
       else .ok feat) := by
  rcases h with h | h <;> simp [executeGeometry, h]

/-- C18: geometry validation of Execute in `serveWPS`, on the first feature of
the collection.  A Point is accepted without an area check; a Polygon or
MultiPolygon whose area, as `utils.GetArea` returns it, is a number `a` that is
not negative is accepted if and only if `0 < a <= process.MaxArea`, and is
otherwise refused with status 400 and the message that the requested area is
too large; any other geometry type is refused with 400; an empty feature list
is refused with 400.  After a refusal the handler returns, so no drill pipeline
is started.  In terms of the `float64` value alone, a polygon is accepted if
and only if its area is not `0.0` and does not exceed `process.MaxArea`. -/
theorem execute_geometry_validation (maxArea : ℚ) (feat : Feature) (rest : List Feature)
    (a : ℚ) (hgeom : feat.geomType = .Polygon ∨ feat.geomType = .MultiPolygon)
    (harea : feat.area = .fin a) (hnn : 0 ≤ a) :
    (executeGeometry maxArea (feat :: rest) = .ok feat ↔ (0 < a ∧ a ≤ maxArea)) ∧
    (¬ (0 < a ∧ a ≤ maxArea) →
      executeGeometry maxArea (feat :: rest) = .error .areaTooLarge) ∧
    GeometryError.areaTooLarge.status = 400 ∧
    (∀ (p : Feature) (ps : List Feature), p.geomType = .Point →
      executeGeometry maxArea (p :: ps) = .ok p) ∧
    (∀ (p : Feature) (ps : List Feature), p.geomType = .Other →
      executeGeometry maxArea (p :: ps) = .error .notSupported) ∧
    executeGeometry maxArea [] = .error .noFeature ∧
    (∀ e : GeometryError, e.status = 400) ∧
    (∀ (p : Feature) (ps : List Feature), p.geomType = .Polygon ∨ p.geomType = .MultiPolygon →
      (executeGeometry maxArea (p :: ps) = .ok p ↔
        (p.area ≠ .fin 0 ∧ p.area.gt (.fin maxArea) = false)) ∧
      (¬ (p.area ≠ .fin 0 ∧ p.area.gt (.fin maxArea) = false) →
        executeGeometry maxArea (p :: ps) = .error .areaTooLarge)) := by
  have hcond : (feat.area = .fin 0 ∨ feat.area.gt (.fin maxArea) = true) ↔
      ¬ (0 < a ∧ a ≤ maxArea) := by
    rw [harea]
    simp only [Float64.fin.injEq, Float64.gt, decide_eq_true_eq]
    constructor
    · rintro (h | h)
      · rintro ⟨h1, _⟩
        exact absurd h (ne_of_gt h1)
      · rintro ⟨_, h2⟩
        exact absurd h (not_lt.mpr h2)
    · intro h
      by_cases h0 : a = 0
      · exact Or.inl h0
      · right
        by_contra hc
        exact h ⟨lt_of_le_of_ne hnn (Ne.symm h0), not_lt.mp hc⟩
  refine ⟨?_, ?_, rfl, ?_, ?_, rfl, ?_, ?_⟩
  · rw [executeGeometry_polygon maxArea feat rest hgeom]
    by_cases hc : feat.area = .fin 0 ∨ feat.area.gt (.fin maxArea) = true
    · rw [if_pos hc]
      constructor
      · intro hk; cases hk
      · intro hk; exact absurd hk (hcond.mp hc)
    · rw [if_neg hc]
      constructor
      · intro _
        by_contra hk
        exact hc (hcond.mpr hk)
      · intro _; rfl
  · intro hn
    rw [executeGeometry_polygon maxArea feat rest hgeom, if_pos (hcond.mpr hn)]
  · intro p ps h
    simp [executeGeometry, h]
  · intro p ps h
    simp [executeGeometry, h]
  · intro e
    cases e <;> rfl
  · intro p ps h
    rw [executeGeometry_polygon maxArea p ps h]
    by_cases hc : p.area = .fin 0 ∨ p.area.gt (.fin maxArea) = true
    · rw [if_pos hc]
      refine ⟨⟨fun hk => (by cases hk), ?_⟩, fun _ => rfl⟩
      rintro ⟨h1, h2⟩
      rcases hc with hc | hc
      · exact absurd hc h1
      · rw [h2] at hc
        exact absurd hc (by decide)
    · rw [if_neg hc]
      push_neg at hc
      refine ⟨⟨fun _ => ⟨hc.1, by simpa using hc.2⟩, fun _ => rfl⟩, ?_⟩
      intro hn
      exact absurd ⟨hc.1, by simpa using hc.2⟩ hn

/-- A polygon of area 50 under a largest area of 10000. -/
theorem execute_geometry_validation_witness :
    (executeGeometry 10000 [{ geomType := .Polygon, area := .fin 50 }]
        = .ok { geomType := .Polygon, area := .fin 50 } ↔ ((0 : ℚ) < 50 ∧ (50 : ℚ) ≤ 10000)) ∧
    executeGeometry 10000 [{ geomType := .Polygon, area := .fin 50 }]
      = .ok { geomType := .Polygon, area := .fin 50 } ∧
    executeGeometry 10000 [{ geomType := .Polygon, area := .fin 0 }] = .error .areaTooLarge ∧
    executeGeometry 10000 [{ geomType := .MultiPolygon, area := .fin 10001 }]
      = .error .areaTooLarge :=
  ⟨(execute_geometry_validation 10000 { geomType := .Polygon, area := .fin 50 } [] 50
      (Or.inl rfl) rfl (by norm_num)).1,
    by simp [executeGeometry, Float64.gt]; norm_num,
    by simp [executeGeometry, Float64.gt],
    by simp [executeGeometry, Float64.gt]; norm_num⟩

/-! ## Rewriting the request URL -/

/-- C20, evaluated where the code fails: when `width` is the first parameter
after `?` it is not preceded by `&`, the pattern does not match it, and the
rewritten URL carries two `width` parameters, the original `0` first; with
`width` and `height` after another parameter the rewritten URL carries each
once, with the resolved values. -/
theorem url_rewrite_keeps_leading_width :
    rewriteURL
      "/ows?width=0&height=0&service=WCS&request=GetCoverage&coverage=L&crs=EPSG:4326" 512 300
      = "/ows?width=0&service=WCS&request=GetCoverage&coverage=L&crs=EPSG:4326&width=512&height=300" ∧
    urlValues (rewriteURL
      "/ows?width=0&height=0&service=WCS&request=GetCoverage&coverage=L&crs=EPSG:4326" 512 300)
      "width" = ["0", "512"] ∧
    urlValues (rewriteURL
      "/ows?service=WCS&request=GetCoverage&coverage=L&crs=EPSG:4326&width=0&height=0" 512 300)
      "width" = ["512"] ∧
    urlValues (rewriteURL
      "/ows?service=WCS&request=GetCoverage&coverage=L&crs=EPSG:4326&width=0&height=0" 512 300)
      "height" = ["300"] := by
  refine ⟨by decide, by decide, by decide, by decide⟩

/-! ## Handler entry and the GetMap size check -/

/-- C21, evaluated where the code fails: `serveWCS` answers an absent `Request`
with 400 and then, the `if` lacking a `return`, dereferences it in the switch;
`serveWMS` and `serveWPS` return after the same answer. -/
theorem absent_request_dereferenced_in_serveWCS :
    serveWCSEntry none = { written := [400], ending := .panic } ∧
    serveWMSEntry none = { written := [400], ending := .returned } ∧
    serveWPSEntry none = { written := [400], ending := .returned } := by
  refine ⟨rfl, rfl, rfl⟩

/-- C22, evaluated where the code fails: a GetMap of width 5000 against a layer
limit of 512 is answered 400 and, the `if` lacking a `return`, the handler goes
on and sends the oversized tile request to the tile pipeline; whatever the
limits, the run ends by sending the request.  The GetCoverage size check
returns after its 400. -/
theorem oversized_getmap_still_processed :
    (serveWMSGetMapTail "1.3.0" 512 512 1 (.ok (-1))
      { DataSource := "/c", VarList := ["v"], Mask := none, ZoomLimit := 0 }
      "EPSG:4326" [100, -45, 155, -10] 5000 256 10 none).written = [400] ∧
    (∃ geoReq : GeoTileRequestFull,
      (serveWMSGetMapTail "1.3.0" 512 512 1 (.ok (-1))
        { DataSource := "/c", VarList := ["v"], Mask := none, ZoomLimit := 0 }
        "EPSG:4326" [100, -45, 155, -10] 5000 256 10 none).ending
        = .sent (.tilePipeline geoReq) ∧ geoReq.Width = 5000) ∧
    (∀ (wmsMaxWidth wmsMaxHeight : Int) (stylesLen : Nat) (idx : Int) (layer : MapLayer)
        (crs : String) (bbox : List ℚ) (width height : Int) (startTime : Time)
        (endTime : Option Time),
      (serveWMSGetMapTail "1.3.0" wmsMaxWidth wmsMaxHeight stylesLen (.ok idx) layer crs bbox
        width height startTime endTime).ending
        = .sent (zoomLimitBranch "1.3.0" layer.ZoomLimit bbox width height
            (getMapTileRequest layer crs bbox width height startTime endTime))) ∧
    serveWCSTileRequests 5
      { WcsMaxWidth := 512, WcsMaxHeight := 512, WcsMaxTileWidth := 256, WcsMaxTileHeight := 256 }
      [] (0, 0) WMSParamsChecker []
      { CRS := "EPSG:4326", BBox := [100, -45, 155, -10], Width := 5000, Height := 256 }
      = some (.error (.status 400)) := by
  refine ⟨?_, ?_, ?_, ?_⟩
  · simp [serveWMSGetMapTail]
  · refine ⟨getMapTileRequest
      { DataSource := "/c", VarList := ["v"], Mask := none, ZoomLimit := 0 }
      "EPSG:4326" [100, -45, 155, -10] 5000 256 10 none, ?_, rfl⟩
    simp [serveWMSGetMapTail, zoomLimitBranch]
  · intro wmsMaxWidth wmsMaxHeight stylesLen idx layer crs bbox width height startTime endTime
    simp [serveWMSGetMapTail]
  · simp [serveWCSTileRequests, resolveExtent]

/-! ## Empty batches -/

theorem gridCount_5120_1024 : gridCount 5120 1024 = 5 := by
  norm_num [gridCount]
  rfl

theorem gridCount_1024_1024 : gridCount 1024 1024 = 1 := by
  norm_num [gridCount]

theorem tilesPerWorker_5_2 : tilesPerWorker 5 2 = 5 := by
  norm_num [tilesPerWorker, goInt, mathRound, minTilesPerWorker]

theorem workerTileRequests_5_1 {α : Type} (tiles : List α) (h : tiles.length = 5) :
    workerTileRequests tiles 1 = some [tiles, []] := by
  have h2 : ((1 : Nat) : Int) + 1 = 2 := by norm_num
  have h5 : ((5 : Nat) : Int) = 5 := by norm_num
  unfold workerTileRequests
  rw [h, h2, h5, tilesPerWorker_5_2]
  simp [distributeLoop, goSlice, h]

/-- C23, evaluated where the code fails: a 5120 x 1024 coverage cut into five
1024 x 1024 tiles with one peer (`tilesPerWorker = 5`) gives the local batch
all five tiles and the peer an empty batch: the URL forwarded to the peer
carries no `wbbox` group and the peer does not take it for a worker request. -/
theorem peer_batch_empty :
    ∃ (tiles : List GeoTileRequest) (batches : List (List GeoTileRequest)),
      tmpTileRequests 6 "EPSG:4326" 5120 1024 1024 1024 [100, -45, 155, -10] = some tiles ∧
      tiles.length = 5 ∧
      workerTileRequests tiles 1 = some batches ∧
      batches.map List.length = [5, 0] ∧
      batches[1]? = some [] ∧
      forwardedKeys [] = [] ∧ peerIsWorker [] = false := by
  have htiles := tmpTileRequests_eq 6 "EPSG:4326" 5120 1024 1024 1024 [100, -45, 155, -10]
    (by decide) (by decide) (by decide) (by decide)
    (by rw [gridCount_5120_1024]; decide) (by rw [gridCount_1024_1024]; decide)
  have hlen := length_grid (fun r c => tileBody "EPSG:4326" 5120 1024 1024 1024
    [100, -45, 155, -10] ((c : Int) * 1024) ((r : Int) * 1024)) (gridCount 5120 1024)
    (gridCount 1024 1024)
  rw [gridCount_5120_1024, gridCount_1024_1024] at hlen
  rw [gridCount_5120_1024, gridCount_1024_1024] at htiles
  refine ⟨_, _, htiles, hlen, workerTileRequests_5_1 _ hlen, ?_, rfl, rfl, rfl⟩
  simp [hlen]

/-! ## Termination of the tiling loops -/

theorem wrap64_of_range (n : Int) (h1 : -2 ^ 63 ≤ n) (h2 : n < 2 ^ 63) : wrap64 n = n := by
  unfold wrap64
  rw [Int.emod_eq_of_lt (by omega) (by omega)]
  omega

theorem tileLoopX64_eq (W maxXTileSize : Int) :
    ∀ (n fuel : Nat) (x : Int) (acc : List Int), n < fuel →
    (∀ k : Nat, k < n → x + (k : Int) * maxXTileSize < W) →
    W ≤ x + (n : Int) * maxXTileSize →
    (∀ k : Nat, k < n → -2 ^ 63 ≤ x + ((k : Int) + 1) * maxXTileSize ∧
      x + ((k : Int) + 1) * maxXTileSize < 2 ^ 63) →
    tileLoopX64 W maxXTileSize fuel x acc
      = some (acc ++ (List.range n).map fun (k : Nat) => x + (k : Int) * maxXTileSize) := by
  intro n
  induction n with
  | zero =>
    intro fuel x acc hf _ hW _
    obtain ⟨f, rfl⟩ : ∃ f, fuel = f + 1 := ⟨fuel - 1, by omega⟩
    have hx : ¬ x < W := by simpa using hW
    simp [tileLoopX64, hx]
  | succ n ih =>
    intro fuel x acc hf hlt hW hov
    obtain ⟨f, rfl⟩ : ∃ f, fuel = f + 1 := ⟨fuel - 1, by omega⟩
    have hx : x < W := by simpa using hlt 0 (by omega)
    have hw : wrap64 (x + maxXTileSize) = x + maxXTileSize := by
      have := hov 0 (by omega)
      simp only [Nat.cast_zero, zero_add, one_mul] at this
      exact wrap64_of_range _ this.1 this.2
    have hstep := ih f (x + maxXTileSize) (acc ++ [x]) (by omega)
      (fun k hk => by
        have := hlt (k + 1) (by omega)
        push_cast at this
        linarith)
      (by push_cast at hW; linarith)
      (fun k hk => by
        have := hov (k + 1) (by omega)
        push_cast at this
        constructor <;> linarith [this.1, this.2])
    rw [tileLoopX64, if_pos hx, hw, hstep, List.range_succ_eq_map]
    simp only [List.map_cons, List.map_map, List.append_assoc, List.singleton_append,
      Nat.cast_zero, zero_mul, add_zero]
    congr 3
    apply List.map_congr_left
    intro k _
    simp only [Function.comp, Nat.succ_eq_add_one]
    push_cast
    ring

theorem tileLoopY64_eq (W H maxXTileSize maxYTileSize : Int) (fuelX : Nat) (row : List Int)
    (hrow : tileLoopX64 W maxXTileSize fuelX 0 [] = some row) :
    ∀ (n fuel : Nat) (y : Int) (acc : List (Int × Int)), n < fuel →
    (∀ k : Nat, k < n → y + (k : Int) * maxYTileSize < H) →
    H ≤ y + (n : Int) * maxYTileSize →
    (∀ k : Nat, k < n → -2 ^ 63 ≤ y + ((k : Int) + 1) * maxYTileSize ∧
      y + ((k : Int) + 1) * maxYTileSize < 2 ^ 63) →
    tileLoopY64 W H maxXTileSize maxYTileSize fuelX fuel y acc
      = some (acc ++ (List.range n).flatMap fun (k : Nat) =>
          row.map fun x => (x, y + (k : Int) * maxYTileSize)) := by
  intro n
  induction n with
  | zero =>
    intro fuel y acc hf _ hH _
    obtain ⟨f, rfl⟩ : ∃ f, fuel = f + 1 := ⟨fuel - 1, by omega⟩
    have hy : ¬ y < H := by simpa using hH
    simp [tileLoopY64, hy]
  | succ n ih =>
    intro fuel y acc hf hlt hH hov
    obtain ⟨f, rfl⟩ : ∃ f, fuel = f + 1 := ⟨fuel - 1, by omega⟩
    have hy : y < H := by simpa using hlt 0 (by omega)
    have hw : wrap64 (y + maxYTileSize) = y + maxYTileSize := by
      have := hov 0 (by omega)
      simp only [Nat.cast_zero, zero_add, one_mul] at this
      exact wrap64_of_range _ this.1 this.2
    have hstep := ih f (y + maxYTileSize) (acc ++ row.map fun x => (x, y)) (by omega)
      (fun k hk => by
        have := hlt (k + 1) (by omega)
        push_cast at this
        linarith)
      (by push_cast at hH; linarith)
      (fun k hk => by
        have := hov (k + 1) (by omega)
        push_cast at this
        constructor <;> linarith [this.1, this.2])
    rw [tileLoopY64, if_pos hy, hrow]
    simp only
    rw [hw, hstep, List.range_succ_eq_map]
    simp only [List.flatMap_cons, List.flatMap_map, List.append_assoc,
      Nat.cast_zero, zero_mul, add_zero]
    congr 3
    apply List.flatMap_congr
    intro k _
    simp only [Function.comp, Nat.succ_eq_add_one]
    apply List.map_congr_left
    intro x _
    congr 1
    push_cast
    ring

/-- The iterations in closed form when no counter overflows. -/
theorem tileIterations64_eq (fuel : Nat) (W H maxXTileSize maxYTileSize : Int)
    (hW : 0 < W) (hH : 0 < H) (hmx : 0 < maxXTileSize) (hmy : 0 < maxYTileSize)
    (hox : W + maxXTileSize ≤ 2 ^ 63) (hoy : H + maxYTileSize ≤ 2 ^ 63)
    (hfx : gridCount W maxXTileSize < fuel) (hfy : gridCount H maxYTileSize < fuel) :
    tileIterations64 fuel W H maxXTileSize maxYTileSize
      = some ((List.range (gridCount H maxYTileSize)).flatMap fun (r : Nat) =>
          (List.range (gridCount W maxXTileSize)).map fun (c : Nat) =>
            ((c : Int) * maxXTileSize, (r : Int) * maxYTileSize)) := by
  have hrow : tileLoopX64 W maxXTileSize fuel 0 []
      = some ((List.range (gridCount W maxXTileSize)).map fun (c : Nat) =>
          (c : Int) * maxXTileSize) := by
    have := tileLoopX64_eq W maxXTileSize (gridCount W maxXTileSize) fuel 0 [] hfx
      (fun k hk => by simpa using gridCount_lt W maxXTileSize hmx k hk)
      (by simpa using gridCount_ge W maxXTileSize hmx hW)
      (fun k hk => by
        have h1 := gridCount_lt W maxXTileSize hmx k hk
        have h2 : (0 : Int) ≤ (k : Int) * maxXTileSize :=
          Int.mul_nonneg (Int.ofNat_nonneg k) hmx.le
        constructor
        · nlinarith
        · nlinarith)
    simpa using this
  have := tileLoopY64_eq W H maxXTileSize maxYTileSize fuel _ hrow
    (gridCount H maxYTileSize) fuel 0 [] hfy
    (fun k hk => by simpa using gridCount_lt H maxYTileSize hmy k hk)
    (by simpa using gridCount_ge H maxYTileSize hmy hH)
    (fun k hk => by
      have h1 := gridCount_lt H maxYTileSize hmy k hk
      have h2 : (0 : Int) ≤ (k : Int) * maxYTileSize :=
        Int.mul_nonneg (Int.ofNat_nonneg k) hmy.le
      constructor
      · nlinarith
      · nlinarith)
  simpa [tileIterations64, List.map_map, Function.comp] using this

theorem tileLoopX64_zero_step (W : Int) (hW : 0 < W) :
    ∀ (fuel : Nat) (acc : List Int), tileLoopX64 W 0 fuel 0 acc = none := by
  intro fuel
  induction fuel with
  | zero => intro acc; rfl
  | succ n ih =>
    intro acc
    have h0 : wrap64 (0 + 0) = 0 := by decide
    rw [tileLoopX64, if_pos hW, h0]
    exact ih _

theorem tileLoopY64_zero_step (W H maxXTileSize : Int) (hH : 0 < H) (fuelX : Nat) :
    ∀ (fuel : Nat) (acc : List (Int × Int)),
      tileLoopY64 W H maxXTileSize 0 fuelX fuel 0 acc = none := by
  intro fuel
  induction fuel with
  | zero => intro acc; rfl
  | succ n ih =>
    intro acc
    have h0 : wrap64 (0 + 0) = 0 := by decide
    rw [tileLoopY64, if_pos hH]
    cases tileLoopX64 W maxXTileSize fuelX 0 [] with
    | none => rfl
    | some xs =>
      simp only
      rw [h0]
      exact ih _

theorem tileIterations64_zero_step (W H maxXTileSize maxYTileSize : Int) (hW : 0 < W)
    (hH : 0 < H) (h0 : maxXTileSize = 0 ∨ maxYTileSize = 0) :
    ∀ fuel : Nat, tileIterations64 fuel W H maxXTileSize maxYTileSize = none := by
  intro fuel
  unfold tileIterations64
  rcases h0 with h | h
  · subst h
    cases fuel with
    | zero => rfl
    | succ n =>
      rw [tileLoopY64, if_pos hH, tileLoopX64_zero_step W hW]
  · subst h
    exact tileLoopY64_zero_step W H maxXTileSize hH fuel fuel []

/-- The inner loop with `maxXTileSize = -2^62` over a width of 5: the counter
takes the values 0, `-2^62`, `-2^63` and then wraps around to `2^62`, which
ends the loop. -/
theorem tileIterations64_negative_step :
    tileIterations64 4 5 3 (-4611686018427387904) 2
      = some [(0, 0), (-4611686018427387904, 0), (-9223372036854775808, 0),
          (0, 2), (-4611686018427387904, 2), (-9223372036854775808, 2)] := by
  decide

theorem tileLoopX64_overflow_cycle :
    ∀ (fuel : Nat) (x : Int) (acc : List Int),
      (x = 0 ∨ x = 4611686018427387904 ∨ x = -9223372036854775808 ∨
        x = -4611686018427387904) →
      tileLoopX64 9223372036854775807 4611686018427387904 fuel x acc = none := by
  intro fuel
  induction fuel with
  | zero => intro x acc _; rfl
  | succ n ih =>
    intro x acc hx
    have hlt : x < 9223372036854775807 := by
      rcases hx with h | h | h | h <;> subst h <;> decide
    rw [tileLoopX64, if_pos hlt]
    apply ih
    rcases hx with h | h | h | h <;> subst h <;> decide

/-- Positive sizes whose sum overflows: with `W = 2^63 - 1` and
`maxXTileSize = 2^62` the counter runs through 0, `2^62`, `-2^63`, `-2^62` and
0 again, and never reaches `W`. -/
theorem tileIterations64_overflow :
    ∀ fuel : Nat, tileIterations64 fuel 9223372036854775807 1 4611686018427387904 1 = none := by
  intro fuel
  unfold tileIterations64
  cases fuel with
  | zero => rfl
  | succ n =>
    rw [tileLoopY64, if_pos (by decide), tileLoopX64_overflow_cycle (n + 1) 0 [] (Or.inl rfl)]

theorem gridCount_cast (extent step : Int) (hs : 0 < step) (he : 0 < extent) :
    ((gridCount extent step : Nat) : Int) = ⌈(extent : ℚ) / (step : ℚ)⌉ := by
  unfold gridCount
  have hs1 : (0 : ℚ) < (step : ℚ) := by exact_mod_cast hs
  have he1 : (0 : ℚ) < (extent : ℚ) := by exact_mod_cast he
  have hc : 0 < ⌈(extent : ℚ) / (step : ℚ)⌉ := Int.ceil_pos.mpr (div_pos he1 hs1)
  exact Int.toNat_of_nonneg hc.le

/-- C24 as stated fails in both directions once the counters are of type `int`.
With `maxXTileSize = -2^62`, which is not positive, the loops over a frame of
5 x 3 finish after six iterations, the counter `x` wrapping around to `2^62`
after three steps.  With `W = 2^63 - 1` and `maxXTileSize = 2^62`, both
positive, the counter `x` never reaches `W` and the loops do not finish. -/
theorem tiling_counter_wraps_around :
    (-4611686018427387904 : Int) ≤ 0 ∧ (5 : Int) > -4611686018427387904 ∧
    tileIterations64 4 5 3 (-4611686018427387904) 2
      = some [(0, 0), (-4611686018427387904, 0), (-9223372036854775808, 0),
          (0, 2), (-4611686018427387904, 2), (-9223372036854775808, 2)] ∧
    (0 : Int) < 4611686018427387904 ∧ (9223372036854775807 : Int) > 4611686018427387904 ∧
    (∀ fuel : Nat,
      tileIterations64 fuel 9223372036854775807 1 4611686018427387904 1 = none) :=
  ⟨by decide, by decide, tileIterations64_negative_step, by decide, by decide,
    tileIterations64_overflow⟩

/-- C24, amended: the tiling loops of `serveWCS` with their counters of type
`int`, for a frame of positive size (in particular when `W > maxXTileSize` or
`H > maxYTileSize`, the condition under which `serveWCS` runs them).  When both
maximal tile sizes are positive and no counter overflows (`W + maxXTileSize`
and `H + maxYTileSize` at most `2^63`) the loops finish, within any step budget
above `W` and `H`, after `ceil(H/maxYTileSize) * ceil(W/maxXTileSize)`
iterations of the inner body, at the grid origins `(c * maxXTileSize,
r * maxYTileSize)` in row order, one tile being appended at each.  When one of
the maximal tile sizes is zero they do not finish within any budget. -/
theorem tiling_terminates_without_overflow (crs : String)
    (W H maxXTileSize maxYTileSize : Int) (bbox : List ℚ) (hW : 0 < W) (hH : 0 < H) :
    (0 < maxXTileSize ∧ 0 < maxYTileSize →
      W + maxXTileSize ≤ 2 ^ 63 → H + maxYTileSize ≤ 2 ^ 63 →
      ∀ fuel : Nat, W.toNat < fuel → H.toNat < fuel →
        ∃ iterations : List (Int × Int),
          tileIterations64 fuel W H maxXTileSize maxYTileSize = some iterations ∧
          (iterations.length : Int)
            = ⌈(H : ℚ) / (maxYTileSize : ℚ)⌉ * ⌈(W : ℚ) / (maxXTileSize : ℚ)⌉ ∧
          iterations
            = ((List.range (gridCount H maxYTileSize)).flatMap fun (r : Nat) =>
                (List.range (gridCount W maxXTileSize)).map fun (c : Nat) =>
                  ((c : Int) * maxXTileSize, (r : Int) * maxYTileSize)) ∧
          tmpTileRequests fuel crs W H maxXTileSize maxYTileSize bbox
            = some (iterations.map fun p =>
                tileBody crs W H maxXTileSize maxYTileSize bbox p.1 p.2)) ∧
    (maxXTileSize = 0 ∨ maxYTileSize = 0 →
      ∀ fuel : Nat, tileIterations64 fuel W H maxXTileSize maxYTileSize = none) := by
  constructor
  · rintro ⟨hmx, hmy⟩ hox hoy fuel hfx hfy
    have hnx := gridCount_le_toNat W maxXTileSize hmx hW
    have hny := gridCount_le_toNat H maxYTileSize hmy hH
    refine ⟨_, tileIterations64_eq fuel W H maxXTileSize maxYTileSize hW hH hmx hmy hox hoy
      (by omega) (by omega), ?_, rfl, ?_⟩
    · rw [length_grid (fun r c => (((c : Int) * maxXTileSize, (r : Int) * maxYTileSize)))]
      push_cast
      rw [gridCount_cast H maxYTileSize hmy hH, gridCount_cast W maxXTileSize hmx hW]
    · rw [tmpTileRequests_eq fuel crs W H maxXTileSize maxYTileSize bbox hW hH hmx hmy
        (by omega) (by omega)]
      simp only [List.map_flatMap, List.map_map]
      rfl
  · intro h0
    exact tileIterations64_zero_step W H maxXTileSize maxYTileSize hW hH h0

/-- C24, amended, on a 5 x 3 frame: tiles of 2 x 2 give six iterations, a zero
tile width gives none within ten steps. -/
theorem tiling_terminates_without_overflow_witness :
    (∃ iterations : List (Int × Int),
      tileIterations64 6 5 3 2 2 = some iterations ∧
      (iterations.length : Int) = ⌈((3 : Int) : ℚ) / ((2 : Int) : ℚ)⌉
        * ⌈((5 : Int) : ℚ) / ((2 : Int) : ℚ)⌉ ∧
      iterations
        = ((List.range (gridCount 3 2)).flatMap fun (r : Nat) =>
            (List.range (gridCount 5 2)).map fun (c : Nat) => ((c : Int) * 2, (r : Int) * 2)) ∧
      tmpTileRequests 6 "EPSG:4326" 5 3 2 2 [100, -45, 155, -10]
        = some (iterations.map fun p =>
            tileBody "EPSG:4326" 5 3 2 2 [100, -45, 155, -10] p.1 p.2)) ∧
    tileIterations64 6 5 3 2 2 = some [(0, 0), (2, 0), (4, 0), (0, 2), (2, 2), (4, 2)] ∧
    tileIterations64 10 5 3 0 2 = none :=
  ⟨(tiling_terminates_without_overflow "EPSG:4326" 5 3 2 2 [100, -45, 155, -10] (by decide)
      (by decide)).1 ⟨by decide, by decide⟩ (by decide) (by decide) 6 (by decide) (by decide),
    by decide,
    (tiling_terminates_without_overflow "EPSG:4326" 5 3 0 2 [100, -45, 155, -10] (by decide)
      (by decide)).2 (Or.inl rfl) 10⟩

/-! ## Granules of a reply with datasets -/

/-- C25, evaluated where the code fails: for a reply whose only dataset has no
timestamp equal to the requested instant, `URLIndexGet` emits no granule and
sends no error; for a reply without datasets it emits the EmptyTile sentinel. -/
theorem no_granule_without_matching_timestamp :
    (URLIndexGet (.metadata { Error := "", GDALDatasets := [sampleDataset [11]] })
      (sampleRequest none)).granules = [] ∧
    (URLIndexGet (.metadata { Error := "", GDALDatasets := [sampleDataset [11]] })
      (sampleRequest none)).errors = [] ∧
    (URLIndexGet (.metadata { Error := "", GDALDatasets := [sampleDataset [11]] })
      (sampleRequest none)).panicked = false ∧
    (URLIndexGet (.metadata { Error := "", GDALDatasets := [] })
      (sampleRequest none)).granules = [emptyTile (sampleRequest none)] := by
  refine ⟨by decide, by decide, by decide, by decide⟩

/-- C26, evaluated where the code fails: the name `/g/data/a.tif` of a dataset
does not match the pattern of `add_thredds_nc`, the match result is nil and
reading its element 2 is a run-time failure: `URLIndexGet` stops without a
granule. -/
theorem unmatched_ds_name_fails :
    sampleTiffDataset.DSName = "/g/data/a.tif" ∧
    threddsMatch "/g/data/a.tif" = false ∧
    add_thredds_nc sampleTiffDataset = none ∧
    (URLIndexGet (.metadata { Error := "", GDALDatasets := [sampleTiffDataset] })
      (sampleRequest none)).panicked = true ∧
    (URLIndexGet (.metadata { Error := "", GDALDatasets := [sampleTiffDataset] })
      (sampleRequest none)).granules = [] := by
  refine ⟨rfl, by decide, by decide, by decide, by decide⟩

/-! ## GetCapabilities without a version -/

/-- C27, evaluated where the code fails: with no version parameter the version
check of GetCapabilities is passed and the choice of the template then
dereferences the absent version, a run-time failure; with a version the default
template is rendered unless the version is `1.1.1`. -/
theorem capabilities_without_version_fails (CheckWMSVersion : String → Bool) :
    serveWMSGetCapabilities CheckWMSVersion none = .panic ∧
    serveWMSGetCapabilities (fun _ => true) (some "1.3.0")
      = .render "/templates/WMS_GetCapabilities.tpl" ∧
    serveWMSGetCapabilities (fun _ => true) (some "1.1.1")
      = .render "/templates/WMS_GetCapabilities_v1.1.1.tpl" := by
  refine ⟨rfl, by decide, by decide⟩

end GSky
